import Mathlib

/-!
Shallow embedding of `gwbisync.py`, a batch reconciler that syncs Google
Workspace group membership into a Beyond Identity (BI) tenant and mirrors
per-user passkey-enrollment into a synthetic `BYID_Enrolled` Google group.

Remote systems are modelled as explicit state; every HTTP call made by the
script is recorded as an `Event` (reads and mutations separately), and the
create/update/skip/offboard branch points are recorded as `Decision`s.
Failure behaviour of the remote APIs is injected through a `Faults` oracle
(HTTP status codes per call site); `noFaults` is the all-success oracle.
-/

namespace GWBI

/-- A Google Workspace user resource, as returned by `service.users().get`. -/
structure GUser where
  id : String
  primaryEmail : String
  givenName : String
  familyName : String
  suspended : Bool
deriving Repr, DecidableEq

/-- A Beyond Identity SCIM user resource. -/
structure BIUser where
  id : String
  externalId : Option String
  userName : String
  givenName : String
  familyName : String
  active : Bool
deriving Repr, DecidableEq

/-- A Beyond Identity SCIM group resource; `members` holds BI user ids. -/
structure BIGroup where
  id : String
  displayName : String
  members : List String
deriving Repr, DecidableEq

/-- The Beyond Identity tenant state.  `enrolled` is the set of BI user ids
with an active passkey (the native-API `has_active_passkey` flag); it is
read-only for the sync script.  `nextUid`/`nextGid` feed the server-assigned
ids of newly created resources. -/
structure BIState where
  users : List BIUser
  groups : List BIGroup
  enrolled : List String
  nextUid : Nat
  nextGid : Nat
deriving Repr, DecidableEq

/-- The Google Workspace side, read by the script: paginated member lists per
group email, user resources, whether the `BYID_Enrolled` group already
exists, and its current membership (emails). -/
structure GoogleInput where
  groupPages : List (String × List (List String))
  users : List GUser
  enrollGroupExists : Bool
  enrollMembers : List String
deriving Repr, DecidableEq

/-- The configuration surface consumed by the script: `GWS_GROUPS`,
`BI_GROUP_PREFIX` (`pfx`), `GWS_DOMAIN_NAME` (`domain`) and `TEST_MODE`. -/
structure Config where
  gwsGroups : List String
  pfx : String
  domain : String
  testMode : Bool
deriving Repr, DecidableEq

/-- Fault injection oracle: HTTP status (or failure flag) for each call site
of the script.  `noFaults` models an all-success environment. -/
structure Faults where
  enrollCheckError : Bool
  enrollCreateFail : Bool
  listAllStatus : Nat
  groupFilterStatus : String → Nat
  groupCreateStatus : String → Nat
  membersFailAt : String → Option Nat
  userDetailsFail : String → Bool
  userFilterStatus : String → Nat
  userPutStatus : String → Nat
  userCreateStatus : String → Nat
  groupGetStatus : String → Nat
  groupPutStatus : String → Nat
  userGetStatus : String → Nat
  suspendPutStatus : String → Nat
  enrollStatusStatus : String → Nat
  userNameFilterStatus : String → Nat

/-- The all-success fault oracle. -/
def noFaults : Faults where
  enrollCheckError := false
  enrollCreateFail := false
  listAllStatus := 200
  groupFilterStatus := fun _ => 200
  groupCreateStatus := fun _ => 201
  membersFailAt := fun _ => none
  userDetailsFail := fun _ => false
  userFilterStatus := fun _ => 200
  userPutStatus := fun _ => 200
  userCreateStatus := fun _ => 201
  groupGetStatus := fun _ => 200
  groupPutStatus := fun _ => 200
  userGetStatus := fun _ => 200
  suspendPutStatus := fun _ => 200
  enrollStatusStatus := fun _ => 200
  userNameFilterStatus := fun _ => 200

/-- Every remote call issued by the script, reads and mutations alike. -/
inductive Event where
  | readEnrollGroupGet
  | readUserByName (email : String)
  | readListAllUsers
  | readGroupFilter (email : String)
  | readUserFilter (extId : String)
  | readGroupGet (gid : String)
  | readUserGet (uid : String)
  | readEnrollment (bid : String)
  | readMembersList (email : String)
  | readUserDetails (uid : String)
  | mutCreateEnrollGroup
  | mutCreateGroup (name : String)
  | mutCreateUser (extId : String)
  | mutUpdateUser (bid : String)
  | mutAddMember (gid : String) (bid : String)
  | mutRemoveMember (gid : String) (bid : String)
  | mutSuspendPut (bid : String)
  | mutEnrollInsert (email : String)
  | mutEnrollDelete (email : String)
deriving Repr, DecidableEq

/-- True on events that issue a mutating request to a remote system. -/
def Event.isMut : Event → Bool
  | .mutCreateEnrollGroup => true
  | .mutCreateGroup _ => true
  | .mutCreateUser _ => true
  | .mutUpdateUser _ => true
  | .mutAddMember _ _ => true
  | .mutRemoveMember _ _ => true
  | .mutSuspendPut _ => true
  | .mutEnrollInsert _ => true
  | .mutEnrollDelete _ => true
  | _ => false

/-- The branch points of a pass: create vs update (in
`create_or_update_bi_user`), skip (member whose details could not be read),
offboard (record swept in the final phase). -/
inductive Decision where
  | createUser (extId : String)
  | updateUser (extId : String)
  | skipMember (uid : String)
  | offboard (uid : String)
deriving Repr, DecidableEq

/-- The mutable state threaded through one pass: the BI tenant, the
`BYID_Enrolled` Google group membership, and the two traces. -/
structure St where
  bi : BIState
  enroll : List String
  events : List Event
  decisions : List Decision
deriving Repr, DecidableEq

/-- Append call events to the trace. -/
def St.push (st : St) (es : List Event) : St :=
  { st with events := st.events ++ es }

/-- Append a decision to the decision trace. -/
def St.addDec (st : St) (d : Decision) : St :=
  { st with decisions := st.decisions ++ [d] }

/-- Pagination loop of `get_group_members`: `failAt = some k` injects an
exception on the k-th `members().list` call; accumulated pages are then
discarded by the `except` handler (modelled by returning `none`). -/
def get_group_members_go : List (List String) → Option Nat → List String → Option (List String)
  | _, some 0, _ => none
  | [], _, acc => some acc
  | p :: rest, none, acc => get_group_members_go rest none (acc ++ p)
  | p :: rest, some (k + 1), acc => get_group_members_go rest (some k) (acc ++ p)

/-- `get_group_members`: follows `nextPageToken` until absent, concatenating
the `members` of every page; the enclosing `try`/`except Exception` turns
ANY error (transport or API alike) into a logged empty result. -/
def get_group_members (pages : List (List String)) (failAt : Option Nat) : List String :=
  (get_group_members_go pages failAt []).getD []

/-- Member pages of a Google group, keyed by group email. -/
def pagesOf (g : GoogleInput) (e : String) : List (List String) :=
  ((g.groupPages.find? (fun p => p.1 == e)).map (fun p => p.2)).getD []

/-- All member ids of a Google group (the error-free fetch result). -/
def srcMembers (g : GoogleInput) (e : String) : List String :=
  (pagesOf g e).flatten

/-- Google user lookup by id (`service.users().get(userKey=...)`). -/
def lookupGUser (g : GoogleInput) (uid : String) : Option GUser :=
  g.users.find? (fun u => u.id == uid)

/-- `get_user_details`: in TEST_MODE fabricates a test user without any API
call; live, returns the Google resource or `None` on any error. -/
def get_user_details (cfg : Config) (g : GoogleInput) (f : Faults) (uid : String) :
    Option GUser × List Event :=
  if cfg.testMode then
    (some { id := uid, primaryEmail := "test_" ++ uid ++ "@example.com",
            givenName := "Test", familyName := "User", suspended := false }, [])
  else
    (if f.userDetailsFail uid then none else lookupGUser g uid,
     [Event.readUserDetails uid])

/-- Server-assigned id of the n-th BI group created during the pass. -/
def freshGroupId (n : Nat) : String := "bi-group-" ++ toString n

/-- Server-assigned id of the n-th BI user created during the pass. -/
def freshUserId (n : Nat) : String := "bi-user-" ++ toString n

/-- The create path of `create_bi_group` (reached when the displayName
filter did not return an existing group). -/
def create_bi_group_post (cfg : Config) (f : Faults) (group_email : String) (st : St) :
    Option String × St :=
  if cfg.testMode then (some "test-group-id", st)
  else
    let st := st.push [Event.mutCreateGroup (cfg.pfx ++ group_email)]
    if f.groupCreateStatus group_email == 201 then
      let gid := freshGroupId st.bi.nextGid
      (some gid,
       { st with bi := { st.bi with
           groups := st.bi.groups ++ [{ id := gid, displayName := cfg.pfx ++ group_email,
                                        members := [] }],
           nextGid := st.bi.nextGid + 1 } })
    else (none, st)

/-- `create_bi_group`: filter BI groups by the derived displayName
`BI_GROUP_PREFIX + group_email`; return the first match, else create. -/
def create_bi_group (cfg : Config) (f : Faults) (group_email : String) (st : St) :
    Option String × St :=
  let st := st.push [Event.readGroupFilter group_email]
  if f.groupFilterStatus group_email == 200 then
    match st.bi.groups.filter (fun h => h.displayName == cfg.pfx ++ group_email) with
    | gr :: _ => (some gr.id, st)
    | [] => create_bi_group_post cfg f group_email st
  else create_bi_group_post cfg f group_email st

/-- Field update performed by the PUT branch of `create_or_update_bi_user`. -/
def updateBIUser (u : BIUser) (d : GUser) : BIUser :=
  { u with userName := d.primaryEmail, givenName := d.givenName,
           familyName := d.familyName, active := !d.suspended,
           externalId := some d.id }

/-- The create path of `create_or_update_bi_user` (no existing user matched
the externalId filter). -/
def create_bi_user_post (cfg : Config) (f : Faults) (d : GUser) (st : St) :
    Option String × St :=
  let st := st.addDec (Decision.createUser d.id)
  if cfg.testMode then (some "test-user-id", st)
  else
    let st := st.push [Event.mutCreateUser d.id]
    if f.userCreateStatus d.id == 201 then
      let uid := freshUserId st.bi.nextUid
      (some uid,
       { st with bi := { st.bi with
           users := st.bi.users ++ [{ id := uid, externalId := some d.id,
                                      userName := d.primaryEmail, givenName := d.givenName,
                                      familyName := d.familyName, active := true }],
           nextUid := st.bi.nextUid + 1 } })
    else (none, st)

/-- `create_or_update_bi_user`: filter by `externalId eq d.id`; if a user is
found, PUT a full-resource update to it, else POST a new user. -/
def create_or_update_bi_user (cfg : Config) (f : Faults) (d : GUser) (st : St) :
    Option String × St :=
  let st := st.push [Event.readUserFilter d.id]
  if f.userFilterStatus d.id == 200 then
    match st.bi.users.filter (fun u => u.externalId == some d.id) with
    | u :: _ =>
      let st := st.addDec (Decision.updateUser d.id)
      if cfg.testMode then (some u.id, st)
      else
        let st := st.push [Event.mutUpdateUser u.id]
        if f.userPutStatus u.id == 200 then
          (some u.id,
           { st with bi := { st.bi with
               users := st.bi.users.map (fun v => if v.id == u.id then updateBIUser v d else v) } })
        else (none, st)
    | [] => create_bi_user_post cfg f d st
  else create_bi_user_post cfg f d st

/-- BI group lookup by id (`GET {BI_SCIM_GROUPS_URL}/{group_id}`). -/
def lookupBIGroup (s : BIState) (gid : String) : Option BIGroup :=
  s.groups.find? (fun h => h.id == gid)

/-- BI user lookup by id (`GET {BI_SCIM_USERS_URL}/{user_id}`). -/
def lookupBIUser (s : BIState) (uid : String) : Option BIUser :=
  s.users.find? (fun u => u.id == uid)

/-- `add_user_to_group`: fetch the group, skip the PUT when the user is
already a member, otherwise PUT the group with the user appended. -/
def add_user_to_group (cfg : Config) (f : Faults) (user_id group_id : String) (st : St) :
    Bool × St :=
  let st := st.push [Event.readGroupGet group_id]
  if f.groupGetStatus group_id == 200 then
    match lookupBIGroup st.bi group_id with
    | none => (false, st)
    | some gr =>
      if gr.members.contains user_id then (true, st)
      else if cfg.testMode then (true, st)
      else
        let st := st.push [Event.mutAddMember group_id user_id]
        if f.groupPutStatus group_id == 200 then
          (true,
           { st with bi := { st.bi with
               groups := st.bi.groups.map (fun h =>
                 if h.id == group_id then { h with members := h.members ++ [user_id] } else h) } })
        else (false, st)
  else (false, st)

/-- `remove_user_from_group`: fetch the group, skip the PUT when the user is
not a member, otherwise PUT the group with the user filtered out. -/
def remove_user_from_group (cfg : Config) (f : Faults) (user_id group_id : String) (st : St) :
    Bool × St :=
  let st := st.push [Event.readGroupGet group_id]
  if f.groupGetStatus group_id == 200 then
    match lookupBIGroup st.bi group_id with
    | none => (false, st)
    | some gr =>
      if !gr.members.contains user_id then (true, st)
      else if cfg.testMode then (true, st)
      else
        let st := st.push [Event.mutRemoveMember group_id user_id]
        if f.groupPutStatus group_id == 200 then
          (true,
           { st with bi := { st.bi with
               groups := st.bi.groups.map (fun h =>
                 if h.id == group_id then { h with members := h.members.filter (fun m => m != user_id) }
                 else h) } })
        else (false, st)
  else (false, st)

/-- `suspend_user`: fetch the user, skip the PUT when already inactive,
otherwise PUT the user with `active := false`. -/
def suspend_user (cfg : Config) (f : Faults) (user_id : String) (st : St) : Bool × St :=
  let st := st.push [Event.readUserGet user_id]
  if f.userGetStatus user_id == 200 then
    match lookupBIUser st.bi user_id with
    | none => (false, st)
    | some u =>
      if u.active == false then (true, st)
      else if cfg.testMode then (true, st)
      else
        let st := st.push [Event.mutSuspendPut user_id]
        if f.suspendPutStatus user_id == 200 then
          (true,
           { st with bi := { st.bi with
               users := st.bi.users.map (fun v =>
                 if v.id == user_id then { v with active := false } else v) } })
        else (false, st)
  else (false, st)

/-- `create_or_get_byid_enrolled_group`: derive the synthetic group address
from the domain; in TEST_MODE return it with no API call, else get-or-create
it, returning `none` on unrecoverable failure (pass-fatal in `main`). -/
def create_or_get_byid_enrolled_group (cfg : Config) (g : GoogleInput) (f : Faults) (st : St) :
    Option String × St :=
  let group_email := "BYID_Enrolled@" ++ cfg.domain
  if cfg.testMode then (some group_email, st)
  else
    let st := st.push [Event.readEnrollGroupGet]
    if f.enrollCheckError then (none, st)
    else if g.enrollGroupExists then (some group_email, st)
    else
      let st := st.push [Event.mutCreateEnrollGroup]
      if f.enrollCreateFail then (none, st) else (some group_email, st)

/-- `get_bi_enrollment_status`: native-API read of `has_active_passkey`;
returns `false` on any error. -/
def get_bi_enrollment_status (f : Faults) (bid : String) (st : St) : Bool × St :=
  let st := st.push [Event.readEnrollment bid]
  if f.enrollStatusStatus bid == 200 then (st.bi.enrolled.contains bid, st) else (false, st)

/-- `update_byid_enrolled_group`: in TEST_MODE no call is made; live, an
insert or delete is always issued (a duplicate insert or a delete of an
absent member raises server-side and is caught, leaving membership as-is). -/
def update_byid_enrolled_group (cfg : Config) (_group_email user_email : String)
    (should_be_member : Bool) (st : St) : St :=
  if cfg.testMode then st
  else if should_be_member then
    let st := st.push [Event.mutEnrollInsert user_email]
    if st.enroll.contains user_email then st
    else { st with enroll := st.enroll ++ [user_email] }
  else
    let st := st.push [Event.mutEnrollDelete user_email]
    { st with enroll := st.enroll.filter (fun e => e != user_email) }

/-- `get_detailed_user_info`: filter BI users by userName, log the result;
returns whether a user was found, mutating nothing. -/
def get_detailed_user_info (f : Faults) (user_email : String) (st : St) : Bool × St :=
  let st := st.push [Event.readUserByName user_email]
  if f.userNameFilterStatus user_email == 200 then
    (!(st.bi.users.filter (fun u => u.userName == user_email)).isEmpty, st)
  else (false, st)

/-- One `all_users` record: mirrors the Python dict value
`{groups, bi_id, was_in_group, is_scim_user, username}`. -/
structure URec where
  groups : List String
  bi_id : Option String
  was_in_group : Bool
  is_scim_user : Bool
  username : Option String
deriving Repr, DecidableEq

/-- The `all_users` store: an insertion-ordered map (Python dict). -/
abbrev AllUsers := List (String × URec)

/-- Dict read. -/
def getRec (m : AllUsers) (k : String) : Option URec :=
  (m.find? (fun kv => kv.1 == k)).map (fun kv => kv.2)

/-- Dict write: replace in place when the key exists, else append (Python
dict insertion-order semantics). -/
def setRec : AllUsers → String → URec → AllUsers
  | [], k, v => [(k, v)]
  | (k', v') :: rest, k, v =>
      if k' == k then (k', v) :: rest else (k', v') :: setRec rest k v

/-- One entry of the `bi_users` listing snapshot taken at the start of a
live pass: id, externalId, userName and group memberships (id, display). -/
structure BIUserView where
  id : String
  externalId : Option String
  userName : String
  groups : List (String × String)
deriving Repr, DecidableEq

/-- The SCIM users listing (`GET /scim/v2/Users`) rendered from the tenant
state; per-user `groups` carry (group id, displayName). -/
def snapshotOf (s : BIState) : List BIUserView :=
  s.users.map (fun u =>
    { id := u.id, externalId := u.externalId, userName := u.userName,
      groups := (s.groups.filter (fun h => h.members.contains u.id)).map
        (fun h => (h.id, h.displayName)) })

/-- The listing view of a single tenant user (one element of `snapshotOf`). -/
def viewOf (s : BIState) (u : BIUser) : BIUserView :=
  { id := u.id, externalId := u.externalId, userName := u.userName,
    groups := (s.groups.filter (fun h => h.members.contains u.id)).map
      (fun h => (h.id, h.displayName)) }

/-- Character-list implementation of `str.startswith` (kept executable at
the character level). -/
def charsStart : List Char → List Char → Bool
  | [], _ => true
  | _ :: _, [] => false
  | c :: cs, d :: ds => c == d && charsStart cs ds

/-- `str.startswith(marker)` on the two strings' characters. -/
def strStarts (s marker : String) : Bool := charsStart marker.data s.data

/-- The script's "SCIM-sourced" heuristic: a 21-character all-digit
externalId (`external_id.isdigit() and len(external_id) == 21`). -/
def isScimId (x : String) : Bool := x.length == 21 && x.data.all Char.isDigit

/-- The `all_users` record seeded for one listed BI user. -/
def seedVal (v : BIUserView) : URec :=
  { groups := [], bi_id := some v.id, was_in_group := false,
    is_scim_user := true, username := some v.userName }

/-- Seeding step for one listed BI user (the `for bi_user in bi_users` loop
initialising `all_users`). -/
def seedStep (m : AllUsers) (v : BIUserView) : AllUsers :=
  match v.externalId with
  | none => m
  | some x => if isScimId x then setRec m x (seedVal v) else m

/-- Seed `all_users` from the BI users listing. -/
def seedUsers (l : List BIUserView) : AllUsers := l.foldl seedStep []

/-- The fresh record created for a member first seen in this pass
(`groups=set(), bi_id=None, was_in_group=True, is_scim_user=False`). -/
def freshURec : URec :=
  { groups := [], bi_id := none, was_in_group := true, is_scim_user := false,
    username := none }

/-- Body of the per-member loop of `main`: track the membership, fetch
details, upsert into BI, add to the BI group, and reconcile enrollment. -/
def processMember (cfg : Config) (g : GoogleInput) (f : Faults) (byid_group : String)
    (group_email : String) (bi_group_id : String) (acc : AllUsers) (st : St)
    (user_id : String) : AllUsers × St :=
  let rec0 := (getRec acc user_id).getD freshURec
  let rec1 := { rec0 with
    groups := if rec0.groups.contains group_email then rec0.groups
              else rec0.groups ++ [group_email],
    was_in_group := true }
  let acc := setRec acc user_id rec1
  match get_user_details cfg g f user_id with
  | (none, ev) => (acc, (st.push ev).addDec (Decision.skipMember user_id))
  | (some d, ev) =>
    let st := st.push ev
    match create_or_update_bi_user cfg f d st with
    | (none, st) => (acc, st)
    | (some bid, st) =>
      let acc := setRec acc user_id
        { rec1 with bi_id := some bid, is_scim_user := true, username := some d.primaryEmail }
      let (_, st) := add_user_to_group cfg f bid bi_group_id st
      let (is_enrolled, st) := get_bi_enrollment_status f bid st
      let st := update_byid_enrolled_group cfg byid_group d.primaryEmail is_enrolled st
      (acc, st)

/-- The per-member loop over one group's member list. -/
def processMembers (cfg : Config) (g : GoogleInput) (f : Faults) (byid_group : String)
    (group_email : String) (bi_group_id : String) :
    List String → AllUsers × St → AllUsers × St
  | [], p => p
  | m :: rest, (acc, st) =>
    processMembers cfg g f byid_group group_email bi_group_id rest
      (processMember cfg g f byid_group group_email bi_group_id acc st m)

/-- Body of the per-group loop of `main`: ensure the BI group (skip the
whole group on failure), list the Google members, process each. -/
def processGroup (cfg : Config) (g : GoogleInput) (f : Faults) (byid_group : String)
    (p : AllUsers × St) (group_email : String) : AllUsers × St :=
  match create_bi_group cfg f group_email p.2 with
  | (none, st) => (p.1, st)
  | (some gid, st) =>
    let st := st.push [Event.readMembersList group_email]
    let members := get_group_members (pagesOf g group_email) (f.membersFailAt group_email)
    processMembers cfg g f byid_group group_email gid members (p.1, st)

/-- The per-group loop over `GWS_GROUPS`. -/
def processGroups (cfg : Config) (g : GoogleInput) (f : Faults) (byid_group : String) :
    List String → AllUsers × St → AllUsers × St
  | [], p => p
  | e :: rest, p =>
    processGroups cfg g f byid_group rest (processGroup cfg g f byid_group p e)

/-- Offboarding removal loop: for every snapshot entry of this BI user,
remove it from each of its groups whose display name bears the sync
name marker (`BI_GROUP_PREFIX`). -/
def offboardRemovals (cfg : Config) (f : Faults) (snapshot : List BIUserView)
    (bid : String) (st : St) : St :=
  snapshot.foldl (fun st v =>
    if v.id == bid then
      v.groups.foldl (fun st gv =>
        if strStarts gv.2 cfg.pfx then (remove_user_from_group cfg f bid gv.1 st).2
        else st) st
    else st) st

/-- Body of the final sweep of `main`: skip non-SCIM records; offboard
records never seen in a tracked group this pass (remove from marked BI
groups, suspend, drop from `BYID_Enrolled`); otherwise re-reconcile
enrollment. -/
def sweepRecord (cfg : Config) (f : Faults) (snapshot : List BIUserView)
    (byid_group : String) (st : St) (kv : String × URec) : St :=
  let info := kv.2
  if !info.is_scim_user then st
  else if !info.was_in_group then
    let st := st.addDec (Decision.offboard kv.1)
    let st := offboardRemovals cfg f snapshot (info.bi_id.getD "") st
    let (_, st) := suspend_user cfg f (info.bi_id.getD "") st
    update_byid_enrolled_group cfg byid_group (info.username.getD "") false st
  else
    let (is_enrolled, st) := get_bi_enrollment_status f (info.bi_id.getD "") st
    update_byid_enrolled_group cfg byid_group (info.username.getD "") is_enrolled st

/-- The final sweep over every `all_users` record, in insertion order. -/
def sweepRecords (cfg : Config) (f : Faults) (snapshot : List BIUserView)
    (byid_group : String) : AllUsers → St → St
  | [], st => st
  | kv :: rest, st =>
    sweepRecords cfg f snapshot byid_group rest (sweepRecord cfg f snapshot byid_group st kv)

/-- Result of one invocation of `main`: whether the pass returned early, and
the final threaded state (tenant, enrollment group, traces). -/
structure RunOut where
  aborted : Bool
  st : St
deriving Repr, DecidableEq

/-- Seed-then-reconcile core of `main`, shared by the live and TEST_MODE
paths (which differ in the `bi_users` snapshot supplied). -/
def runPass (cfg : Config) (g : GoogleInput) (f : Faults) (byid_group : String)
    (snapshot : List BIUserView) (st : St) : St :=
  let acc := seedUsers snapshot
  let p := processGroups cfg g f byid_group cfg.gwsGroups (acc, st)
  sweepRecords cfg f snapshot byid_group p.1 p.2

/-- The state at the top of `main`: the tenant as given, the enrollment
group's current membership, and empty traces. -/
def initSt (g : GoogleInput) (s : BIState) : St :=
  { bi := s, enroll := g.enrollMembers, events := [], decisions := [] }

/-- The whole of `main`: ensure the `BYID_Enrolled` group (early return on
failure), look up the hardcoded diagnostic user, list all BI users (live
only; early return on non-200), seed `all_users`, process every tracked
group, then sweep. -/
def runMain (cfg : Config) (g : GoogleInput) (s : BIState) (f : Faults) : RunOut :=
  let st : St := initSt g s
  match create_or_get_byid_enrolled_group cfg g f st with
  | (none, st) => { aborted := true, st := st }
  | (some byid_group, st) =>
    let r := get_detailed_user_info f "will.may@beyondidentity.dev" st
    let st := r.2
    if cfg.testMode then
      { aborted := false, st := runPass cfg g f byid_group [] st }
    else
      let st := st.push [Event.readListAllUsers]
      if f.listAllStatus == 200 then
        { aborted := false, st := runPass cfg g f byid_group (snapshotOf st.bi) st }
      else { aborted := true, st := st }

/-!
Predicates used to state the verified properties.
-/

/-- A source member id appears in some tracked group's member list. -/
def discovered (cfg : Config) (g : GoogleInput) (x : String) : Bool :=
  cfg.gwsGroups.any (fun e => (srcMembers g e).contains x)

/-- The BI group the displayName filter of `create_bi_group` returns for a
tracked group email (the first group bearing the derived name). -/
def groupFor (cfg : Config) (s : BIState) (e : String) : Option BIGroup :=
  (s.groups.filter (fun h => h.displayName == cfg.pfx ++ e)).head?

/-- The BI user the externalId filter of `create_or_update_bi_user` returns
for a source id (the first user carrying it). -/
def userForExt (s : BIState) (x : String) : Option BIUser :=
  (s.users.filter (fun u => u.externalId == some x)).head?

/-- A converged tenant state for the given configuration and source state:
every tracked group exists under its derived name, every fetchable source
member has a BI user who is already a member of that group, and every
managed BI user absent from all tracked source groups is already inactive
and out of every marked group.  This is the state a successful live pass
leaves behind. -/
def convergedB (cfg : Config) (g : GoogleInput) (s : BIState) : Bool :=
  (cfg.gwsGroups.all fun e =>
    match groupFor cfg s e with
    | none => false
    | some gr =>
      (srcMembers g e).all fun m =>
        match lookupGUser g m with
        | none => true
        | some _ =>
          match userForExt s m with
          | none => false
          | some u => gr.members.contains u.id)
  && (s.users.all fun u =>
    match u.externalId with
    | none => true
    | some x =>
      if isScimId x && !(discovered cfg g x) then
        !u.active && (s.groups.all fun gr =>
          !(strStarts gr.displayName cfg.pfx) || !(gr.members.contains u.id))
      else true)

/-- Mutating calls other than the user-update PUT and the enrollment-group
membership edits: group create, user create, member add, member remove,
suspend PUT and the enrollment-group create. -/
def secondPassMut : Event → Bool
  | .mutCreateEnrollGroup => true
  | .mutCreateGroup _ => true
  | .mutCreateUser _ => true
  | .mutAddMember _ _ => true
  | .mutRemoveMember _ _ => true
  | .mutSuspendPut _ => true
  | _ => false

/-- Mutating calls addressed to a given existing BI user id: update,
suspend, member add and member remove (a POST create never addresses an
existing resource). -/
def targetsUser (uid : String) : Event → Bool
  | .mutUpdateUser b => b == uid
  | .mutSuspendPut b => b == uid
  | .mutAddMember _ b => b == uid
  | .mutRemoveMember _ b => b == uid
  | _ => false

/-- A source id for which the seeding phase creates a record: some listed
BI user carries it as externalId and it passes the SCIM-id format check. -/
def seededKey (s : BIState) (k : String) : Bool :=
  isScimId k && s.users.any (fun u => u.externalId == some k)

/-- The view whose seeded record survives in `all_users` for a given
externalId: the last listed BI user carrying it. -/
def lastSeedView (l : List BIUserView) (k : String) : Option BIUserView :=
  l.reverse.find? (fun v => v.externalId == some k)

/-- No listed BI user id collides with a server-assigned id of a user the
pass could create, and likewise for groups.  (Fresh ids carry the reserved
"bi-user-"/"bi-group-" shape.) -/
def noFreshCollision (s : BIState) : Bool :=
  s.users.all (fun u => !strStarts u.id "bi-user-")
    && s.groups.all (fun h => !strStarts h.id "bi-group-")

/-- Resource ids on the tenant are unique. -/
def wfIds (s : BIState) : Prop :=
  (s.users.map (fun u => u.id)).Nodup ∧ (s.groups.map (fun h => h.id)).Nodup

/-- Keys of the record store are unique (Python dict semantics). -/
def keysNodup (m : AllUsers) : Prop := (m.map (fun kv => kv.1)).Nodup

/-- Relation between the tenant users at the start of a pass and during it:
ids and externalIds are pointwise unchanged, and the active flag of any
user whose externalId is not a discovered source member id is unchanged. -/
def usersSim (cfg : Config) (g : GoogleInput) : List BIUser → List BIUser → Prop :=
  List.Forall₂ (fun u v => v.id = u.id ∧ v.externalId = u.externalId ∧
    (v.active = u.active ∨ ∃ x, u.externalId = some x ∧ discovered cfg g x = true))

/-- Every sweep-actionable record of the store points at a BI user id other
than `uid`. -/
def accAvoids (uid : String) (m : AllUsers) : Prop :=
  ∀ kv ∈ m, kv.2.is_scim_user = true → ∃ b, kv.2.bi_id = some b ∧ b ≠ uid

/-- Any tenant user carrying the id `uid` carries the given externalId. -/
def usersAvoid (uid : String) (ext : Option String) (l : List BIUser) : Prop :=
  ∀ v ∈ l, v.id = uid → v.externalId = ext

/-- A sweep record that, if actionable for offboarding, points at a tenant
user already offboarded: inactive, undiscovered, and out of every marked
group. -/
def offboardable (cfg : Config) (g : GoogleInput) (s : BIState) (kv : String × URec) : Prop :=
  kv.2.is_scim_user = true → kv.2.was_in_group = false →
    ∃ w ∈ s.users, kv.2.bi_id = some w.id ∧ w.active = false ∧
      (∀ x, w.externalId = some x → discovered cfg g x = false) ∧
      (∀ gr ∈ s.groups, strStarts gr.displayName cfg.pfx = true →
        gr.members.contains w.id = false)

/-- Pointwise group evolution during a pass, relative to a protected user
id: id and display name unchanged, membership of the protected id never
gained. -/
def grSim (wid : String) (gr0 gr : BIGroup) : Prop :=
  gr.id = gr0.id ∧ gr.displayName = gr0.displayName ∧
    (gr.members.contains wid = true → gr0.members.contains wid = true)

/-- The tenant group list during a pass: the starting groups evolved
pointwise, followed by groups created this pass (reserved-id shape, never
containing the protected id). -/
def groupsTrack (wid : String) (base cur : List BIGroup) : Prop :=
  ∃ front tail, cur = front ++ tail ∧ List.Forall₂ (grSim wid) base front ∧
    ∀ gr ∈ tail, strStarts gr.id "bi-group-" = true ∧ gr.members.contains wid = false

/-- The protected user during a pass: present, externalId pinned, and every
carrier of the id agreeing on the active flag. -/
def usersProtect (wid x : String) (l : List BIUser) : Prop :=
  (∃ v ∈ l, v.id = wid) ∧ (∀ v ∈ l, v.id = wid → v.externalId = some x) ∧
    ∃ a, ∀ v ∈ l, v.id = wid → v.active = a

/-- Every carrier of the protected id is inactive. -/
def usersDone (wid : String) (l : List BIUser) : Prop :=
  ∀ v ∈ l, v.id = wid → v.active = false

/-- No marked (prefix-named) group carries the protected id. -/
def noMarkedWith (cfg : Config) (wid : String) (gl : List BIGroup) : Prop :=
  ∀ gr ∈ gl, strStarts gr.displayName cfg.pfx = true → gr.members.contains wid = false

/-- Usernames recorded under keys other than the protected one never equal
the protected username. -/
def accName (x bad : String) (m : AllUsers) : Prop :=
  ∀ kv ∈ m, kv.1 ≠ x → ∀ un, kv.2.username = some un → un ≠ bad

/-- The enrollment-group membership edits (`insert` / `delete` on
`BYID_Enrolled`). -/
def enrollEdit : Event → Bool
  | .mutEnrollInsert _ => true
  | .mutEnrollDelete _ => true
  | _ => false

/-- Simulation relation between two pass states whose tenants differ only in
the native enrollment flags: run 2 carries `l2` where run 1 carries `l1`,
decisions agree, and the event traces agree except for enrollment-group
edits. -/
def simR (l1 l2 : List String) (st₁ st₂ : St) : Prop :=
  st₁.bi.enrolled = l1 ∧
  st₂.bi = { st₁.bi with enrolled := l2 } ∧
  st₂.decisions = st₁.decisions ∧
  st₂.events.filter (fun ev => !enrollEdit ev)
    = st₁.events.filter (fun ev => !enrollEdit ev)

/-- The two runs' `BYID_Enrolled` memberships agree outside the protected
set of addresses. -/
def enrAgree (E : List String) (st₁ st₂ : St) : Prop :=
  ∀ e, e ∉ E → st₂.enroll.contains e = st₁.enroll.contains e

/-- Every tenant carrier of the protected id has their userName, and the
primary email of any source user they are provisioned from, inside the
protected address set. -/
def uuProtect (uu : String) (E : List String) (g : GoogleInput)
    (l : List BIUser) : Prop :=
  ∀ v ∈ l, v.id = uu → (v.userName ∈ E ∧
    ∀ d ∈ g.users, v.externalId = some d.id → d.primaryEmail ∈ E)

/-- Completed records carry a BI id and a username, and a record pointing at
the protected id carries a protected username. -/
def accB (uu : String) (E : List String) (m : AllUsers) : Prop :=
  ∀ kv ∈ m, kv.2.is_scim_user = true →
    ∃ b un, kv.2.bi_id = some b ∧ kv.2.username = some un ∧ (b = uu → un ∈ E)

/-!
Basic lemmas about the record store (a Python dict as an association list)
and the seeding phase.
-/

theorem getRec_mem (m : AllUsers) (k : String) (v : URec) (h : getRec m k = some v) :
    (k, v) ∈ m := by
  induction m with
  | nil => simp [getRec] at h
  | cons kv rest ih =>
    by_cases hk : kv.1 = k
    · simp only [getRec, List.find?_cons, hk, beq_self_eq_true, Option.map_some] at h
      cases kv
      simp_all
    · have hk' : (kv.1 == k) = false := by simpa using hk
      simp only [getRec, List.find?_cons, hk'] at h
      exact List.mem_cons_of_mem _ (ih h)

theorem mem_setRec (m : AllUsers) (k : String) (v : URec) (kv : String × URec)
    (h : kv ∈ setRec m k v) : kv = (k, v) ∨ kv ∈ m := by
  induction m with
  | nil => simpa [setRec] using h
  | cons kv' rest ih =>
    simp only [setRec] at h
    split at h
    next heq =>
      rcases List.mem_cons.mp h with h | h
      · left; rw [h, show kv'.1 = k from by simpa using heq]
      · right; exact List.mem_cons_of_mem _ h
    next =>
      rcases List.mem_cons.mp h with h | h
      · right; rw [h]; exact List.mem_cons_self _ _
      · rcases ih h with h' | h'
        · exact Or.inl h'
        · exact Or.inr (List.mem_cons_of_mem _ h')

theorem getRec_setRec_self (m : AllUsers) (k : String) (v : URec) :
    getRec (setRec m k v) k = some v := by
  induction m with
  | nil => simp [setRec, getRec]
  | cons kv rest ih =>
    simp only [setRec]
    by_cases hk : kv.1 == k
    · simp [getRec, List.find?_cons, hk]
    · simp only [hk, if_false]
      simpa [getRec, List.find?_cons, hk] using ih

theorem getRec_setRec_ne (m : AllUsers) (k k' : String) (v : URec) (hne : k' ≠ k) :
    getRec (setRec m k v) k' = getRec m k' := by
  induction m with
  | nil =>
    have hb : (k == k') = false := by
      simpa using fun h => hne h.symm
    simp [setRec, getRec, List.find?_cons, hb]
  | cons kv rest ih =>
    simp only [setRec]
    by_cases hk : kv.1 = k
    · have hkb : (kv.1 == k) = true := by simpa using hk
      have h1 : (kv.1 == k') = false := by
        simpa using fun h => hne (hk ▸ h).symm
      simp [hkb, getRec, List.find?_cons, h1]
    · have hkb : (kv.1 == k) = false := by simpa using hk
      by_cases h2 : kv.1 = k'
      · have h2b : (kv.1 == k') = true := by simpa using h2
        simp [hkb, getRec, List.find?_cons, h2b]
      · have h2b : (kv.1 == k') = false := by simpa using h2
        simpa [hkb, getRec, List.find?_cons, h2b] using ih

theorem mem_foldl_seedStep (l : List BIUserView) :
    ∀ (m : AllUsers) (kv : String × URec), kv ∈ l.foldl seedStep m →
      kv ∈ m ∨ ∃ v ∈ l, v.externalId = some kv.1 ∧ isScimId kv.1 = true ∧ kv.2 = seedVal v := by
  induction l with
  | nil => intro m kv h; exact Or.inl h
  | cons v rest ih =>
    intro m kv h
    simp only [List.foldl_cons] at h
    rcases ih (seedStep m v) kv h with h' | h'
    · cases hve : v.externalId with
      | none =>
        simp only [seedStep, hve] at h'
        exact Or.inl h'
      | some x =>
        simp only [seedStep, hve] at h'
        by_cases hsc : isScimId x = true
        · rw [if_pos hsc] at h'
          rcases mem_setRec m x (seedVal v) kv h' with h'' | h''
          · right
            refine ⟨v, List.mem_cons_self _ _, ?_, ?_, ?_⟩ <;> rw [h''] <;> simp [hve, hsc]
          · exact Or.inl h''
        · rw [if_neg hsc] at h'; exact Or.inl h'
    · right
      obtain ⟨w, hw, h1, h2, h3⟩ := h'
      exact ⟨w, List.mem_cons_of_mem _ hw, h1, h2, h3⟩

theorem mem_seedUsers (snap : List BIUserView) (kv : String × URec)
    (h : kv ∈ seedUsers snap) :
    ∃ v ∈ snap, v.externalId = some kv.1 ∧ isScimId kv.1 = true ∧ kv.2 = seedVal v := by
  rcases mem_foldl_seedStep snap [] kv h with h' | h'
  · simp at h'
  · exact h'

theorem mem_snapshotOf (s : BIState) (v : BIUserView) (h : v ∈ snapshotOf s) :
    ∃ w ∈ s.users, v.id = w.id ∧ v.externalId = w.externalId ∧ v.userName = w.userName := by
  simp only [snapshotOf, List.mem_map] at h
  obtain ⟨w, hw, hv⟩ := h
  exact ⟨w, hw, by rw [← hv], by rw [← hv], by rw [← hv]⟩

theorem charsStart_append (l r : List Char) : charsStart l (l ++ r) = true := by
  induction l with
  | nil => rfl
  | cons c cs ih => simp [charsStart, ih]

theorem strStarts_append (p q : String) : strStarts (p ++ q) p = true := by
  have : (p ++ q).data = p.data ++ q.data := String.data_append p q
  simp [strStarts, this, charsStart_append]

theorem freshUserId_marked (n : Nat) : strStarts (freshUserId n) "bi-user-" = true :=
  strStarts_append "bi-user-" (toString n)

theorem freshGroupId_marked (n : Nat) : strStarts (freshGroupId n) "bi-group-" = true :=
  strStarts_append "bi-group-" (toString n)

theorem lookupGUser_id (g : GoogleInput) (m : String) (d : GUser)
    (h : lookupGUser g m = some d) : d.id = m := by
  have := List.find?_some h
  simpa using this

theorem get_group_members_go_none (pages : List (List String)) :
    ∀ acc, get_group_members_go pages none acc = some (acc ++ pages.flatten) := by
  induction pages with
  | nil => intro acc; simp [get_group_members_go]
  | cons p rest ih =>
    intro acc
    simp only [get_group_members_go, ih, List.flatten_cons, List.append_assoc]

theorem get_group_members_go_fail (pages : List (List String)) :
    ∀ k acc, k ≤ pages.length → get_group_members_go pages (some k) acc = none := by
  induction pages with
  | nil =>
    intro k acc h
    have : k = 0 := Nat.le_zero.mp (by simpa using h)
    rw [this]
    rfl
  | cons p rest ih =>
    intro k acc h
    cases k with
    | zero => simp [get_group_members_go]
    | succ k =>
      simp only [get_group_members_go]
      exact ih k (acc ++ p) (by simpa using Nat.le_of_succ_le_succ h)

theorem get_group_members_go_big (pages : List (List String)) :
    ∀ k acc, pages.length < k →
      get_group_members_go pages (some k) acc = some (acc ++ pages.flatten) := by
  induction pages with
  | nil =>
    intro k acc h
    cases k with
    | zero => exact absurd h (by simp)
    | succ k => simp [get_group_members_go]
  | cons p rest ih =>
    intro k acc h
    cases k with
    | zero => exact absurd h (by simp)
    | succ k =>
      simp only [get_group_members_go, List.flatten_cons, ← List.append_assoc]
      exact ih k (acc ++ p) (by simpa using Nat.lt_of_succ_lt_succ h)

theorem get_group_members_sub (pages : List (List String)) (o : Option Nat) (x : String)
    (h : x ∈ get_group_members pages o) : x ∈ pages.flatten := by
  cases o with
  | none =>
    rw [get_group_members, get_group_members_go_none pages []] at h
    simpa using h
  | some k =>
    by_cases hk : k ≤ pages.length
    · rw [get_group_members, get_group_members_go_fail pages k [] hk] at h
      simp at h
    · rw [get_group_members, get_group_members_go_big pages k [] (Nat.lt_of_not_le hk)] at h
      simpa using h

/-!
Basic lemmas about the threaded state.
-/

@[simp] theorem push_bi (st : St) (es : List Event) : (st.push es).bi = st.bi := rfl

@[simp] theorem push_enroll (st : St) (es : List Event) : (st.push es).enroll = st.enroll := rfl

@[simp] theorem push_decisions (st : St) (es : List Event) :
    (st.push es).decisions = st.decisions := rfl

@[simp] theorem push_events (st : St) (es : List Event) :
    (st.push es).events = st.events ++ es := rfl

@[simp] theorem addDec_bi (st : St) (d : Decision) : (st.addDec d).bi = st.bi := rfl

@[simp] theorem addDec_enroll (st : St) (d : Decision) : (st.addDec d).enroll = st.enroll := rfl

@[simp] theorem addDec_events (st : St) (d : Decision) : (st.addDec d).events = st.events := rfl

@[simp] theorem addDec_decisions (st : St) (d : Decision) :
    (st.addDec d).decisions = st.decisions ++ [d] := rfl

/-!
C5: idempotency of the displayName-keyed group create-or-get.
-/

/-- C5: for every source group email and every starting state, calling the
target-group create-or-get twice yields the same targetGroupId and the
second call changes no group — lookup is keyed on the derived displayName
`BI_GROUP_PREFIX + email`, so the group created (or found) by the first
call is found again by the second. -/
theorem ensure_group_idempotent (cfg : Config) (e : String) (st : St) :
    (create_bi_group cfg noFaults e (create_bi_group cfg noFaults e st).2).1
      = (create_bi_group cfg noFaults e st).1 ∧
    (create_bi_group cfg noFaults e (create_bi_group cfg noFaults e st).2).2.bi.groups
      = (create_bi_group cfg noFaults e st).2.bi.groups := by
  cases hfil : st.bi.groups.filter (fun h => h.displayName == cfg.pfx ++ e) with
  | cons gr t => simp [create_bi_group, noFaults, hfil]
  | nil =>
    by_cases ht : cfg.testMode
    · simp [create_bi_group, create_bi_group_post, noFaults, hfil, ht]
    · simp [create_bi_group, create_bi_group_post, noFaults, hfil, ht, List.filter_append]

/-!
C7: member listing — pagination and error behaviour.
-/

/-- C7 (counterexample): `get_group_members` does not distinguish transport
errors: an exception raised while fetching the second page (after the first
page was already received) yields the same plain empty result as any API
error — the already-fetched page is discarded and no failure is signalled
to the caller, contradicting the claimed `UpstreamUnavailable` propagation
on transport error. -/
theorem get_group_members_swallows_transport_error :
    get_group_members [["m1"], ["m2"]] (some 1) = [] ∧
    get_group_members [["m1"], ["m2"]] none = ["m1", "m2"] := by decide

/-- C7 (amended): `get_group_members` returns the concatenation of all
pages, following the continuation token until absent, when no call fails;
when ANY of the page fetches raises — transport and API errors alike, since
the handler catches every exception — it returns the empty sequence (and
logs), letting the pass continue with zero members for that group. -/
theorem get_group_members_pagination (pages : List (List String)) :
    get_group_members pages none = pages.flatten ∧
    ∀ k, k < pages.length → get_group_members pages (some k) = [] := by
  constructor
  · simp [get_group_members, get_group_members_go_none]
  · intro k hk
    simp [get_group_members, get_group_members_go_fail pages k [] (Nat.le_of_lt hk)]

/-- Witness for `get_group_members_pagination` at a concrete page list. -/
theorem get_group_members_pagination_witness :
    get_group_members [["m1"], ["m2"]] none = [["m1"], ["m2"]].flatten ∧
    get_group_members [["m1"], ["m2"]] (some 0) = [] :=
  ⟨(get_group_members_pagination [["m1"], ["m2"]]).1,
   (get_group_members_pagination [["m1"], ["m2"]]).2 0 (by decide)⟩

/-!
C8: NotFound behaviour of remove/suspend.
-/

/-- C8 (counterexample): a NotFound signalled by the target system on the
lookup underlying a suspend or remove of an entity that is entirely absent
is treated as a failure (the functions return `False` after logging an
error), not as success: suspending a user id unknown to the tenant and
removing a member from a group id unknown to the tenant both report
failure. -/
theorem notfound_on_absent_entity_is_error :
    (suspend_user { gwsGroups := [], pfx := "P_", domain := "d", testMode := false }
       noFaults "u0"
       { bi := { users := [], groups := [], enrolled := [], nextUid := 0, nextGid := 0 },
         enroll := [], events := [], decisions := [] }).1 = false ∧
    (remove_user_from_group { gwsGroups := [], pfx := "P_", domain := "d", testMode := false }
       noFaults "u0" "g0"
       { bi := { users := [], groups := [], enrolled := [], nextUid := 0, nextGid := 0 },
         enroll := [], events := [], decisions := [] }).1 = false := by decide

/-- C8 (amended): idempotency of remove/suspend comes from a pre-read, not
from NotFound handling: removing a user already absent from an EXISTING
group succeeds without issuing any mutating call, and suspending an
EXISTING user who is already inactive succeeds without issuing any mutating
call; but when the entity itself is absent (the target signals NotFound on
the pre-read), both operations report failure. -/
theorem remove_suspend_idempotent_semantics (cfg : Config) (st : St) (uid gid : String) :
    (lookupBIGroup st.bi gid = none →
      (remove_user_from_group cfg noFaults uid gid st).1 = false) ∧
    (∀ gr, lookupBIGroup st.bi gid = some gr → gr.members.contains uid = false →
      (remove_user_from_group cfg noFaults uid gid st).1 = true ∧
      (remove_user_from_group cfg noFaults uid gid st).2.bi = st.bi ∧
      (remove_user_from_group cfg noFaults uid gid st).2.events
        = st.events ++ [Event.readGroupGet gid]) ∧
    (lookupBIUser st.bi uid = none → (suspend_user cfg noFaults uid st).1 = false) ∧
    (∀ u, lookupBIUser st.bi uid = some u → u.active = false →
      (suspend_user cfg noFaults uid st).1 = true ∧
      (suspend_user cfg noFaults uid st).2.bi = st.bi ∧
      (suspend_user cfg noFaults uid st).2.events = st.events ++ [Event.readUserGet uid]) := by
  refine ⟨fun hg => ?_, fun gr hg hm => ?_, fun hu => ?_, fun u hu ha => ?_⟩
  · simp only [remove_user_from_group, noFaults, push_bi, hg]
    simp
  · have hm' : uid ∉ gr.members := by simpa using hm
    simp only [remove_user_from_group, noFaults, push_bi, hg]
    simp [hm']
  · simp only [suspend_user, noFaults, push_bi, hu]
    simp
  · simp only [suspend_user, noFaults, push_bi, hu]
    simp [ha]

/-- Witness for `remove_suspend_idempotent_semantics`: an existing group
without the member, and an existing already-inactive user. -/
theorem remove_suspend_idempotent_semantics_witness :
    ((remove_user_from_group { gwsGroups := [], pfx := "P_", domain := "d", testMode := false }
        noFaults "u0" "g1"
        { bi := { users := [{ id := "u1", externalId := none, userName := "n", givenName := "g",
                              familyName := "f", active := false }],
                  groups := [{ id := "g1", displayName := "P_x", members := ["u9"] }],
                  enrolled := [], nextUid := 0, nextGid := 0 },
          enroll := [], events := [], decisions := [] }).1 = true ∧
     (suspend_user { gwsGroups := [], pfx := "P_", domain := "d", testMode := false }
        noFaults "u1"
        { bi := { users := [{ id := "u1", externalId := none, userName := "n", givenName := "g",
                              familyName := "f", active := false }],
                  groups := [{ id := "g1", displayName := "P_x", members := ["u9"] }],
                  enrolled := [], nextUid := 0, nextGid := 0 },
          enroll := [], events := [], decisions := [] }).1 = true) := by
  have h := remove_suspend_idempotent_semantics
    { gwsGroups := [], pfx := "P_", domain := "d", testMode := false }
    { bi := { users := [{ id := "u1", externalId := none, userName := "n", givenName := "g",
                          familyName := "f", active := false }],
              groups := [{ id := "g1", displayName := "P_x", members := ["u9"] }],
              enrolled := [], nextUid := 0, nextGid := 0 },
      enroll := [], events := [], decisions := [] } "u0" "g1"
  have h2 := remove_suspend_idempotent_semantics
    { gwsGroups := [], pfx := "P_", domain := "d", testMode := false }
    { bi := { users := [{ id := "u1", externalId := none, userName := "n", givenName := "g",
                          familyName := "f", active := false }],
              groups := [{ id := "g1", displayName := "P_x", members := ["u9"] }],
              enrolled := [], nextUid := 0, nextGid := 0 },
      enroll := [], events := [], decisions := [] } "u1" "g1"
  exact ⟨(h.2.1 { id := "g1", displayName := "P_x", members := ["u9"] } (by decide) (by decide)).1,
         (h2.2.2.2 { id := "u1", externalId := none, userName := "n", givenName := "g",
                     familyName := "f", active := false } (by decide) (by decide)).1⟩

/-!
C6: pass-fatal conditions.
-/

/-- C6 (counterexample): early termination of a pass does not coincide with
"auth error or enrollment group unobtainable".  First run: every call
succeeds except the initial list-all-BI-users read, which returns 500 (a
server error, not an auth failure) — the enrollment group is obtained, no
call anywhere returns 401, yet the pass aborts.  Second run: the group
filter read returns 401 (an auth failure occurs) — yet the pass runs to
completion, falling through to the group-create branch. -/
theorem abort_conditions_counterexample :
    (runMain { gwsGroups := ["e@c"], pfx := "P_", domain := "c", testMode := false }
       { groupPages := [], users := [], enrollGroupExists := true, enrollMembers := [] }
       { users := [], groups := [], enrolled := [], nextUid := 0, nextGid := 0 }
       { noFaults with listAllStatus := 500 }).aborted = true ∧
    (runMain { gwsGroups := ["e@c"], pfx := "P_", domain := "c", testMode := false }
       { groupPages := [], users := [], enrollGroupExists := true, enrollMembers := [] }
       { users := [], groups := [], enrolled := [], nextUid := 0, nextGid := 0 }
       { noFaults with groupFilterStatus := fun _ => 401 }).aborted = false := by decide

/-- C6 (amended): a pass returns early exactly when, in live mode, the
synthetic enrollment group cannot be obtained or the initial list-all-BI-
users read returns non-200 (for ANY reason, auth or not); failures at every
other call site — auth errors included — are logged and skipped, and a
TEST_MODE pass never aborts. -/
theorem pass_abort_characterization (cfg : Config) (g : GoogleInput) (s : BIState) (f : Faults) :
    (runMain cfg g s f).aborted
      = (!cfg.testMode && (f.enrollCheckError || (!g.enrollGroupExists && f.enrollCreateFail)
          || !(f.listAllStatus == 200))) := by
  by_cases ht : cfg.testMode
  · simp [runMain, create_or_get_byid_enrolled_group, ht]
  · by_cases hc : f.enrollCheckError
    · simp [runMain, create_or_get_byid_enrolled_group, ht, hc]
    · by_cases hex : g.enrollGroupExists
      · by_cases hl : f.listAllStatus == 200
        · simp [runMain, create_or_get_byid_enrolled_group, ht, hc, hex, hl]
        · simp [runMain, create_or_get_byid_enrolled_group, ht, hc, hex, hl]
      · by_cases hcr : f.enrollCreateFail
        · simp [runMain, create_or_get_byid_enrolled_group, ht, hc, hex, hcr]
        · by_cases hl : f.listAllStatus == 200
          · simp [runMain, create_or_get_byid_enrolled_group, ht, hc, hex, hcr, hl]
          · simp [runMain, create_or_get_byid_enrolled_group, ht, hc, hex, hcr, hl]

/-!
C1: dry-run behaviour.  In TEST_MODE every operation leaves the tenant and
the enrollment group untouched and appends only read events.
-/

theorem test_create_bi_group_st (cfg : Config) (f : Faults) (e : String) (st : St)
    (ht : cfg.testMode = true) :
    (create_bi_group cfg f e st).2 = st.push [Event.readGroupFilter e] := by
  simp only [create_bi_group, create_bi_group_post, ht, if_true]
  split
  · split <;> rfl
  · rfl

theorem test_create_or_update_st (cfg : Config) (f : Faults) (d : GUser) (st : St)
    (ht : cfg.testMode = true) :
    (create_or_update_bi_user cfg f d st).2.bi = st.bi ∧
    (create_or_update_bi_user cfg f d st).2.enroll = st.enroll ∧
    (create_or_update_bi_user cfg f d st).2.events = st.events ++ [Event.readUserFilter d.id] := by
  simp only [create_or_update_bi_user, create_bi_user_post, ht, if_true]
  split
  · split <;> simp
  · simp

theorem test_add_user_to_group_st (cfg : Config) (f : Faults) (u gid : String) (st : St)
    (ht : cfg.testMode = true) :
    (add_user_to_group cfg f u gid st).2 = st.push [Event.readGroupGet gid] := by
  simp only [add_user_to_group, ht, if_true]
  split
  · split
    · rfl
    · split <;> rfl
  · rfl

theorem test_remove_user_from_group_st (cfg : Config) (f : Faults) (u gid : String) (st : St)
    (ht : cfg.testMode = true) :
    (remove_user_from_group cfg f u gid st).2 = st.push [Event.readGroupGet gid] := by
  simp only [remove_user_from_group, ht, if_true]
  split
  · split
    · rfl
    · split <;> rfl
  · rfl

theorem test_suspend_user_st (cfg : Config) (f : Faults) (u : String) (st : St)
    (ht : cfg.testMode = true) :
    (suspend_user cfg f u st).2 = st.push [Event.readUserGet u] := by
  simp only [suspend_user, ht, if_true]
  split
  · split
    · rfl
    · split <;> rfl
  · rfl

theorem enrollment_status_st (f : Faults) (b : String) (st : St) :
    (get_bi_enrollment_status f b st).2 = st.push [Event.readEnrollment b] := by
  simp only [get_bi_enrollment_status]
  split <;> rfl

theorem detailed_user_info_st (f : Faults) (e : String) (st : St) :
    (get_detailed_user_info f e st).2 = st.push [Event.readUserByName e] := by
  simp only [get_detailed_user_info]
  split <;> rfl

theorem test_update_byid_st (cfg : Config) (ge ue : String) (b : Bool) (st : St)
    (ht : cfg.testMode = true) :
    update_byid_enrolled_group cfg ge ue b st = st := by
  simp [update_byid_enrolled_group, ht]

theorem test_processMember_st (cfg : Config) (g : GoogleInput) (f : Faults)
    (bg ge gid : String) (acc : AllUsers) (st : St) (m : String)
    (ht : cfg.testMode = true) :
    (processMember cfg g f bg ge gid acc st m).2.bi = st.bi ∧
    (processMember cfg g f bg ge gid acc st m).2.enroll = st.enroll ∧
    (processMember cfg g f bg ge gid acc st m).2.events.filter Event.isMut
      = st.events.filter Event.isMut := by
  simp only [processMember, get_user_details, ht, if_true]
  cases hco : create_or_update_bi_user cfg f
      { id := m, primaryEmail := "test_" ++ m ++ "@example.com",
        givenName := "Test", familyName := "User", suspended := false } (st.push []) with
  | mk r st' =>
    have hfields := test_create_or_update_st cfg f
      { id := m, primaryEmail := "test_" ++ m ++ "@example.com",
        givenName := "Test", familyName := "User", suspended := false } (st.push []) ht
    rw [hco] at hfields
    cases r with
    | none => simp_all [Event.isMut]
    | some bid =>
      simp only
      rw [test_update_byid_st cfg bg _ _ _ ht, enrollment_status_st,
          test_add_user_to_group_st cfg f bid gid st' ht]
      simp_all [Event.isMut, List.filter_append]

theorem test_processMembers_st (cfg : Config) (g : GoogleInput) (f : Faults)
    (bg ge gid : String) (ms : List String) (ht : cfg.testMode = true) :
    ∀ acc st,
    (processMembers cfg g f bg ge gid ms (acc, st)).2.bi = st.bi ∧
    (processMembers cfg g f bg ge gid ms (acc, st)).2.enroll = st.enroll ∧
    (processMembers cfg g f bg ge gid ms (acc, st)).2.events.filter Event.isMut
      = st.events.filter Event.isMut := by
  induction ms with
  | nil => intro acc st; exact ⟨rfl, rfl, rfl⟩
  | cons m rest ih =>
    intro acc st
    simp only [processMembers]
    cases hpm : processMember cfg g f bg ge gid acc st m with
    | mk acc' st' =>
      have h1 := test_processMember_st cfg g f bg ge gid acc st m ht
      rw [hpm] at h1
      have h2 := ih acc' st'
      exact ⟨h2.1.trans h1.1, h2.2.1.trans h1.2.1, h2.2.2.trans h1.2.2⟩

theorem test_processGroups_st (cfg : Config) (g : GoogleInput) (f : Faults)
    (bg : String) (es : List String) (ht : cfg.testMode = true) :
    ∀ acc st,
    (processGroups cfg g f bg es (acc, st)).2.bi = st.bi ∧
    (processGroups cfg g f bg es (acc, st)).2.enroll = st.enroll ∧
    (processGroups cfg g f bg es (acc, st)).2.events.filter Event.isMut
      = st.events.filter Event.isMut := by
  induction es with
  | nil => intro acc st; exact ⟨rfl, rfl, rfl⟩
  | cons e rest ih =>
    intro acc st
    simp only [processGroups, processGroup]
    cases hcg : create_bi_group cfg f e st with
    | mk r st' =>
      have hst' : st' = st.push [Event.readGroupFilter e] := by
        have := test_create_bi_group_st cfg f e st ht
        rw [hcg] at this
        exact this
      cases r with
      | none =>
        have h2 := ih acc st'
        subst hst'
        simpa [Event.isMut, List.filter_append] using h2
      | some gid =>
        simp only
        cases hpm : processMembers cfg g f bg e gid
            (get_group_members (pagesOf g e) (f.membersFailAt e))
            (acc, st'.push [Event.readMembersList e]) with
        | mk acc'' st'' =>
          have h1 := test_processMembers_st cfg g f bg e gid
            (get_group_members (pagesOf g e) (f.membersFailAt e)) ht acc
            (st'.push [Event.readMembersList e])
          rw [hpm] at h1
          have h2 := ih acc'' st''
          subst hst'
          refine ⟨h2.1.trans h1.1, h2.2.1.trans h1.2.1, ?_⟩
          rw [h2.2.2, h1.2.2]
          simp [Event.isMut, List.filter_append]

theorem test_offboardRemovals_st (cfg : Config) (f : Faults) (snap : List BIUserView)
    (bid : String) (ht : cfg.testMode = true) :
    ∀ st, (offboardRemovals cfg f snap bid st).bi = st.bi ∧
      (offboardRemovals cfg f snap bid st).enroll = st.enroll ∧
      (offboardRemovals cfg f snap bid st).events.filter Event.isMut
        = st.events.filter Event.isMut := by
  unfold offboardRemovals
  induction snap with
  | nil => intro st; exact ⟨rfl, rfl, rfl⟩
  | cons v rest ih =>
    intro st
    simp only [List.foldl_cons]
    by_cases hv : v.id == bid
    · simp only [hv, if_true]
      have hInner : ∀ (gl : List (String × String)) (st₁ : St),
          ((gl.foldl (fun st₂ gv =>
            if strStarts gv.2 cfg.pfx then (remove_user_from_group cfg f bid gv.1 st₂).2
            else st₂) st₁ : St)).bi = st₁.bi ∧
          ((gl.foldl (fun st₂ gv =>
            if strStarts gv.2 cfg.pfx then (remove_user_from_group cfg f bid gv.1 st₂).2
            else st₂) st₁ : St)).enroll = st₁.enroll ∧
          ((gl.foldl (fun st₂ gv =>
            if strStarts gv.2 cfg.pfx then (remove_user_from_group cfg f bid gv.1 st₂).2
            else st₂) st₁ : St)).events.filter Event.isMut
              = st₁.events.filter Event.isMut := by
        intro gl
        induction gl with
        | nil => intro st₁; exact ⟨rfl, rfl, rfl⟩
        | cons gv tl ihg =>
          intro st₁
          simp only [List.foldl_cons]
          by_cases hs : strStarts gv.2 cfg.pfx
          · simp only [hs, if_true]
            rw [test_remove_user_from_group_st cfg f bid gv.1 st₁ ht]
            have h2 := ihg (st₁.push [Event.readGroupGet gv.1])
            simpa [Event.isMut, List.filter_append] using h2
          · simp only [hs, if_false]
            exact ihg st₁
      have h1 := hInner v.groups st
      have h2 := ih (v.groups.foldl (fun st₂ gv =>
        if strStarts gv.2 cfg.pfx then (remove_user_from_group cfg f bid gv.1 st₂).2
        else st₂) st)
      exact ⟨h2.1.trans h1.1, h2.2.1.trans h1.2.1, h2.2.2.trans h1.2.2⟩
    · simp only [hv, if_false]
      exact ih st

theorem test_sweepRecords_st (cfg : Config) (f : Faults) (snap : List BIUserView)
    (bg : String) (recs : AllUsers) (ht : cfg.testMode = true) :
    ∀ st, (sweepRecords cfg f snap bg recs st).bi = st.bi ∧
      (sweepRecords cfg f snap bg recs st).enroll = st.enroll ∧
      (sweepRecords cfg f snap bg recs st).events.filter Event.isMut
        = st.events.filter Event.isMut := by
  induction recs with
  | nil => intro st; exact ⟨rfl, rfl, rfl⟩
  | cons kv rest ih =>
    intro st
    simp only [sweepRecords]
    have hstep : (sweepRecord cfg f snap bg st kv).bi = st.bi ∧
        (sweepRecord cfg f snap bg st kv).enroll = st.enroll ∧
        (sweepRecord cfg f snap bg st kv).events.filter Event.isMut
          = st.events.filter Event.isMut := by
      simp only [sweepRecord]
      by_cases h1 : kv.2.is_scim_user
      · by_cases h2 : kv.2.was_in_group
        · simp only [h1, h2, Bool.not_true, if_false]
          simp [update_byid_enrolled_group, ht, enrollment_status_st, Event.isMut,
            List.filter_append]
        · simp only [h1, h2, Bool.not_true, Bool.not_false, if_false, if_true]
          rw [test_update_byid_st cfg bg _ _ _ ht]
          cases hsu : suspend_user cfg f (kv.2.bi_id.getD "")
              (offboardRemovals cfg f snap (kv.2.bi_id.getD "") (st.addDec (Decision.offboard kv.1))) with
          | mk rb st' =>
            have hsus := test_suspend_user_st cfg f (kv.2.bi_id.getD "")
              (offboardRemovals cfg f snap (kv.2.bi_id.getD "") (st.addDec (Decision.offboard kv.1))) ht
            rw [hsu] at hsus
            have hrem := test_offboardRemovals_st cfg f snap (kv.2.bi_id.getD "") ht
              (st.addDec (Decision.offboard kv.1))
            subst hsus
            simpa [Event.isMut, List.filter_append] using hrem
      · simp [h1]
    have h2 := ih (sweepRecord cfg f snap bg st kv)
    exact ⟨h2.1.trans hstep.1, h2.2.1.trans hstep.2.1, h2.2.2.trans hstep.2.2⟩

theorem test_runMain_st (cfg : Config) (g : GoogleInput) (s : BIState) (f : Faults)
    (ht : cfg.testMode = true) :
    (runMain cfg g s f).st.events.filter Event.isMut = [] ∧
    (runMain cfg g s f).st.bi = s ∧
    (runMain cfg g s f).st.enroll = g.enrollMembers := by
  have hrm : runMain cfg g s f =
      { aborted := false,
        st := runPass cfg g f ("BYID_Enrolled@" ++ cfg.domain) []
          ((initSt g s).push [Event.readUserByName "will.may@beyondidentity.dev"]) } := by
    simp only [runMain, create_or_get_byid_enrolled_group, ht, if_true]
    rw [detailed_user_info_st]
  rw [hrm]
  simp only [runPass]
  cases hpg : processGroups cfg g f ("BYID_Enrolled@" ++ cfg.domain) cfg.gwsGroups
      (seedUsers [],
        (initSt g s).push [Event.readUserByName "will.may@beyondidentity.dev"]) with
  | mk acc st' =>
    have h1 := test_processGroups_st cfg g f ("BYID_Enrolled@" ++ cfg.domain) cfg.gwsGroups ht
      (seedUsers [])
      ((initSt g s).push [Event.readUserByName "will.may@beyondidentity.dev"])
    rw [hpg] at h1
    have h2 := test_sweepRecords_st cfg f [] ("BYID_Enrolled@" ++ cfg.domain) acc ht st'
    refine ⟨?_, ?_, ?_⟩
    · rw [h2.2.2, h1.2.2]; simp [initSt, Event.isMut]
    · rw [h2.1, h1.1]; rfl
    · rw [h2.2.1, h1.2.1]; rfl

/-- C1 (amended): a TEST_MODE (dry-run) pass performs zero mutating calls
and leaves both the tenant and the enrollment group exactly as found, under
any fault environment.  (The claimed identity of decision sequences and of
read sequences does not hold — see the counterexample.) -/
theorem dry_run_no_mutations (cfg : Config) (g : GoogleInput) (s : BIState) (f : Faults)
    (ht : cfg.testMode = true) :
    (runMain cfg g s f).st.events.filter Event.isMut = [] ∧
    (runMain cfg g s f).st.bi = s ∧
    (runMain cfg g s f).st.enroll = g.enrollMembers :=
  test_runMain_st cfg g s f ht

/-- C1 (counterexample): on a fixed snapshot with one previously-managed BI
user absent from every tracked source group, a live pass decides to
offboard that user while the TEST_MODE pass — which skips the list-all-BI-
users read entirely and therefore seeds no records — makes no such
decision; the sequences of decisions differ, and so do the read calls (the
dry run omits the seed listing and the user-detail reads). -/
theorem dry_run_divergence :
    (runMain { gwsGroups := ["eng@co"], pfx := "GoogleSCIM_", domain := "co", testMode := true }
       { groupPages := [("eng@co", [["100000000000000000001"]])],
         users := [{ id := "100000000000000000001", primaryEmail := "u1@co",
                     givenName := "U", familyName := "One", suspended := false }],
         enrollGroupExists := true, enrollMembers := [] }
       { users := [{ id := "b9", externalId := some "900000000000000000009",
                     userName := "gone@co", givenName := "G", familyName := "One",
                     active := true }],
         groups := [{ id := "gx", displayName := "GoogleSCIM_old@co", members := ["b9"] }],
         enrolled := ["b9"], nextUid := 0, nextGid := 0 }
       noFaults).st.decisions
      ≠ (runMain { gwsGroups := ["eng@co"], pfx := "GoogleSCIM_", domain := "co", testMode := false }
       { groupPages := [("eng@co", [["100000000000000000001"]])],
         users := [{ id := "100000000000000000001", primaryEmail := "u1@co",
                     givenName := "U", familyName := "One", suspended := false }],
         enrollGroupExists := true, enrollMembers := [] }
       { users := [{ id := "b9", externalId := some "900000000000000000009",
                     userName := "gone@co", givenName := "G", familyName := "One",
                     active := true }],
         groups := [{ id := "gx", displayName := "GoogleSCIM_old@co", members := ["b9"] }],
         enrolled := ["b9"], nextUid := 0, nextGid := 0 }
       noFaults).st.decisions ∧
    (runMain { gwsGroups := ["eng@co"], pfx := "GoogleSCIM_", domain := "co", testMode := true }
       { groupPages := [("eng@co", [["100000000000000000001"]])],
         users := [{ id := "100000000000000000001", primaryEmail := "u1@co",
                     givenName := "U", familyName := "One", suspended := false }],
         enrollGroupExists := true, enrollMembers := [] }
       { users := [{ id := "b9", externalId := some "900000000000000000009",
                     userName := "gone@co", givenName := "G", familyName := "One",
                     active := true }],
         groups := [{ id := "gx", displayName := "GoogleSCIM_old@co", members := ["b9"] }],
         enrolled := ["b9"], nextUid := 0, nextGid := 0 }
       noFaults).st.events.filter (fun e => !e.isMut)
      ≠ (runMain { gwsGroups := ["eng@co"], pfx := "GoogleSCIM_", domain := "co", testMode := false }
       { groupPages := [("eng@co", [["100000000000000000001"]])],
         users := [{ id := "100000000000000000001", primaryEmail := "u1@co",
                     givenName := "U", familyName := "One", suspended := false }],
         enrollGroupExists := true, enrollMembers := [] }
       { users := [{ id := "b9", externalId := some "900000000000000000009",
                     userName := "gone@co", givenName := "G", familyName := "One",
                     active := true }],
         groups := [{ id := "gx", displayName := "GoogleSCIM_old@co", members := ["b9"] }],
         enrolled := ["b9"], nextUid := 0, nextGid := 0 }
       noFaults).st.events.filter (fun e => !e.isMut) := by
  have h1 : (runMain { gwsGroups := ["eng@co"], pfx := "GoogleSCIM_", domain := "co", testMode := true }
       { groupPages := [("eng@co", [["100000000000000000001"]])],
         users := [{ id := "100000000000000000001", primaryEmail := "u1@co",
                     givenName := "U", familyName := "One", suspended := false }],
         enrollGroupExists := true, enrollMembers := [] }
       { users := [{ id := "b9", externalId := some "900000000000000000009",
                     userName := "gone@co", givenName := "G", familyName := "One",
                     active := true }],
         groups := [{ id := "gx", displayName := "GoogleSCIM_old@co", members := ["b9"] }],
         enrolled := ["b9"], nextUid := 0, nextGid := 0 }
       noFaults).st.decisions
      = [Decision.createUser "100000000000000000001"] := rfl
  have h2 : (runMain { gwsGroups := ["eng@co"], pfx := "GoogleSCIM_", domain := "co", testMode := false }
       { groupPages := [("eng@co", [["100000000000000000001"]])],
         users := [{ id := "100000000000000000001", primaryEmail := "u1@co",
                     givenName := "U", familyName := "One", suspended := false }],
         enrollGroupExists := true, enrollMembers := [] }
       { users := [{ id := "b9", externalId := some "900000000000000000009",
                     userName := "gone@co", givenName := "G", familyName := "One",
                     active := true }],
         groups := [{ id := "gx", displayName := "GoogleSCIM_old@co", members := ["b9"] }],
         enrolled := ["b9"], nextUid := 0, nextGid := 0 }
       noFaults).st.decisions
      = [Decision.createUser "100000000000000000001",
         Decision.offboard "900000000000000000009"] := rfl
  have h3 : (runMain { gwsGroups := ["eng@co"], pfx := "GoogleSCIM_", domain := "co", testMode := true }
       { groupPages := [("eng@co", [["100000000000000000001"]])],
         users := [{ id := "100000000000000000001", primaryEmail := "u1@co",
                     givenName := "U", familyName := "One", suspended := false }],
         enrollGroupExists := true, enrollMembers := [] }
       { users := [{ id := "b9", externalId := some "900000000000000000009",
                     userName := "gone@co", givenName := "G", familyName := "One",
                     active := true }],
         groups := [{ id := "gx", displayName := "GoogleSCIM_old@co", members := ["b9"] }],
         enrolled := ["b9"], nextUid := 0, nextGid := 0 }
       noFaults).st.events
      = [Event.readUserByName "will.may@beyondidentity.dev",
         Event.readGroupFilter "eng@co",
         Event.readMembersList "eng@co",
         Event.readUserFilter "100000000000000000001",
         Event.readGroupGet "test-group-id",
         Event.readEnrollment "test-user-id",
         Event.readEnrollment "test-user-id"] := rfl
  have h4 : (runMain { gwsGroups := ["eng@co"], pfx := "GoogleSCIM_", domain := "co", testMode := false }
       { groupPages := [("eng@co", [["100000000000000000001"]])],
         users := [{ id := "100000000000000000001", primaryEmail := "u1@co",
                     givenName := "U", familyName := "One", suspended := false }],
         enrollGroupExists := true, enrollMembers := [] }
       { users := [{ id := "b9", externalId := some "900000000000000000009",
                     userName := "gone@co", givenName := "G", familyName := "One",
                     active := true }],
         groups := [{ id := "gx", displayName := "GoogleSCIM_old@co", members := ["b9"] }],
         enrolled := ["b9"], nextUid := 0, nextGid := 0 }
       noFaults).st.events
      = [Event.readEnrollGroupGet,
         Event.readUserByName "will.may@beyondidentity.dev",
         Event.readListAllUsers,
         Event.readGroupFilter "eng@co",
         Event.mutCreateGroup "GoogleSCIM_eng@co",
         Event.readMembersList "eng@co",
         Event.readUserDetails "100000000000000000001",
         Event.readUserFilter "100000000000000000001",
         Event.mutCreateUser "100000000000000000001",
         Event.readGroupGet "bi-group-0",
         Event.mutAddMember "bi-group-0" "bi-user-0",
         Event.readEnrollment "bi-user-0",
         Event.mutEnrollDelete "u1@co",
         Event.readGroupGet "gx",
         Event.mutRemoveMember "gx" "b9",
         Event.readUserGet "b9",
         Event.mutSuspendPut "b9",
         Event.mutEnrollDelete "gone@co",
         Event.readEnrollment "bi-user-0",
         Event.mutEnrollDelete "u1@co"] := rfl
  rw [h1, h2, h3, h4]
  decide

/-- Witness for `dry_run_no_mutations` at a concrete snapshot. -/
theorem dry_run_no_mutations_witness :
    (runMain { gwsGroups := ["eng@co"], pfx := "GoogleSCIM_", domain := "co", testMode := true }
       { groupPages := [("eng@co", [["100000000000000000001"]])],
         users := [{ id := "100000000000000000001", primaryEmail := "u1@co",
                     givenName := "U", familyName := "One", suspended := false }],
         enrollGroupExists := true, enrollMembers := [] }
       { users := [{ id := "b9", externalId := some "900000000000000000009",
                     userName := "gone@co", givenName := "G", familyName := "One",
                     active := true }],
         groups := [{ id := "gx", displayName := "GoogleSCIM_old@co", members := ["b9"] }],
         enrolled := ["b9"], nextUid := 0, nextGid := 0 }
       noFaults).st.events.filter Event.isMut = [] ∧
    (runMain { gwsGroups := ["eng@co"], pfx := "GoogleSCIM_", domain := "co", testMode := true }
       { groupPages := [("eng@co", [["100000000000000000001"]])],
         users := [{ id := "100000000000000000001", primaryEmail := "u1@co",
                     givenName := "U", familyName := "One", suspended := false }],
         enrollGroupExists := true, enrollMembers := [] }
       { users := [{ id := "b9", externalId := some "900000000000000000009",
                     userName := "gone@co", givenName := "G", familyName := "One",
                     active := true }],
         groups := [{ id := "gx", displayName := "GoogleSCIM_old@co", members := ["b9"] }],
         enrolled := ["b9"], nextUid := 0, nextGid := 0 }
       noFaults).st.bi
      = { users := [{ id := "b9", externalId := some "900000000000000000009",
                      userName := "gone@co", givenName := "G", familyName := "One",
                      active := true }],
          groups := [{ id := "gx", displayName := "GoogleSCIM_old@co", members := ["b9"] }],
          enrolled := ["b9"], nextUid := 0, nextGid := 0 } :=
  ⟨(dry_run_no_mutations
      { gwsGroups := ["eng@co"], pfx := "GoogleSCIM_", domain := "co", testMode := true }
      { groupPages := [("eng@co", [["100000000000000000001"]])],
        users := [{ id := "100000000000000000001", primaryEmail := "u1@co",
                    givenName := "U", familyName := "One", suspended := false }],
        enrollGroupExists := true, enrollMembers := [] }
      { users := [{ id := "b9", externalId := some "900000000000000000009",
                    userName := "gone@co", givenName := "G", familyName := "One",
                    active := true }],
        groups := [{ id := "gx", displayName := "GoogleSCIM_old@co", members := ["b9"] }],
        enrolled := ["b9"], nextUid := 0, nextGid := 0 }
      noFaults rfl).1,
   (dry_run_no_mutations
      { gwsGroups := ["eng@co"], pfx := "GoogleSCIM_", domain := "co", testMode := true }
      { groupPages := [("eng@co", [["100000000000000000001"]])],
        users := [{ id := "100000000000000000001", primaryEmail := "u1@co",
                    givenName := "U", familyName := "One", suspended := false }],
        enrollGroupExists := true, enrollMembers := [] }
      { users := [{ id := "b9", externalId := some "900000000000000000009",
                    userName := "gone@co", givenName := "G", familyName := "One",
                    active := true }],
        groups := [{ id := "gx", displayName := "GoogleSCIM_old@co", members := ["b9"] }],
        enrolled := ["b9"], nextUid := 0, nextGid := 0 }
      noFaults rfl).2.1⟩

/-!
C10: the hardcoded diagnostic lookup of `will.may@beyondidentity.dev`.
-/

/-- C10: whenever the synthetic enrollment group is obtained, `main`
performs the userName-filter lookup of the hardcoded address
`will.may@beyondidentity.dev` — a pure read that leaves the threaded state
untouched apart from its read event — immediately after the
enrollment-group step and before the seed listing, and the remainder of the
pass is exactly the seed-and-reconcile continuation of the state so far:
the lookup's boolean result is dropped, so the pass proceeds identically
whether or not a user was found. -/
theorem willmay_diagnostic_lookup (cfg : Config) (g : GoogleInput) (s : BIState) (f : Faults)
    (bg : String)
    (h : (create_or_get_byid_enrolled_group cfg g f (initSt g s)).1 = some bg) :
    (∀ st : St, (get_detailed_user_info f "will.may@beyondidentity.dev" st).2
        = st.push [Event.readUserByName "will.may@beyondidentity.dev"]) ∧
    runMain cfg g s f =
      (let st1 := ((create_or_get_byid_enrolled_group cfg g f (initSt g s)).2).push
          [Event.readUserByName "will.may@beyondidentity.dev"]
       if cfg.testMode then { aborted := false, st := runPass cfg g f bg [] st1 }
       else
         let st2 := st1.push [Event.readListAllUsers]
         if f.listAllStatus == 200 then
           { aborted := false, st := runPass cfg g f bg (snapshotOf st2.bi) st2 }
         else { aborted := true, st := st2 }) := by
  refine ⟨fun st => detailed_user_info_st f _ st, ?_⟩
  simp only [runMain]
  rw [show create_or_get_byid_enrolled_group cfg g f (initSt g s)
      = (some bg, (create_or_get_byid_enrolled_group cfg g f (initSt g s)).2) from by
    rw [← h]]
  simp only [detailed_user_info_st]

/-- Witness for `willmay_diagnostic_lookup` at a concrete input. -/
theorem willmay_diagnostic_lookup_witness :
    (∀ st : St, (get_detailed_user_info noFaults "will.may@beyondidentity.dev" st).2
        = st.push [Event.readUserByName "will.may@beyondidentity.dev"]) ∧
    runMain { gwsGroups := [], pfx := "P_", domain := "d", testMode := false }
      { groupPages := [], users := [], enrollGroupExists := true, enrollMembers := [] }
      { users := [], groups := [], enrolled := [], nextUid := 0, nextGid := 0 } noFaults =
      (let st1 := ((create_or_get_byid_enrolled_group
          { gwsGroups := [], pfx := "P_", domain := "d", testMode := false }
          { groupPages := [], users := [], enrollGroupExists := true, enrollMembers := [] }
          noFaults (initSt
            { groupPages := [], users := [], enrollGroupExists := true, enrollMembers := [] }
            { users := [], groups := [], enrolled := [], nextUid := 0, nextGid := 0 })).2).push
          [Event.readUserByName "will.may@beyondidentity.dev"]
       if ({ gwsGroups := [], pfx := "P_", domain := "d", testMode := false } : Config).testMode
       then { aborted := false,
              st := runPass { gwsGroups := [], pfx := "P_", domain := "d", testMode := false }
                { groupPages := [], users := [], enrollGroupExists := true, enrollMembers := [] }
                noFaults "BYID_Enrolled@d" [] st1 }
       else
         let st2 := st1.push [Event.readListAllUsers]
         if noFaults.listAllStatus == 200 then
           { aborted := false,
             st := runPass { gwsGroups := [], pfx := "P_", domain := "d", testMode := false }
               { groupPages := [], users := [], enrollGroupExists := true, enrollMembers := [] }
               noFaults "BYID_Enrolled@d" (snapshotOf st2.bi) st2 }
         else { aborted := true, st := st2 }) :=
  willmay_diagnostic_lookup
    { gwsGroups := [], pfx := "P_", domain := "d", testMode := false }
    { groupPages := [], users := [], enrollGroupExists := true, enrollMembers := [] }
    { users := [], groups := [], enrolled := [], nextUid := 0, nextGid := 0 }
    noFaults "BYID_Enrolled@d" rfl

/-!
C4: which calls can address a given existing BI user.
-/

theorem targetsUser_isMut (uid : String) (e : Event) (h : targetsUser uid e = true) :
    e.isMut = true := by
  cases e <;> simp_all [targetsUser, Event.isMut]

theorem filter_targets_nil_of_mut_nil (uid : String) (l : List Event)
    (h : l.filter Event.isMut = []) : l.filter (targetsUser uid) = [] := by
  rw [List.filter_eq_nil_iff] at h ⊢
  intro e he hp
  exact h e he (targetsUser_isMut uid e hp)

theorem c4_create_bi_group (cfg : Config) (f : Faults) (uid e : String) (st : St) :
    (create_bi_group cfg f e st).2.bi.users = st.bi.users ∧
    (create_bi_group cfg f e st).2.events.filter (targetsUser uid)
      = st.events.filter (targetsUser uid) := by
  simp only [create_bi_group, create_bi_group_post]
  split
  · split
    · simp [targetsUser]
    · split
      · simp [targetsUser]
      · split <;> simp [targetsUser]
  · split
    · simp [targetsUser]
    · split <;> simp [targetsUser]

theorem c4_create_bi_user_post (cfg : Config) (f : Faults) (uid : String) (ext : Option String)
    (d : GUser) (st : St) (hua : usersAvoid uid ext st.bi.users)
    (hfresh : strStarts uid "bi-user-" = false) :
    usersAvoid uid ext (create_bi_user_post cfg f d st).2.bi.users ∧
    (create_bi_user_post cfg f d st).2.events.filter (targetsUser uid)
      = st.events.filter (targetsUser uid) ∧
    (∀ b, (create_bi_user_post cfg f d st).1 = some b →
      b ≠ uid ∨ cfg.testMode = true) := by
  simp only [create_bi_user_post]
  split
  · exact ⟨hua, by simp, fun b _ => Or.inr (by assumption)⟩
  · split
    · refine ⟨?_, by simp [targetsUser], ?_⟩
      · intro v hv hid
        simp only [addDec_bi, push_bi] at hv
        rcases List.mem_append.mp hv with hv | hv
        · exact hua v hv hid
        · exfalso
          have hvid : v.id = freshUserId st.bi.nextUid := by
            rcases List.mem_singleton.mp hv with rfl
            rfl
          have hmk := freshUserId_marked st.bi.nextUid
          rw [← hvid, hid, hfresh] at hmk
          exact Bool.false_ne_true hmk
      · intro b hb
        refine Or.inl fun hbu => ?_
        have hbe : freshUserId st.bi.nextUid = b := Option.some_inj.mp hb
        have hmk := freshUserId_marked st.bi.nextUid
        rw [hbe, hbu, hfresh] at hmk
        exact Bool.false_ne_true hmk
    · exact ⟨hua, by simp [targetsUser], by simp⟩

theorem c4_create_or_update (cfg : Config) (f : Faults) (uid : String) (ext : Option String)
    (d : GUser) (st : St) (hua : usersAvoid uid ext st.bi.users)
    (hne : ext ≠ some d.id) (hfresh : strStarts uid "bi-user-" = false) :
    usersAvoid uid ext (create_or_update_bi_user cfg f d st).2.bi.users ∧
    (create_or_update_bi_user cfg f d st).2.events.filter (targetsUser uid)
      = st.events.filter (targetsUser uid) ∧
    (∀ b, (create_or_update_bi_user cfg f d st).1 = some b →
      b ≠ uid ∨ cfg.testMode = true) := by
  have hua' : usersAvoid uid ext (st.push [Event.readUserFilter d.id]).bi.users := hua
  have hpost := c4_create_bi_user_post cfg f uid ext d
    (st.push [Event.readUserFilter d.id]) hua' hfresh
  simp only [push_events, List.filter_append] at hpost
  simp only [create_or_update_bi_user]
  split
  · split
    next h0 t hfil =>
      have hm1 : h0 ∈ st.bi.users.filter (fun u => u.externalId == some d.id) := by
        have h' : st.bi.users.filter (fun u => u.externalId == some d.id) = h0 :: t := hfil
        rw [h']
        exact List.mem_cons_self _ _
      have hmem := List.mem_filter.mp hm1
      have hid0 : h0.id ≠ uid := by
        intro heq
        have hx := hua h0 hmem.1 heq
        rw [hx] at hmem
        exact hne (by simpa using hmem.2)
      have hb0 : (h0.id == uid) = false := by simpa using hid0
      split
      · exact ⟨hua, by simp [targetsUser], fun b hb => Or.inr (by assumption)⟩
      · split
        · refine ⟨?_, by simp [targetsUser, hb0], ?_⟩
          · intro v hv hid
            simp only [addDec_bi, push_bi] at hv
            rcases List.mem_map.mp hv with ⟨w, hw, hwv⟩
            by_cases hwid : (w.id == h0.id) = true
            · exfalso
              rw [if_pos hwid] at hwv
              have hvw : v.id = w.id := by rw [← hwv]; try rfl
              apply hid0
              calc h0.id = w.id := (by simpa using hwid : w.id = h0.id).symm
                _ = v.id := hvw.symm
                _ = uid := hid
            · rw [if_neg hwid] at hwv
              rw [← hwv] at hid ⊢
              exact hua w hw hid
          · exact fun b hb => Or.inl (by rw [← Option.some_inj.mp hb]; exact hid0)
        · exact ⟨hua, by simp [targetsUser, hb0], by simp⟩
    next hfil =>
      refine ⟨hpost.1, ?_, hpost.2.2⟩
      rw [hpost.2.1]
      simp [targetsUser]
  · refine ⟨hpost.1, ?_, hpost.2.2⟩
    rw [hpost.2.1]
    simp [targetsUser]

theorem c4_add_user_to_group (cfg : Config) (f : Faults) (uid b gid : String) (st : St)
    (hb : b ≠ uid) :
    (add_user_to_group cfg f b gid st).2.bi.users = st.bi.users ∧
    (add_user_to_group cfg f b gid st).2.events.filter (targetsUser uid)
      = st.events.filter (targetsUser uid) := by
  have hbb : (b == uid) = false := by simpa using hb
  simp only [add_user_to_group]
  split
  · split
    · simp [targetsUser]
    · split
      · simp [targetsUser]
      · split
        · simp [targetsUser]
        · split <;> simp [targetsUser, hbb]
  · simp [targetsUser]

theorem c4_remove_user_from_group (cfg : Config) (f : Faults) (uid b gid : String) (st : St)
    (hb : b ≠ uid) :
    (remove_user_from_group cfg f b gid st).2.bi.users = st.bi.users ∧
    (remove_user_from_group cfg f b gid st).2.events.filter (targetsUser uid)
      = st.events.filter (targetsUser uid) := by
  have hbb : (b == uid) = false := by simpa using hb
  simp only [remove_user_from_group]
  split
  · split
    · simp [targetsUser]
    · split
      · simp [targetsUser]
      · split
        · simp [targetsUser]
        · split <;> simp [targetsUser, hbb]
  · simp [targetsUser]

theorem c4_suspend_user (cfg : Config) (f : Faults) (uid b : String) (ext : Option String)
    (st : St) (hb : b ≠ uid) (hua : usersAvoid uid ext st.bi.users) :
    usersAvoid uid ext (suspend_user cfg f b st).2.bi.users ∧
    (suspend_user cfg f b st).2.events.filter (targetsUser uid)
      = st.events.filter (targetsUser uid) := by
  have hbb : (b == uid) = false := by simpa using hb
  simp only [suspend_user]
  split
  · split
    · exact ⟨hua, by simp [targetsUser]⟩
    · split
      · exact ⟨hua, by simp [targetsUser]⟩
      · split
        · exact ⟨hua, by simp [targetsUser]⟩
        · split
          · refine ⟨?_, by simp [targetsUser, hbb]⟩
            intro v hv hid
            simp only [push_bi] at hv
            rcases List.mem_map.mp hv with ⟨w, hw, hwv⟩
            by_cases hwid : w.id == b
            · rw [if_pos hwid] at hwv
              have : v.id = w.id := by rw [← hwv]; try rfl
              rw [this] at hid
              rw [← hwv]
              exact hua w hw hid
            · rw [if_neg hwid] at hwv
              rw [← hwv] at hid ⊢
              exact hua w hw hid
          · exact ⟨hua, by simp [targetsUser, hbb]⟩
  · exact ⟨hua, by simp [targetsUser]⟩

theorem c4_update_byid (cfg : Config) (uid ge ue : String) (b : Bool) (st : St) :
    (update_byid_enrolled_group cfg ge ue b st).bi = st.bi ∧
    (update_byid_enrolled_group cfg ge ue b st).events.filter (targetsUser uid)
      = st.events.filter (targetsUser uid) := by
  simp only [update_byid_enrolled_group]
  split
  · exact ⟨rfl, rfl⟩
  · split
    · split <;> simp [targetsUser]
    · simp [targetsUser]

theorem c4_processMember (cfg : Config) (g : GoogleInput) (f : Faults) (bg ge gid : String)
    (uid : String) (ext : Option String) (acc : AllUsers) (st : St) (m : String)
    (hl : cfg.testMode = false)
    (hua : usersAvoid uid ext st.bi.users) (hacc : accAvoids uid acc)
    (hne : ext ≠ some m) (hfresh : strStarts uid "bi-user-" = false) :
    usersAvoid uid ext (processMember cfg g f bg ge gid acc st m).2.bi.users ∧
    accAvoids uid (processMember cfg g f bg ge gid acc st m).1 ∧
    (processMember cfg g f bg ge gid acc st m).2.events.filter (targetsUser uid)
      = st.events.filter (targetsUser uid) := by
  have hacc1 : ∀ r : URec,
      r.bi_id = ((getRec acc m).getD freshURec).bi_id →
      r.is_scim_user = ((getRec acc m).getD freshURec).is_scim_user →
      accAvoids uid (setRec acc m r) := by
    intro r hb hs kv hkv hsc
    rcases mem_setRec _ _ _ _ hkv with hkv | hkv
    · cases hget : getRec acc m with
      | none =>
        rw [hkv] at hsc
        rw [hs, hget] at hsc
        exact absurd hsc (by simp [freshURec])
      | some r0 =>
        have h0 := hacc (m, r0) (getRec_mem acc m r0 hget) (by
          rw [hkv] at hsc
          rw [hs, hget] at hsc
          simpa using hsc)
        rw [hkv]
        simp only
        rw [hb, hget]
        simpa using h0
    · exact hacc kv hkv hsc
  simp only [processMember]
  split
  next ev heq =>
    refine ⟨hua, hacc1 _ rfl rfl, ?_⟩
    have hev : ev = [Event.readUserDetails m] := by
      have h2 := congrArg Prod.snd heq
      simp only [get_user_details, hl] at h2
      exact h2.symm
    rw [hev]
    simp [targetsUser]
  next d ev heq =>
    have hev : ev = [Event.readUserDetails m] := by
      have h2 := congrArg Prod.snd heq
      simp only [get_user_details, hl] at h2
      exact h2.symm
    have hdid : d.id = m := by
      have h1 := congrArg Prod.fst heq
      simp only [get_user_details, hl] at h1
      by_cases hdf : f.userDetailsFail m = true
      · rw [if_pos hdf] at h1
        exact absurd h1 (by simp)
      · rw [if_neg hdf] at h1
        exact lookupGUser_id g m d h1
    have hned : ext ≠ some d.id := by rw [hdid]; exact hne
    have hco := c4_create_or_update cfg f uid ext d (st.push ev)
      (by simpa using hua) hned hfresh
    split
    next st2 heq2 =>
      refine ⟨?_, hacc1 _ rfl rfl, ?_⟩
      · have := hco.1
        rw [heq2] at this
        exact this
      · have := hco.2.1
        rw [heq2] at this
        simp only at this
        rw [this, hev]
        simp [targetsUser]
    next bid st2 heq2 =>
      have hbid : bid ≠ uid := by
        have := hco.2.2 bid (by rw [heq2])
        rcases this with h | h
        · exact h
        · rw [h] at hl; exact absurd hl (by simp)
      have hst2u : usersAvoid uid ext st2.bi.users := by
        have := hco.1
        rw [heq2] at this
        exact this
      have hst2e : st2.events.filter (targetsUser uid)
          = st.events.filter (targetsUser uid) := by
        have := hco.2.1
        rw [heq2] at this
        simp only at this
        rw [this, hev]
        simp [targetsUser]
      have hacc2 : ∀ (acc2 : AllUsers), accAvoids uid acc2 → ∀ r : URec,
          r.bi_id = some bid → accAvoids uid (setRec acc2 m r) := by
        intro acc2 hacc2' r hb kv hkv hsc
        rcases mem_setRec _ _ _ _ hkv with hkv | hkv
        · rw [hkv]
          exact ⟨bid, hb, hbid⟩
        · exact hacc2' kv hkv hsc
      have hadd := c4_add_user_to_group cfg f uid bid gid st2 hbid
      have henr := enrollment_status_st f bid (add_user_to_group cfg f bid gid st2).2
      have hupd := c4_update_byid cfg uid bg d.primaryEmail
        (get_bi_enrollment_status f bid (add_user_to_group cfg f bid gid st2).2).1
        (get_bi_enrollment_status f bid (add_user_to_group cfg f bid gid st2).2).2
      refine ⟨?_, ?_, ?_⟩
      · intro v hv hid
        rw [hupd.1, henr] at hv
        simp only [push_bi] at hv
        rw [hadd.1] at hv
        exact hst2u v hv hid
      · refine hacc2 _ ?_ _ rfl
        exact hacc1 _ rfl rfl
      · rw [hupd.2, henr]
        simp only [push_events, List.filter_append]
        rw [hadd.2, hst2e]
        simp [targetsUser]
theorem c4_processMembers (cfg : Config) (g : GoogleInput) (f : Faults) (bg ge gid : String)
    (uid : String) (ext : Option String) (ms : List String)
    (hl : cfg.testMode = false) (hfresh : strStarts uid "bi-user-" = false) :
    ∀ acc st, (∀ m ∈ ms, ext ≠ some m) →
      usersAvoid uid ext st.bi.users → accAvoids uid acc →
      usersAvoid uid ext (processMembers cfg g f bg ge gid ms (acc, st)).2.bi.users ∧
      accAvoids uid (processMembers cfg g f bg ge gid ms (acc, st)).1 ∧
      (processMembers cfg g f bg ge gid ms (acc, st)).2.events.filter (targetsUser uid)
        = st.events.filter (targetsUser uid) := by
  induction ms with
  | nil => intro acc st _ hua hacc; exact ⟨hua, hacc, rfl⟩
  | cons m rest ih =>
    intro acc st hms hua hacc
    simp only [processMembers]
    cases hpm : processMember cfg g f bg ge gid acc st m with
    | mk acc' st' =>
      have h1 := c4_processMember cfg g f bg ge gid uid ext acc st m hl hua hacc
        (hms m (List.mem_cons_self _ _)) hfresh
      rw [hpm] at h1
      have h2 := ih acc' st' (fun m' hm' => hms m' (List.mem_cons_of_mem _ hm')) h1.1 h1.2.1
      exact ⟨h2.1, h2.2.1, h2.2.2.trans h1.2.2⟩

theorem c4_processGroup (cfg : Config) (g : GoogleInput) (f : Faults) (bg : String)
    (uid : String) (ext : Option String) (e : String) (p : AllUsers × St)
    (hl : cfg.testMode = false) (hfresh : strStarts uid "bi-user-" = false)
    (hse : ∀ m ∈ srcMembers g e, ext ≠ some m)
    (hua : usersAvoid uid ext p.2.bi.users) (hacc : accAvoids uid p.1) :
    usersAvoid uid ext (processGroup cfg g f bg p e).2.bi.users ∧
    accAvoids uid (processGroup cfg g f bg p e).1 ∧
    (processGroup cfg g f bg p e).2.events.filter (targetsUser uid)
      = p.2.events.filter (targetsUser uid) := by
  have hcg := c4_create_bi_group cfg f uid e p.2
  simp only [processGroup]
  split
  next st' heq =>
    rw [heq] at hcg
    refine ⟨?_, hacc, hcg.2⟩
    intro v hv hid
    rw [hcg.1] at hv
    exact hua v hv hid
  next gid st' heq =>
    rw [heq] at hcg
    have hua' : usersAvoid uid ext (st'.push [Event.readMembersList e]).bi.users := by
      intro v hv hid
      simp only [push_bi] at hv
      rw [hcg.1] at hv
      exact hua v hv hid
    have hms : ∀ m ∈ get_group_members (pagesOf g e) (f.membersFailAt e), ext ≠ some m :=
      fun m hm => hse m (get_group_members_sub (pagesOf g e) (f.membersFailAt e) m hm)
    have h2 := c4_processMembers cfg g f bg e gid uid ext
      (get_group_members (pagesOf g e) (f.membersFailAt e)) hl hfresh p.1
      (st'.push [Event.readMembersList e]) hms hua' hacc
    refine ⟨h2.1, h2.2.1, ?_⟩
    rw [h2.2.2]
    simp only [push_events, List.filter_append]
    rw [hcg.2]
    simp [targetsUser]

theorem c4_processGroups (cfg : Config) (g : GoogleInput) (f : Faults) (bg : String)
    (uid : String) (ext : Option String) (es : List String)
    (hl : cfg.testMode = false) (hfresh : strStarts uid "bi-user-" = false) :
    ∀ p : AllUsers × St, (∀ e ∈ es, ∀ m ∈ srcMembers g e, ext ≠ some m) →
      usersAvoid uid ext p.2.bi.users → accAvoids uid p.1 →
      usersAvoid uid ext (processGroups cfg g f bg es p).2.bi.users ∧
      accAvoids uid (processGroups cfg g f bg es p).1 ∧
      (processGroups cfg g f bg es p).2.events.filter (targetsUser uid)
        = p.2.events.filter (targetsUser uid) := by
  induction es with
  | nil => intro p _ hua hacc; exact ⟨hua, hacc, rfl⟩
  | cons e rest ih =>
    intro p hes hua hacc
    simp only [processGroups]
    have h1 := c4_processGroup cfg g f bg uid ext e p hl hfresh
      (hes e (List.mem_cons_self _ _)) hua hacc
    have h2 := ih (processGroup cfg g f bg p e)
      (fun e' he' => hes e' (List.mem_cons_of_mem _ he')) h1.1 h1.2.1
    exact ⟨h2.1, h2.2.1, h2.2.2.trans h1.2.2⟩

theorem c4_offboardRemovals (cfg : Config) (f : Faults) (uid b : String)
    (snap : List BIUserView) (hb : b ≠ uid) :
    ∀ st, (offboardRemovals cfg f snap b st).bi.users = st.bi.users ∧
      (offboardRemovals cfg f snap b st).events.filter (targetsUser uid)
        = st.events.filter (targetsUser uid) := by
  unfold offboardRemovals
  induction snap with
  | nil => intro st; exact ⟨rfl, rfl⟩
  | cons v rest ih =>
    intro st
    simp only [List.foldl_cons]
    by_cases hv : (v.id == b) = true
    · simp only [hv, if_true]
      have hInner : ∀ (gl : List (String × String)) (st₁ : St),
          ((gl.foldl (fun st₂ gv =>
            if strStarts gv.2 cfg.pfx then (remove_user_from_group cfg f b gv.1 st₂).2
            else st₂) st₁ : St)).bi.users = st₁.bi.users ∧
          ((gl.foldl (fun st₂ gv =>
            if strStarts gv.2 cfg.pfx then (remove_user_from_group cfg f b gv.1 st₂).2
            else st₂) st₁ : St)).events.filter (targetsUser uid)
              = st₁.events.filter (targetsUser uid) := by
        intro gl
        induction gl with
        | nil => intro st₁; exact ⟨rfl, rfl⟩
        | cons gv tl ihg =>
          intro st₁
          simp only [List.foldl_cons]
          by_cases hs : strStarts gv.2 cfg.pfx = true
          · simp only [hs, if_true]
            have hrm := c4_remove_user_from_group cfg f uid b gv.1 st₁ hb
            have h2 := ihg (remove_user_from_group cfg f b gv.1 st₁).2
            exact ⟨h2.1.trans hrm.1, h2.2.trans hrm.2⟩
          · simp only [hs, if_false]
            exact ihg st₁
      have h1 := hInner v.groups st
      have h2 := ih (v.groups.foldl (fun st₂ gv =>
        if strStarts gv.2 cfg.pfx then (remove_user_from_group cfg f b gv.1 st₂).2
        else st₂) st)
      exact ⟨h2.1.trans h1.1, h2.2.trans h1.2⟩
    · simp only [hv, if_false]
      exact ih st

theorem c4_sweepRecord (cfg : Config) (f : Faults) (snap : List BIUserView) (bg : String)
    (uid : String) (ext : Option String) (st : St) (kv : String × URec)
    (hkv : kv.2.is_scim_user = true → ∃ b, kv.2.bi_id = some b ∧ b ≠ uid)
    (hua : usersAvoid uid ext st.bi.users) :
    usersAvoid uid ext (sweepRecord cfg f snap bg st kv).bi.users ∧
    (sweepRecord cfg f snap bg st kv).events.filter (targetsUser uid)
      = st.events.filter (targetsUser uid) := by
  simp only [sweepRecord]
  by_cases h1 : kv.2.is_scim_user = true
  · obtain ⟨b, hbid, hbne⟩ := hkv h1
    by_cases h2 : kv.2.was_in_group = true
    · rw [if_neg (by simp [h1]), if_neg (by simp [h2])]
      have henr := enrollment_status_st f (kv.2.bi_id.getD "") st
      have hupd := c4_update_byid cfg uid bg (kv.2.username.getD "")
        (get_bi_enrollment_status f (kv.2.bi_id.getD "") st).1
        (get_bi_enrollment_status f (kv.2.bi_id.getD "") st).2
      refine ⟨?_, ?_⟩
      · intro v hv hid
        rw [hupd.1, henr] at hv
        simp only [push_bi] at hv
        exact hua v hv hid
      · rw [hupd.2, henr]
        simp [targetsUser]
    · have h2f : kv.2.was_in_group = false := by
        cases hx : kv.2.was_in_group
        · rfl
        · exact absurd hx h2
      rw [if_neg (by simp [h1]), if_pos (by simp [h2f])]
      have hgd : kv.2.bi_id.getD "" = b := by rw [hbid]; rfl
      rw [hgd]
      have hrem := c4_offboardRemovals cfg f uid b snap hbne
        (st.addDec (Decision.offboard kv.1))
      have hsus := c4_suspend_user cfg f uid b ext
        (offboardRemovals cfg f snap b (st.addDec (Decision.offboard kv.1))) hbne
        (by
          intro v hv hid
          rw [hrem.1] at hv
          simp only [addDec_bi] at hv
          exact hua v hv hid)
      cases hsu : suspend_user cfg f b
          (offboardRemovals cfg f snap b (st.addDec (Decision.offboard kv.1))) with
      | mk rb st2 =>
        rw [hsu] at hsus
        have hupd := c4_update_byid cfg uid bg (kv.2.username.getD "") false st2
        refine ⟨?_, ?_⟩
        · intro v hv hid
          rw [hupd.1] at hv
          exact hsus.1 v hv hid
        · rw [hupd.2]
          simp only at hsus
          rw [hsus.2, hrem.2]
          simp
  · have h1' : (!kv.2.is_scim_user) = true := by
      cases hb : kv.2.is_scim_user
      · rfl
      · exact absurd hb h1
    rw [if_pos h1']
    exact ⟨hua, rfl⟩

theorem c4_sweepRecords (cfg : Config) (f : Faults) (snap : List BIUserView) (bg : String)
    (uid : String) (ext : Option String) (recs : AllUsers) :
    ∀ st, (∀ kv ∈ recs, kv.2.is_scim_user = true → ∃ b, kv.2.bi_id = some b ∧ b ≠ uid) →
      usersAvoid uid ext st.bi.users →
      (sweepRecords cfg f snap bg recs st).events.filter (targetsUser uid)
        = st.events.filter (targetsUser uid) := by
  induction recs with
  | nil => intro st _ _; rfl
  | cons kv rest ih =>
    intro st hrecs hua
    simp only [sweepRecords]
    have h1 := c4_sweepRecord cfg f snap bg uid ext st kv
      (hrecs kv (List.mem_cons_self _ _)) hua
    have h2 := ih (sweepRecord cfg f snap bg st kv)
      (fun kv' hkv' => hrecs kv' (List.mem_cons_of_mem _ hkv')) h1.1
    exact h2.trans h1.2

theorem c4_enroll_ensure (cfg : Config) (g : GoogleInput) (f : Faults) (uid : String)
    (st : St) :
    (create_or_get_byid_enrolled_group cfg g f st).2.bi = st.bi ∧
    (create_or_get_byid_enrolled_group cfg g f st).2.events.filter (targetsUser uid)
      = st.events.filter (targetsUser uid) := by
  simp only [create_or_get_byid_enrolled_group]
  split
  · exact ⟨rfl, rfl⟩
  · split
    · simp [targetsUser]
    · split
      · simp [targetsUser]
      · split <;> simp [targetsUser]

/-- C4 (counterexample): a target user whose externalId `"abc"` does not
match the 21-digit source-id format (so the seeding phase logs and skips
them as non-SCIM) is nonetheless the target of an update PUT — and of an
add-member call — whenever a discovered source member id collides with that
externalId, because the discovery path filters by `externalId eq` without
any format check. -/
theorem unmanaged_user_updated_on_collision :
    isScimId "abc" = false ∧
    Event.mutUpdateUser "b1" ∈ (runMain { gwsGroups := ["eng@co"], pfx := "GoogleSCIM_", domain := "co", testMode := false }
       { groupPages := [("eng@co", [["abc"]])],
         users := [{ id := "abc", primaryEmail := "a@co", givenName := "A",
                     familyName := "B", suspended := false }],
         enrollGroupExists := true, enrollMembers := [] }
       { users := [{ id := "b1", externalId := some "abc", userName := "x@co",
                     givenName := "X", familyName := "Y", active := true }],
         groups := [], enrolled := [], nextUid := 0, nextGid := 0 }
       noFaults).st.events ∧
    Event.mutAddMember "bi-group-0" "b1" ∈ (runMain { gwsGroups := ["eng@co"], pfx := "GoogleSCIM_", domain := "co", testMode := false }
       { groupPages := [("eng@co", [["abc"]])],
         users := [{ id := "abc", primaryEmail := "a@co", givenName := "A",
                     familyName := "B", suspended := false }],
         enrollGroupExists := true, enrollMembers := [] }
       { users := [{ id := "b1", externalId := some "abc", userName := "x@co",
                     givenName := "X", familyName := "Y", active := true }],
         groups := [], enrolled := [], nextUid := 0, nextGid := 0 }
       noFaults).st.events := by
  have hev : (runMain { gwsGroups := ["eng@co"], pfx := "GoogleSCIM_", domain := "co", testMode := false }
       { groupPages := [("eng@co", [["abc"]])],
         users := [{ id := "abc", primaryEmail := "a@co", givenName := "A",
                     familyName := "B", suspended := false }],
         enrollGroupExists := true, enrollMembers := [] }
       { users := [{ id := "b1", externalId := some "abc", userName := "x@co",
                     givenName := "X", familyName := "Y", active := true }],
         groups := [], enrolled := [], nextUid := 0, nextGid := 0 }
       noFaults).st.events
      = [Event.readEnrollGroupGet,
         Event.readUserByName "will.may@beyondidentity.dev",
         Event.readListAllUsers,
         Event.readGroupFilter "eng@co",
         Event.mutCreateGroup "GoogleSCIM_eng@co",
         Event.readMembersList "eng@co",
         Event.readUserDetails "abc",
         Event.readUserFilter "abc",
         Event.mutUpdateUser "b1",
         Event.readGroupGet "bi-group-0",
         Event.mutAddMember "bi-group-0" "b1",
         Event.readEnrollment "b1",
         Event.mutEnrollDelete "a@co",
         Event.readEnrollment "b1",
         Event.mutEnrollDelete "a@co"] := rfl
  rw [hev]
  refine ⟨by decide, by decide, by decide⟩

/-- C4 (amended): a target user whose externalId is missing or does not
match the source-id format is never the target of an update, suspend,
add-member or remove-member call during a pass — PROVIDED their externalId
also differs from every discovered source member id.  (A POST create never
addresses an existing user, and the counterexample shows the proviso is
necessary: on a collision the discovery path updates the unmanaged user.)
Well-formedness: tenant user ids are unique and no listed id collides with
a server-assigned fresh id. -/
theorem unmanaged_user_never_targeted (cfg : Config) (g : GoogleInput) (s : BIState)
    (f : Faults) (u : BIUser)
    (hu : u ∈ s.users)
    (hfmt : (match u.externalId with | none => true | some x => !isScimId x) = true)
    (hcol : (match u.externalId with | none => true | some x => !(discovered cfg g x)) = true)
    (hnodup : (s.users.map (fun v => v.id)).Nodup)
    (hfr : noFreshCollision s = true) :
    (runMain cfg g s f).st.events.filter (targetsUser u.id) = [] := by
  by_cases ht : cfg.testMode = true
  · exact filter_targets_nil_of_mut_nil u.id _ (test_runMain_st cfg g s f ht).1
  · have hl : cfg.testMode = false := by
      cases hx : cfg.testMode
      · rfl
      · exact absurd hx ht
    have hfr' := hfr
    rw [noFreshCollision, Bool.and_eq_true] at hfr'
    have hfresh : strStarts u.id "bi-user-" = false := by
      have := List.all_eq_true.mp hfr'.1 u hu
      simpa using this
    have hinj : ∀ v ∈ s.users, v.id = u.id → v = u := by
      intro v hv hid
      exact List.inj_on_of_nodup_map hnodup hv hu hid
    have hua : usersAvoid u.id u.externalId s.users := by
      intro v hv hid
      rw [hinj v hv hid]
    have hext : ∀ e ∈ cfg.gwsGroups, ∀ m ∈ srcMembers g e, u.externalId ≠ some m := by
      intro e he m hm heq
      cases hx : u.externalId with
      | none => rw [hx] at heq; exact absurd heq (by simp)
      | some x =>
        rw [hx] at hcol heq
        simp only at hcol
        have hxm : x = m := by simpa using heq
        have hdisc : discovered cfg g x = false := by simpa using hcol
        rw [discovered] at hdisc
        have h2 := List.any_eq_false.mp hdisc e he
        rw [hxm] at h2
        exact h2 (by simpa using hm)
    have haccS : accAvoids u.id (seedUsers (snapshotOf s)) := by
      intro kv hkv _
      obtain ⟨v, hvs, hvx, hsc, hval⟩ := mem_seedUsers _ kv hkv
      obtain ⟨w, hw, hwid, hwx, _⟩ := mem_snapshotOf s v hvs
      refine ⟨v.id, by rw [hval]; rfl, ?_⟩
      intro heq
      have hwu : w = u := hinj w hw (by rw [← hwid, heq])
      have hux : u.externalId = some kv.1 := by rw [← hwu, ← hwx, hvx]
      rw [hux] at hfmt
      simp only at hfmt
      rw [hsc] at hfmt
      exact absurd hfmt (by simp)
    have hee := c4_enroll_ensure cfg g f u.id (initSt g s)
    simp only [runMain]
    split
    next st' heq =>
      rw [heq] at hee
      simp only at hee
      rw [hee.2]
      rfl
    next bg st' heq =>
      rw [heq] at hee
      simp only at hee
      have hst'bi : st'.bi = s := hee.1
      have hst'ev : st'.events.filter (targetsUser u.id) = [] := by rw [hee.2]; rfl
      rw [detailed_user_info_st]
      simp only [hl, Bool.false_eq_true, if_false]
      split
      next hstat =>
        simp only [runPass]
        cases hpg : processGroups cfg g f bg cfg.gwsGroups
            (seedUsers (snapshotOf ((st'.push [Event.readUserByName
              "will.may@beyondidentity.dev"]).push [Event.readListAllUsers]).bi),
             (st'.push [Event.readUserByName "will.may@beyondidentity.dev"]).push
               [Event.readListAllUsers]) with
        | mk acc2 st2 =>
          have hsnap : snapshotOf ((st'.push [Event.readUserByName
              "will.may@beyondidentity.dev"]).push [Event.readListAllUsers]).bi
              = snapshotOf s := by
            simp only [push_bi, hst'bi]
          have hpgfacts := c4_processGroups cfg g f bg u.id u.externalId cfg.gwsGroups hl
            hfresh
            (seedUsers (snapshotOf ((st'.push [Event.readUserByName
              "will.may@beyondidentity.dev"]).push [Event.readListAllUsers]).bi),
             (st'.push [Event.readUserByName "will.may@beyondidentity.dev"]).push
               [Event.readListAllUsers])
            (fun e he m hm => hext e he m hm)
            (by
              intro v hv hid
              simp only [push_bi] at hv
              rw [hst'bi] at hv
              exact hua v hv hid)
            (by rw [hsnap]; exact haccS)
          rw [hpg] at hpgfacts
          have hsw := c4_sweepRecords cfg f (snapshotOf ((st'.push [Event.readUserByName
              "will.may@beyondidentity.dev"]).push [Event.readListAllUsers]).bi) bg
            u.id u.externalId acc2 st2 hpgfacts.2.1 hpgfacts.1
          rw [hsw, hpgfacts.2.2]
          simp only [push_events, List.filter_append]
          rw [hst'ev]
          simp [targetsUser]
      next hstat =>
        simp only [push_events, List.filter_append]
        rw [hst'ev]
        simp [targetsUser]

/-- Witness for `unmanaged_user_never_targeted` at a concrete snapshot. -/
theorem unmanaged_user_never_targeted_witness :
    (runMain { gwsGroups := ["eng@co"], pfx := "GoogleSCIM_", domain := "co",
               testMode := false }
       { groupPages := [("eng@co", [["100000000000000000001"]])],
         users := [{ id := "100000000000000000001", primaryEmail := "u1@co",
                     givenName := "U", familyName := "One", suspended := false }],
         enrollGroupExists := true, enrollMembers := [] }
       { users := [{ id := "b1", externalId := some "zz", userName := "x@co",
                     givenName := "X", familyName := "Y", active := true }],
         groups := [], enrolled := [], nextUid := 0, nextGid := 0 }
       noFaults).st.events.filter (targetsUser "b1") = [] :=
  unmanaged_user_never_targeted
    { gwsGroups := ["eng@co"], pfx := "GoogleSCIM_", domain := "co", testMode := false }
    { groupPages := [("eng@co", [["100000000000000000001"]])],
      users := [{ id := "100000000000000000001", primaryEmail := "u1@co",
                  givenName := "U", familyName := "One", suspended := false }],
      enrollGroupExists := true, enrollMembers := [] }
    { users := [{ id := "b1", externalId := some "zz", userName := "x@co",
                  givenName := "X", familyName := "Y", active := true }],
      groups := [], enrolled := [], nextUid := 0, nextGid := 0 }
    noFaults
    { id := "b1", externalId := some "zz", userName := "x@co",
      givenName := "X", familyName := "Y", active := true }
    (by decide) (by decide) (by decide) (by decide) (by decide)

/-!
Record-store structure through the discovery phase (any mode, any faults).
-/

theorem mem_getRec_of_nodup (m : AllUsers) (k : String) (v : URec)
    (hn : keysNodup m) (h : (k, v) ∈ m) : getRec m k = some v := by
  induction m with
  | nil => simp at h
  | cons kv rest ih =>
    rcases List.mem_cons.mp h with h | h
    · rw [← h]
      simp [getRec, List.find?_cons]
    · have hn' : keysNodup rest := (List.nodup_cons.mp hn).2
      have hk : kv.1 ≠ k := by
        intro heq
        apply (List.nodup_cons.mp hn).1
        show kv.1 ∈ List.map (fun kv => kv.1) rest
        rw [heq]
        exact List.mem_map.mpr ⟨(k, v), h, rfl⟩
      have hkb : (kv.1 == k) = false := by simpa using hk
      simp only [getRec, List.find?_cons, hkb]
      exact ih hn' h

theorem keysNodup_setRec (m : AllUsers) (k : String) (v : URec) (hn : keysNodup m) :
    keysNodup (setRec m k v) := by
  induction m with
  | nil => simp [setRec, keysNodup]
  | cons kv rest ih =>
    simp only [setRec]
    split
    next heq =>
      have h1 := List.nodup_cons.mp hn
      refine List.nodup_cons.mpr ⟨?_, h1.2⟩
      simpa using h1.1
    next heq =>
      have h1 := List.nodup_cons.mp hn
      refine List.nodup_cons.mpr ⟨?_, ih h1.2⟩
      intro hmem
      rcases List.mem_map.mp hmem with ⟨kv', hkv', hkk⟩
      rcases mem_setRec rest k v kv' hkv' with h | h
      · apply heq
        rw [h] at hkk
        have hkk' : k = kv.1 := hkk
        rw [← hkk']
        simp
      · exact h1.1 (List.mem_map.mpr ⟨kv', h, hkk⟩)

theorem keysNodup_seedUsers (l : List BIUserView) : keysNodup (seedUsers l) := by
  have : ∀ m : AllUsers, keysNodup m → keysNodup (l.foldl seedStep m) := by
    induction l with
    | nil => intro m hm; exact hm
    | cons v rest ih =>
      intro m hm
      simp only [List.foldl_cons]
      apply ih
      simp only [seedStep]
      split
      · exact hm
      · split
        · exact keysNodup_setRec _ _ _ hm
        · exact hm
  exact this [] (by simp [keysNodup])

theorem acc_processMember (cfg : Config) (g : GoogleInput) (f : Faults)
    (bg ge gid : String) (acc : AllUsers) (st : St) (m : String) :
    (keysNodup acc → keysNodup (processMember cfg g f bg ge gid acc st m).1) ∧
    (∃ i, getRec (processMember cfg g f bg ge gid acc st m).1 m = some i ∧
      i.was_in_group = true) ∧
    (∀ k, k ≠ m → getRec (processMember cfg g f bg ge gid acc st m).1 k = getRec acc k) := by
  simp only [processMember]
  split
  next ev heq =>
    refine ⟨fun hn => keysNodup_setRec _ _ _ hn, ⟨_, getRec_setRec_self _ _ _, rfl⟩,
      fun k hk => getRec_setRec_ne _ _ _ _ hk⟩
  next d ev heq =>
    split
    next st2 heq2 =>
      refine ⟨fun hn => keysNodup_setRec _ _ _ hn, ⟨_, getRec_setRec_self _ _ _, rfl⟩,
        fun k hk => getRec_setRec_ne _ _ _ _ hk⟩
    next bid st2 heq2 =>
      refine ⟨fun hn => keysNodup_setRec _ _ _ (keysNodup_setRec _ _ _ hn),
        ⟨_, getRec_setRec_self _ _ _, rfl⟩,
        fun k hk => (getRec_setRec_ne _ _ _ _ hk).trans (getRec_setRec_ne _ _ _ _ hk)⟩

theorem accSeed_processMember (cfg : Config) (g : GoogleInput) (f : Faults)
    (bg ge gid : String) (seed0 acc : AllUsers) (st : St) (m : String)
    (hs : ∀ kv ∈ acc, kv.2.was_in_group = false → getRec seed0 kv.1 = some kv.2) :
    ∀ kv ∈ (processMember cfg g f bg ge gid acc st m).1,
      kv.2.was_in_group = false → getRec seed0 kv.1 = some kv.2 := by
  simp only [processMember]
  split
  next ev heq =>
    intro kv hkv hw
    rcases mem_setRec _ _ _ _ hkv with h | h
    · rw [h] at hw
      exact absurd hw (by simp)
    · exact hs kv h hw
  next d ev heq =>
    split
    next st2 heq2 =>
      intro kv hkv hw
      rcases mem_setRec _ _ _ _ hkv with h | h
      · rw [h] at hw
        exact absurd hw (by simp)
      · exact hs kv h hw
    next bid st2 heq2 =>
      intro kv hkv hw
      rcases mem_setRec _ _ _ _ hkv with h | h
      · rw [h] at hw
        exact absurd hw (by simp)
      · rcases mem_setRec _ _ _ _ h with h' | h'
        · rw [h'] at hw
          exact absurd hw (by simp)
        · exact hs kv h' hw

theorem acc_processMembers (cfg : Config) (g : GoogleInput) (f : Faults)
    (bg ge gid : String) (seed0 : AllUsers) (ms : List String) :
    ∀ acc st, keysNodup acc →
      (∀ kv ∈ acc, kv.2.was_in_group = false → getRec seed0 kv.1 = some kv.2) →
      keysNodup (processMembers cfg g f bg ge gid ms (acc, st)).1 ∧
      (∀ kv ∈ (processMembers cfg g f bg ge gid ms (acc, st)).1,
        kv.2.was_in_group = false → getRec seed0 kv.1 = some kv.2) ∧
      (∀ m ∈ ms, ∃ i, getRec (processMembers cfg g f bg ge gid ms (acc, st)).1 m = some i ∧
        i.was_in_group = true) ∧
      (∀ k, k ∉ ms → getRec (processMembers cfg g f bg ge gid ms (acc, st)).1 k
        = getRec acc k) := by
  induction ms with
  | nil =>
    intro acc st hn hs
    exact ⟨hn, hs, by simp, fun k _ => rfl⟩
  | cons m rest ih =>
    intro acc st hn hs
    simp only [processMembers]
    cases hpm : processMember cfg g f bg ge gid acc st m with
    | mk acc1 st1 =>
      have ha := acc_processMember cfg g f bg ge gid acc st m
      rw [hpm] at ha
      have hs1 := accSeed_processMember cfg g f bg ge gid seed0 acc st m hs
      rw [hpm] at hs1
      have h2 := ih acc1 st1 (ha.1 hn) hs1
      refine ⟨h2.1, h2.2.1, ?_, ?_⟩
      · intro m' hm'
        rcases List.mem_cons.mp hm' with h | h
        · by_cases hmem : m ∈ rest
          · exact h2.2.2.1 m' (h ▸ hmem)
          · obtain ⟨i, hi, hw⟩ := ha.2.1
            exact ⟨i, by rw [h, h2.2.2.2 m hmem, hi], hw⟩
        · exact h2.2.2.1 m' h
      · intro k hk
        have hk1 : k ∉ rest := fun h => hk (List.mem_cons_of_mem _ h)
        have hk2 : k ≠ m := fun h => hk (h ▸ List.mem_cons_self _ _)
        rw [h2.2.2.2 k hk1, ha.2.2 k hk2]

theorem create_bi_group_noFaults_some (cfg : Config) (e : String) (st : St) :
    ∃ gid, (create_bi_group cfg noFaults e st).1 = some gid := by
  simp only [create_bi_group, create_bi_group_post, noFaults]
  split
  · split
    · exact ⟨_, rfl⟩
    · split
      · exact ⟨_, rfl⟩
      · split
        · exact ⟨_, rfl⟩
        next h => exact absurd rfl h
  next h => exact absurd rfl h

theorem noFaults_members (g : GoogleInput) (e : String) :
    get_group_members (pagesOf g e) (noFaults.membersFailAt e) = srcMembers g e := by
  rw [show noFaults.membersFailAt e = none from rfl, get_group_members,
    get_group_members_go_none (pagesOf g e) []]
  rfl

theorem acc_processGroup (cfg : Config) (g : GoogleInput) (bg : String)
    (seed0 : AllUsers) (e : String) (p : AllUsers × St)
    (hn : keysNodup p.1)
    (hs : ∀ kv ∈ p.1, kv.2.was_in_group = false → getRec seed0 kv.1 = some kv.2) :
    keysNodup (processGroup cfg g noFaults bg p e).1 ∧
    (∀ kv ∈ (processGroup cfg g noFaults bg p e).1,
      kv.2.was_in_group = false → getRec seed0 kv.1 = some kv.2) ∧
    (∀ m ∈ srcMembers g e, ∃ i, getRec (processGroup cfg g noFaults bg p e).1 m = some i ∧
      i.was_in_group = true) ∧
    (∀ k, k ∉ srcMembers g e → getRec (processGroup cfg g noFaults bg p e).1 k
      = getRec p.1 k) := by
  obtain ⟨gid0, hgid0⟩ := create_bi_group_noFaults_some cfg e p.2
  simp only [processGroup]
  split
  next st' heq =>
    rw [heq] at hgid0
    exact absurd hgid0 (by simp)
  next gid st' heq =>
    rw [noFaults_members]
    exact acc_processMembers cfg g noFaults bg e gid seed0 (srcMembers g e) p.1
      (st'.push [Event.readMembersList e]) hn hs

theorem acc_processGroups (cfg : Config) (g : GoogleInput) (bg : String)
    (seed0 : AllUsers) (es : List String) :
    ∀ p : AllUsers × St, keysNodup p.1 →
      (∀ kv ∈ p.1, kv.2.was_in_group = false → getRec seed0 kv.1 = some kv.2) →
      keysNodup (processGroups cfg g noFaults bg es p).1 ∧
      (∀ kv ∈ (processGroups cfg g noFaults bg es p).1,
        kv.2.was_in_group = false → getRec seed0 kv.1 = some kv.2) ∧
      (∀ e ∈ es, ∀ m ∈ srcMembers g e,
        ∃ i, getRec (processGroups cfg g noFaults bg es p).1 m = some i ∧
          i.was_in_group = true) ∧
      (∀ k, (∀ e ∈ es, k ∉ srcMembers g e) →
        getRec (processGroups cfg g noFaults bg es p).1 k = getRec p.1 k) := by
  induction es with
  | nil =>
    intro p hn hs
    exact ⟨hn, hs, by simp, fun k _ => rfl⟩
  | cons e rest ih =>
    intro p hn hs
    simp only [processGroups]
    have h1 := acc_processGroup cfg g bg seed0 e p hn hs
    have h2 := ih (processGroup cfg g noFaults bg p e) h1.1 h1.2.1
    refine ⟨h2.1, h2.2.1, ?_, ?_⟩
    · intro e' he' m hm
      rcases List.mem_cons.mp he' with h | h
      · by_cases hmem : ∃ e2 ∈ rest, m ∈ srcMembers g e2
        · obtain ⟨e2, he2, hm2⟩ := hmem
          exact h2.2.2.1 e2 he2 m hm2
        · push_neg at hmem
          obtain ⟨i, hi, hw⟩ := h1.2.2.1 m (h ▸ hm)
          exact ⟨i, by rw [h2.2.2.2 m hmem, hi], hw⟩
      · exact h2.2.2.1 e' h m hm
    · intro k hk
      rw [h2.2.2.2 k (fun e2 he2 => hk e2 (List.mem_cons_of_mem _ he2)),
        h1.2.2.2 k (hk e (List.mem_cons_self _ _))]

/-!
Utilities for the pass-to-pass user-list relation and the converged state.
-/

theorem usersSim_refl (cfg : Config) (g : GoogleInput) (l : List BIUser) :
    usersSim cfg g l l := by
  rw [usersSim, List.forall₂_same]
  exact fun x _ => ⟨rfl, rfl, Or.inl rfl⟩

theorem usersSim_ids (cfg : Config) (g : GoogleInput) :
    ∀ l₁ l₂, usersSim cfg g l₁ l₂ →
      l₂.map (fun v => v.id) = l₁.map (fun v => v.id) := by
  intro l₁ l₂ h
  induction h with
  | nil => rfl
  | cons hr _ ih => simp [ih, hr.1]

theorem usersSim_ext (cfg : Config) (g : GoogleInput) :
    ∀ l₁ l₂, usersSim cfg g l₁ l₂ → ∀ x : Option String,
      List.Forall₂ (fun u v => v.id = u.id ∧ v.externalId = u.externalId ∧
        (v.active = u.active ∨ ∃ y, u.externalId = some y ∧ discovered cfg g y = true))
        (l₁.filter (fun u => u.externalId == x)) (l₂.filter (fun u => u.externalId == x)) := by
  intro l₁ l₂ h
  induction h with
  | nil => intro x; simp [usersSim]
  | cons hr hrest ih =>
    intro x
    rename_i a b l₁' l₂'
    simp only [List.filter_cons]
    rw [hr.2.1]
    split
    · exact List.Forall₂.cons hr (ih x)
    · exact ih x

theorem usersSim_find (cfg : Config) (g : GoogleInput) :
    ∀ l₁ l₂, usersSim cfg g l₁ l₂ → ∀ b : String,
      (l₁.find? (fun v => v.id == b) = none ∧ l₂.find? (fun v => v.id == b) = none) ∨
      (∃ u v, l₁.find? (fun v => v.id == b) = some u ∧
        l₂.find? (fun v => v.id == b) = some v ∧ v.id = u.id ∧
        v.externalId = u.externalId ∧
        (v.active = u.active ∨ ∃ y, u.externalId = some y ∧ discovered cfg g y = true)) := by
  intro l₁ l₂ h
  induction h with
  | nil => intro b; simp
  | cons hr hrest ih =>
    intro b
    rename_i a c l₁' l₂'
    simp only [List.find?_cons]
    rw [hr.1]
    by_cases hb : (a.id == b) = true
    · rw [hb]
      exact Or.inr ⟨a, c, rfl, rfl, hr.1, hr.2.1, hr.2.2⟩
    · have hb' : (a.id == b) = false := by
        cases hx : (a.id == b)
        · rfl
        · exact absurd hx hb
      rw [hb']
      exact ih b

theorem usersSim_update (cfg : Config) (g : GoogleInput) (tid : String) (d : GUser)
    (hdisc : discovered cfg g d.id = true) :
    ∀ l₁ l₂, usersSim cfg g l₁ l₂ →
      (∀ u ∈ l₁, u.id = tid → u.externalId = some d.id) →
      usersSim cfg g l₁ (l₂.map (fun v => if v.id == tid then updateBIUser v d else v)) := by
  intro l₁ l₂ h
  induction h with
  | nil => intro _; simp [usersSim]
  | cons hr hrest ih =>
    intro htid
    rename_i a b l₁' l₂'
    simp only [List.map_cons]
    refine List.Forall₂.cons ?_ (ih fun u hu => htid u (List.mem_cons_of_mem _ hu))
    by_cases hb : (b.id == tid) = true
    · rw [if_pos hb]
      have haid : a.id = tid := by
        rw [← hr.1]
        simpa using hb
      have hax : a.externalId = some d.id := htid a (List.mem_cons_self _ _) haid
      refine ⟨?_, ?_, Or.inr ⟨d.id, hax, hdisc⟩⟩
      · show b.id = a.id
        exact hr.1
      · show some d.id = a.externalId
        exact hax.symm
    · have hb' : (b.id == tid) = false := by
        cases hx : (b.id == tid)
        · rfl
        · exact absurd hx hb
      rw [if_neg (by simp [hb'])]
      exact hr

theorem find?_id_users (l : List BIUser) (u : BIUser)
    (hn : (l.map (fun v => v.id)).Nodup) (hu : u ∈ l) :
    l.find? (fun v => v.id == u.id) = some u := by
  induction l with
  | nil => simp at hu
  | cons a rest ih =>
    rcases List.mem_cons.mp hu with h | h
    · rw [← h]
      simp [List.find?_cons]
    · have h1 := List.nodup_cons.mp hn
      have ha : a.id ≠ u.id := by
        intro heq
        apply h1.1
        show a.id ∈ List.map (fun v => v.id) rest
        rw [heq]
        exact List.mem_map.mpr ⟨u, h, rfl⟩
      have hab : (a.id == u.id) = false := by simpa using ha
      simp only [List.find?_cons, hab]
      exact ih h1.2 h

theorem find?_id_groups (l : List BIGroup) (gr : BIGroup)
    (hn : (l.map (fun h => h.id)).Nodup) (hg : gr ∈ l) :
    l.find? (fun h => h.id == gr.id) = some gr := by
  induction l with
  | nil => simp at hg
  | cons a rest ih =>
    rcases List.mem_cons.mp hg with h | h
    · rw [← h]
      simp [List.find?_cons]
    · have h1 := List.nodup_cons.mp hn
      have ha : a.id ≠ gr.id := by
        intro heq
        apply h1.1
        show a.id ∈ List.map (fun h => h.id) rest
        rw [heq]
        exact List.mem_map.mpr ⟨gr, h, rfl⟩
      have hab : (a.id == gr.id) = false := by simpa using ha
      simp only [List.find?_cons, hab]
      exact ih h1.2 h

theorem convergedB_spec (cfg : Config) (g : GoogleInput) (s : BIState)
    (hc : convergedB cfg g s = true) :
    (∀ e ∈ cfg.gwsGroups, ∃ gr, groupFor cfg s e = some gr ∧
      ∀ m ∈ srcMembers g e, ∀ d, lookupGUser g m = some d →
        ∃ u₀, userForExt s m = some u₀ ∧ gr.members.contains u₀.id = true) ∧
    (∀ u ∈ s.users, ∀ x, u.externalId = some x → isScimId x = true →
      discovered cfg g x = false →
      u.active = false ∧ ∀ gr ∈ s.groups, strStarts gr.displayName cfg.pfx = true →
        gr.members.contains u.id = false) := by
  rw [convergedB, Bool.and_eq_true] at hc
  constructor
  · intro e he
    have h1 := List.all_eq_true.mp hc.1 e he
    cases hgf : groupFor cfg s e with
    | none => rw [hgf] at h1; exact absurd h1 (by simp)
    | some gr =>
      rw [hgf] at h1
      refine ⟨gr, rfl, ?_⟩
      intro m hm d hd
      have h2 := List.all_eq_true.mp h1 m hm
      rw [hd] at h2
      cases hue : userForExt s m with
      | none => rw [hue] at h2; exact absurd h2 (by simp)
      | some u₀ =>
        rw [hue] at h2
        exact ⟨u₀, rfl, h2⟩
  · intro u hu x hx hsc hdisc
    have h1 := List.all_eq_true.mp hc.2 u hu
    rw [hx] at h1
    simp only at h1
    rw [hsc, hdisc] at h1
    simp only [Bool.not_false, Bool.and_self, if_true, Bool.and_eq_true] at h1
    refine ⟨by simpa using h1.1, ?_⟩
    intro gr hgr hmark
    have h2 := List.all_eq_true.mp h1.2 gr hgr
    rw [hmark] at h2
    simpa using h2

/-!
C2: a pass from a converged state issues no structural mutations.
-/

theorem c2_create_bi_group (cfg : Config) (e : String) (st : St) (gr : BIGroup)
    (hhead : (st.bi.groups.filter (fun h => h.displayName == cfg.pfx ++ e)).head?
      = some gr) :
    create_bi_group cfg noFaults e st = (some gr.id, st.push [Event.readGroupFilter e]) := by
  simp only [create_bi_group, create_bi_group_post, noFaults]
  split
  · split
    next a t heq =>
      have h2 : st.bi.groups.filter (fun h => h.displayName == cfg.pfx ++ e) = a :: t := heq
      rw [h2] at hhead
      have ha : a = gr := by simpa using hhead
      rw [ha]
    next heq =>
      have h2 : st.bi.groups.filter (fun h => h.displayName == cfg.pfx ++ e) = [] := heq
      rw [h2] at hhead
      simp at hhead
  next h => exact absurd rfl h

theorem c2_create_or_update (cfg : Config) (g : GoogleInput) (s : BIState) (d : GUser)
    (u₀ : BIUser) (st : St)
    (hl : cfg.testMode = false)
    (hnodupU : (s.users.map (fun v => v.id)).Nodup)
    (hsim : usersSim cfg g s.users st.bi.users)
    (hu0 : userForExt s d.id = some u₀)
    (hdisc : discovered cfg g d.id = true) :
    (create_or_update_bi_user cfg noFaults d st).1 = some u₀.id ∧
    (create_or_update_bi_user cfg noFaults d st).2.bi.groups = st.bi.groups ∧
    usersSim cfg g s.users (create_or_update_bi_user cfg noFaults d st).2.bi.users ∧
    (create_or_update_bi_user cfg noFaults d st).2.events.filter secondPassMut
      = st.events.filter secondPassMut ∧
    (create_or_update_bi_user cfg noFaults d st).2.enroll = st.enroll := by
  rw [userForExt] at hu0
  cases hfs : s.users.filter (fun u => u.externalId == some d.id) with
  | nil => rw [hfs] at hu0; simp at hu0
  | cons w ts =>
    rw [hfs] at hu0
    have hw : w = u₀ := by simpa using hu0
    subst hw
    have hwmem := List.mem_filter.mp (by rw [hfs]; exact List.mem_cons_self w ts :
      w ∈ s.users.filter (fun u => u.externalId == some d.id))
    have hsimf := usersSim_ext cfg g s.users st.bi.users hsim (some d.id)
    rw [hfs] at hsimf
    cases hft : st.bi.users.filter (fun u => u.externalId == some d.id) with
    | nil => rw [hft] at hsimf; cases hsimf
    | cons v₀ ts' =>
      rw [hft] at hsimf
      have hR := (List.forall₂_cons.mp hsimf).1
      simp only [create_or_update_bi_user, noFaults]
      split
      · split
        next a t heq =>
          have h2 : st.bi.users.filter (fun u => u.externalId == some d.id) = a :: t := heq
          rw [hft] at h2
          have hav : a = v₀ := by
            have := congrArg List.head? h2
            simpa using this.symm
          subst hav
          rw [if_neg (by simp [hl])]
          refine ⟨by rw [hR.1], by simp, ?_, by simp [secondPassMut], by simp⟩
          simp only [addDec_bi, push_bi]
          apply usersSim_update cfg g a.id d hdisc s.users st.bi.users hsim
          intro u hu hid
          have hu₀ : u = w := by
            apply List.inj_on_of_nodup_map hnodupU hu hwmem.1
            rw [hid, hR.1]
          rw [hu₀]
          simpa using hwmem.2
        next heq =>
          have h2 : st.bi.users.filter (fun u => u.externalId == some d.id) = [] := heq
          rw [hft] at h2
          simp at h2
      next h => exact absurd rfl h

theorem c2_add_user_to_group (cfg : Config) (s : BIState) (bid : String) (gr : BIGroup)
    (st : St) (hnodupG : (s.groups.map (fun h => h.id)).Nodup)
    (hgrs : st.bi.groups = s.groups) (hgrmem : gr ∈ s.groups)
    (hmem : gr.members.contains bid = true) :
    add_user_to_group cfg noFaults bid gr.id st
      = (true, st.push [Event.readGroupGet gr.id]) := by
  have hlook : lookupBIGroup st.bi gr.id = some gr := by
    rw [lookupBIGroup, hgrs]
    exact find?_id_groups s.groups gr hnodupG hgrmem
  simp only [add_user_to_group, noFaults]
  split
  · split
    next heq =>
      have h2 : lookupBIGroup st.bi gr.id = none := heq
      rw [hlook] at h2
      simp at h2
    next a heq =>
      have h2 : lookupBIGroup st.bi gr.id = some a := heq
      rw [hlook] at h2
      have ha : a = gr := by simpa using h2.symm
      subst ha
      rw [if_pos (by simpa using hmem)]
  next h => exact absurd rfl h

theorem c2_update_byid (cfg : Config) (ge ue : String) (b : Bool) (st : St) :
    (update_byid_enrolled_group cfg ge ue b st).bi = st.bi ∧
    (update_byid_enrolled_group cfg ge ue b st).events.filter secondPassMut
      = st.events.filter secondPassMut ∧
    (update_byid_enrolled_group cfg ge ue b st).decisions = st.decisions := by
  simp only [update_byid_enrolled_group]
  split
  · exact ⟨rfl, rfl, rfl⟩
  · split
    · split <;> simp [secondPassMut]
    · simp [secondPassMut]

theorem discovered_of_mem (cfg : Config) (g : GoogleInput) (e m : String)
    (he : e ∈ cfg.gwsGroups) (hm : m ∈ srcMembers g e) : discovered cfg g m = true := by
  rw [discovered]
  exact List.any_eq_true.mpr ⟨e, he, by simpa using hm⟩

theorem c2_processMember (cfg : Config) (g : GoogleInput) (s : BIState)
    (bg e : String) (gr : BIGroup) (acc : AllUsers) (st : St) (m : String)
    (hl : cfg.testMode = false)
    (hnodupU : (s.users.map (fun v => v.id)).Nodup)
    (hnodupG : (s.groups.map (fun h => h.id)).Nodup)
    (hgrs : st.bi.groups = s.groups)
    (hsim : usersSim cfg g s.users st.bi.users)
    (hgrmem : gr ∈ s.groups)
    (hm : m ∈ srcMembers g e) (he : e ∈ cfg.gwsGroups)
    (hH2 : ∀ d, lookupGUser g m = some d →
      ∃ u₀, userForExt s m = some u₀ ∧ gr.members.contains u₀.id = true) :
    (processMember cfg g noFaults bg e gr.id acc st m).2.bi.groups = s.groups ∧
    usersSim cfg g s.users (processMember cfg g noFaults bg e gr.id acc st m).2.bi.users ∧
    (processMember cfg g noFaults bg e gr.id acc st m).2.events.filter secondPassMut
      = st.events.filter secondPassMut := by
  simp only [processMember]
  split
  next ev heq =>
    have hev : ev = [Event.readUserDetails m] := by
      have h2 := congrArg Prod.snd heq
      simp only [get_user_details, hl] at h2
      exact h2.symm
    refine ⟨hgrs, hsim, ?_⟩
    simp only [addDec_events, push_events, hev, List.filter_append]
    simp [secondPassMut]
  next d ev heq =>
    have hev : ev = [Event.readUserDetails m] := by
      have h2 := congrArg Prod.snd heq
      simp only [get_user_details, hl] at h2
      exact h2.symm
    have hd : lookupGUser g m = some d := by
      have h1 := congrArg Prod.fst heq
      simp only [get_user_details, hl, noFaults] at h1
      exact h1
    have hdid : d.id = m := lookupGUser_id g m d hd
    obtain ⟨u₀, hu0, hmem0⟩ := hH2 d hd
    have hco := c2_create_or_update cfg g s d u₀ (st.push ev) hl hnodupU
      (by simpa using hsim) (by rw [hdid]; exact hu0)
      (by rw [hdid]; exact discovered_of_mem cfg g e m he hm)
    split
    next st2 heq2 =>
      have h1 := hco.1
      rw [heq2] at h1
      exact absurd h1 (by simp)
    next bid st2 heq2 =>
      have hbid : bid = u₀.id := by
        have h1 := hco.1
        rw [heq2] at h1
        simpa using h1
      have hst2g : st2.bi.groups = s.groups := by
        have h2 := hco.2.1
        rw [heq2] at h2
        simp only at h2
        rw [h2]
        simpa using hgrs
      have hst2sim : usersSim cfg g s.users st2.bi.users := by
        have h2 := hco.2.2.1
        rw [heq2] at h2
        exact h2
      have hst2e : st2.events.filter secondPassMut = st.events.filter secondPassMut := by
        have h2 := hco.2.2.2.1
        rw [heq2] at h2
        simp only at h2
        rw [h2, hev]
        simp [secondPassMut]
      have hadd := c2_add_user_to_group cfg s bid gr st2 hnodupG hst2g hgrmem
        (by rw [hbid]; exact hmem0)
      rw [hadd]
      simp only
      rw [enrollment_status_st]
      have hupd := c2_update_byid cfg bg d.primaryEmail
        (get_bi_enrollment_status noFaults bid (st2.push [Event.readGroupGet gr.id])).1
        ((st2.push [Event.readGroupGet gr.id]).push [Event.readEnrollment bid])
      refine ⟨?_, ?_, ?_⟩
      · rw [hupd.1]
        simpa using hst2g
      · rw [hupd.1]
        simpa using hst2sim
      · rw [hupd.2.1]
        simp only [push_events, List.filter_append]
        rw [hst2e]
        simp [secondPassMut]

theorem c2_processMembers (cfg : Config) (g : GoogleInput) (s : BIState)
    (bg e : String) (gr : BIGroup) (ms : List String)
    (hl : cfg.testMode = false)
    (hnodupU : (s.users.map (fun v => v.id)).Nodup)
    (hnodupG : (s.groups.map (fun h => h.id)).Nodup)
    (hgrmem : gr ∈ s.groups) (he : e ∈ cfg.gwsGroups)
    (hms : ∀ m ∈ ms, m ∈ srcMembers g e)
    (hH2 : ∀ m ∈ ms, ∀ d, lookupGUser g m = some d →
      ∃ u₀, userForExt s m = some u₀ ∧ gr.members.contains u₀.id = true) :
    ∀ acc st, st.bi.groups = s.groups → usersSim cfg g s.users st.bi.users →
      (processMembers cfg g noFaults bg e gr.id ms (acc, st)).2.bi.groups = s.groups ∧
      usersSim cfg g s.users
        (processMembers cfg g noFaults bg e gr.id ms (acc, st)).2.bi.users ∧
      (processMembers cfg g noFaults bg e gr.id ms (acc, st)).2.events.filter secondPassMut
        = st.events.filter secondPassMut := by
  induction ms with
  | nil => intro acc st hgrs hsim; exact ⟨hgrs, hsim, rfl⟩
  | cons m rest ih =>
    intro acc st hgrs hsim
    simp only [processMembers]
    cases hpm : processMember cfg g noFaults bg e gr.id acc st m with
    | mk acc1 st1 =>
      have h1 := c2_processMember cfg g s bg e gr acc st m hl hnodupU hnodupG hgrs hsim
        hgrmem (hms m (List.mem_cons_self _ _)) he (hH2 m (List.mem_cons_self _ _))
      rw [hpm] at h1
      have h2 := ih (fun m' hm' => hms m' (List.mem_cons_of_mem _ hm'))
        (fun m' hm' => hH2 m' (List.mem_cons_of_mem _ hm')) acc1 st1 h1.1 h1.2.1
      exact ⟨h2.1, h2.2.1, h2.2.2.trans h1.2.2⟩

theorem c2_processGroup (cfg : Config) (g : GoogleInput) (s : BIState)
    (bg e : String) (p : AllUsers × St)
    (hl : cfg.testMode = false)
    (hnodupU : (s.users.map (fun v => v.id)).Nodup)
    (hnodupG : (s.groups.map (fun h => h.id)).Nodup)
    (he : e ∈ cfg.gwsGroups)
    (hH1 : ∃ gr, groupFor cfg s e = some gr ∧
      ∀ m ∈ srcMembers g e, ∀ d, lookupGUser g m = some d →
        ∃ u₀, userForExt s m = some u₀ ∧ gr.members.contains u₀.id = true)
    (hgrs : p.2.bi.groups = s.groups) (hsim : usersSim cfg g s.users p.2.bi.users) :
    (processGroup cfg g noFaults bg p e).2.bi.groups = s.groups ∧
    usersSim cfg g s.users (processGroup cfg g noFaults bg p e).2.bi.users ∧
    (processGroup cfg g noFaults bg p e).2.events.filter secondPassMut
      = p.2.events.filter secondPassMut := by
  obtain ⟨gr, hgf, hH2⟩ := hH1
  have hgrmem : gr ∈ s.groups := by
    rw [groupFor] at hgf
    cases hfs : s.groups.filter (fun h => h.displayName == cfg.pfx ++ e) with
    | nil => rw [hfs] at hgf; simp at hgf
    | cons a t =>
      rw [hfs] at hgf
      have ha : a = gr := by simpa using hgf
      have : a ∈ s.groups.filter (fun h => h.displayName == cfg.pfx ++ e) := by
        rw [hfs]; exact List.mem_cons_self _ _
      exact ha ▸ (List.mem_filter.mp this).1
  have hcbg := c2_create_bi_group cfg e p.2 gr (by
    rw [hgrs]
    rw [groupFor] at hgf
    exact hgf)
  simp only [processGroup]
  split
  next st' heq =>
    rw [hcbg] at heq
    exact absurd (congrArg Prod.fst heq) (by simp)
  next gid st' heq =>
    rw [hcbg] at heq
    have hgid : gid = gr.id := by
      have := congrArg Prod.fst heq
      simpa using this.symm
    have hst' : st' = p.2.push [Event.readGroupFilter e] := by
      have := congrArg Prod.snd heq
      simpa using this.symm
    rw [noFaults_members]
    subst hgid
    have h2 := c2_processMembers cfg g s bg e gr (srcMembers g e) hl hnodupU hnodupG
      hgrmem he (fun m hm => hm) hH2 p.1 (st'.push [Event.readMembersList e])
      (by rw [hst']; simpa using hgrs)
      (by rw [hst']; simpa using hsim)
    refine ⟨h2.1, h2.2.1, ?_⟩
    rw [h2.2.2, hst']
    simp only [push_events, List.filter_append]
    simp [secondPassMut]

theorem c2_processGroups (cfg : Config) (g : GoogleInput) (s : BIState) (bg : String)
    (es : List String)
    (hl : cfg.testMode = false)
    (hnodupU : (s.users.map (fun v => v.id)).Nodup)
    (hnodupG : (s.groups.map (fun h => h.id)).Nodup) :
    ∀ p : AllUsers × St, (∀ e ∈ es, e ∈ cfg.gwsGroups) →
      (∀ e ∈ es, ∃ gr, groupFor cfg s e = some gr ∧
        ∀ m ∈ srcMembers g e, ∀ d, lookupGUser g m = some d →
          ∃ u₀, userForExt s m = some u₀ ∧ gr.members.contains u₀.id = true) →
      p.2.bi.groups = s.groups → usersSim cfg g s.users p.2.bi.users →
      (processGroups cfg g noFaults bg es p).2.bi.groups = s.groups ∧
      usersSim cfg g s.users (processGroups cfg g noFaults bg es p).2.bi.users ∧
      (processGroups cfg g noFaults bg es p).2.events.filter secondPassMut
        = p.2.events.filter secondPassMut := by
  induction es with
  | nil => intro p _ _ hgrs hsim; exact ⟨hgrs, hsim, rfl⟩
  | cons e rest ih =>
    intro p hin hH hgrs hsim
    simp only [processGroups]
    have h1 := c2_processGroup cfg g s bg e p hl hnodupU hnodupG
      (hin e (List.mem_cons_self _ _)) (hH e (List.mem_cons_self _ _)) hgrs hsim
    have h2 := ih (processGroup cfg g noFaults bg p e)
      (fun e' he' => hin e' (List.mem_cons_of_mem _ he'))
      (fun e' he' => hH e' (List.mem_cons_of_mem _ he')) h1.1 h1.2.1
    exact ⟨h2.1, h2.2.1, h2.2.2.trans h1.2.2⟩

theorem snapshot_groups (s : BIState) (v : BIUserView) (h : v ∈ snapshotOf s)
    (gv : String × String) (hg : gv ∈ v.groups) :
    ∃ gr ∈ s.groups, gr.displayName = gv.2 ∧ gr.members.contains v.id = true := by
  simp only [snapshotOf, List.mem_map] at h
  obtain ⟨w, hw, hv⟩ := h
  rw [← hv] at hg
  simp only [List.mem_map] at hg
  obtain ⟨gr, hgr, hgv⟩ := hg
  have h1 := List.mem_filter.mp hgr
  refine ⟨gr, h1.1, ?_, ?_⟩
  · rw [← hgv]
  · have hv2 : v.id = w.id := by rw [← hv]
    rw [hv2]
    simpa using h1.2

theorem c2_offboard_inner (cfg : Config) (f : Faults) (bid : String) :
    ∀ (gl : List (String × String)) (st : St),
      (∀ gv ∈ gl, strStarts gv.2 cfg.pfx = false) →
      gl.foldl (fun st gv =>
        if strStarts gv.2 cfg.pfx then (remove_user_from_group cfg f bid gv.1 st).2
        else st) st = st := by
  intro gl
  induction gl with
  | nil => intro st _; rfl
  | cons gv rest ih =>
    intro st hpre
    simp only [List.foldl_cons]
    rw [if_neg (by simp [hpre gv (List.mem_cons_self _ _)])]
    exact ih st (fun g2 hg2 => hpre g2 (List.mem_cons_of_mem _ hg2))

theorem c2_offboard_noop (cfg : Config) (f : Faults) (bid : String) :
    ∀ (snap : List BIUserView) (st : St),
      (∀ v ∈ snap, v.id = bid → ∀ gv ∈ v.groups, strStarts gv.2 cfg.pfx = false) →
      offboardRemovals cfg f snap bid st = st := by
  intro snap
  induction snap with
  | nil => intro st _; rfl
  | cons v rest ih =>
    intro st hpre
    simp only [offboardRemovals, List.foldl_cons]
    by_cases hvb : (v.id == bid) = true
    · rw [if_pos hvb,
        c2_offboard_inner cfg f bid v.groups st
          (hpre v (List.mem_cons_self _ _) (by simpa using hvb))]
      exact ih st (fun v2 hv2 => hpre v2 (List.mem_cons_of_mem _ hv2))
    · rw [if_neg hvb]
      exact ih st (fun v2 hv2 => hpre v2 (List.mem_cons_of_mem _ hv2))

theorem c2_suspend_noop (cfg : Config) (st : St) (bid : String) (v : BIUser)
    (hlook : lookupBIUser st.bi bid = some v) (hact : v.active = false) :
    suspend_user cfg noFaults bid st = (true, st.push [Event.readUserGet bid]) := by
  simp only [suspend_user, noFaults, push_bi, hlook]
  simp [hact]

theorem c2_sweepRecord (cfg : Config) (g : GoogleInput) (s : BIState) (bg : String)
    (st : St) (kv : String × URec)
    (hnodupU : (s.users.map (fun v => v.id)).Nodup)
    (hgrs : st.bi.groups = s.groups)
    (hsim : usersSim cfg g s.users st.bi.users)
    (hoff : offboardable cfg g s kv) :
    (sweepRecord cfg noFaults (snapshotOf s) bg st kv).bi.groups = s.groups ∧
    usersSim cfg g s.users (sweepRecord cfg noFaults (snapshotOf s) bg st kv).bi.users ∧
    (sweepRecord cfg noFaults (snapshotOf s) bg st kv).events.filter secondPassMut
      = st.events.filter secondPassMut := by
  simp only [sweepRecord]
  split
  · exact ⟨hgrs, hsim, rfl⟩
  next hsc =>
    have hsc' : kv.2.is_scim_user = true := by
      cases h : kv.2.is_scim_user
      · rw [h] at hsc; exact absurd rfl hsc
      · rfl
    split
    next hwas =>
      have hwas' : kv.2.was_in_group = false := by
        cases h : kv.2.was_in_group
        · rfl
        · rw [h] at hwas; simp at hwas
      obtain ⟨w, hwmem, hbid, hwact, hwdisc, hwgr⟩ := hoff hsc' hwas'
      have hgetd : kv.2.bi_id.getD "" = w.id := by rw [hbid]; rfl
      have hnm : ∀ v ∈ snapshotOf s, v.id = kv.2.bi_id.getD "" → ∀ gv ∈ v.groups,
          strStarts gv.2 cfg.pfx = false := by
        intro v hv hvid gv hgv
        obtain ⟨gr, hgrmem, hgname, hgcont⟩ := snapshot_groups s v hv gv hgv
        cases hmk : strStarts gv.2 cfg.pfx
        · rfl
        · exfalso
          have hmk' : strStarts gr.displayName cfg.pfx = true := by rw [hgname]; exact hmk
          have h2 := hwgr gr hgrmem hmk'
          rw [hvid, hgetd] at hgcont
          rw [h2] at hgcont
          exact absurd hgcont (by simp)
      rw [c2_offboard_noop cfg noFaults (kv.2.bi_id.getD "") (snapshotOf s)
        (st.addDec (Decision.offboard kv.1)) hnm]
      rcases usersSim_find cfg g s.users st.bi.users hsim w.id with hc | hc
      · rw [find?_id_users s.users w hnodupU hwmem] at hc
        exact absurd hc.1 (by simp)
      obtain ⟨u, vv, hf1, hf2, hvid, hvext, hvact⟩ := hc
      rw [find?_id_users s.users w hnodupU hwmem] at hf1
      have huw : u = w := by injection hf1 with h; exact h.symm
      subst huw
      have hvvact : vv.active = false := by
        rcases hvact with h | ⟨y, hy, hdy⟩
        · rw [h]; exact hwact
        · exact absurd hdy (by rw [hwdisc y hy]; simp)
      have hlook2 : lookupBIUser (st.addDec (Decision.offboard kv.1)).bi
          (kv.2.bi_id.getD "") = some vv := by
        rw [hgetd]
        exact hf2
      rw [c2_suspend_noop cfg (st.addDec (Decision.offboard kv.1)) (kv.2.bi_id.getD "")
        vv hlook2 hvvact]
      simp only
      have hupd := c2_update_byid cfg bg (kv.2.username.getD "") false
        ((st.addDec (Decision.offboard kv.1)).push [Event.readUserGet (kv.2.bi_id.getD "")])
      refine ⟨?_, ?_, ?_⟩
      · rw [hupd.1]
        simpa using hgrs
      · rw [hupd.1]
        simpa using hsim
      · rw [hupd.2.1]
        simp only [push_events, addDec_events, List.filter_append]
        simp [secondPassMut]
    next hwas =>
      rw [enrollment_status_st]
      have hupd := c2_update_byid cfg bg (kv.2.username.getD "")
        (get_bi_enrollment_status noFaults (kv.2.bi_id.getD "") st).1
        (st.push [Event.readEnrollment (kv.2.bi_id.getD "")])
      refine ⟨?_, ?_, ?_⟩
      · rw [hupd.1]
        simpa using hgrs
      · rw [hupd.1]
        simpa using hsim
      · rw [hupd.2.1]
        simp only [push_events, List.filter_append]
        simp [secondPassMut]

theorem c2_sweepRecords (cfg : Config) (g : GoogleInput) (s : BIState) (bg : String)
    (hnodupU : (s.users.map (fun v => v.id)).Nodup) :
    ∀ (recs : AllUsers) (st : St),
      st.bi.groups = s.groups → usersSim cfg g s.users st.bi.users →
      (∀ kv ∈ recs, offboardable cfg g s kv) →
      (sweepRecords cfg noFaults (snapshotOf s) bg recs st).bi.groups = s.groups ∧
      usersSim cfg g s.users (sweepRecords cfg noFaults (snapshotOf s) bg recs st).bi.users ∧
      (sweepRecords cfg noFaults (snapshotOf s) bg recs st).events.filter secondPassMut
        = st.events.filter secondPassMut := by
  intro recs
  induction recs with
  | nil => intro st hgrs hsim _; exact ⟨hgrs, hsim, rfl⟩
  | cons kv rest ih =>
    intro st hgrs hsim hoffs
    simp only [sweepRecords]
    have h1 := c2_sweepRecord cfg g s bg st kv hnodupU hgrs hsim
      (hoffs kv (List.mem_cons_self _ _))
    have h2 := ih (sweepRecord cfg noFaults (snapshotOf s) bg st kv) h1.1 h1.2.1
      (fun kv2 hkv2 => hoffs kv2 (List.mem_cons_of_mem _ hkv2))
    exact ⟨h2.1, h2.2.1, h2.2.2.trans h1.2.2⟩

theorem c2_enroll_ensure (cfg : Config) (g : GoogleInput) (st : St)
    (hl : cfg.testMode = false) (hex : g.enrollGroupExists = true) :
    create_or_get_byid_enrolled_group cfg g noFaults st
      = (some ("BYID_Enrolled@" ++ cfg.domain), st.push [Event.readEnrollGroupGet]) := by
  simp only [create_or_get_byid_enrolled_group, noFaults, hl, hex]
  simp

/-- C2 (amended): from a converged tenant — every tracked group present under
its derived name, every fetchable source member already provisioned and a
member of it, every managed-but-undiscovered user already inactive and out of
all marked groups — a live fault-free pass issues no group-create, no
user-create, no member-add, no member-remove, no suspend and no
enrollment-group-create call, and leaves the tenant group list unchanged.
(User-update PUTs and enrollment-membership edits are not excluded: the pass
unconditionally re-PUTs every discovered user.) -/
theorem converged_pass_no_structural_mutations (cfg : Config) (g : GoogleInput)
    (s : BIState)
    (hl : cfg.testMode = false) (hex : g.enrollGroupExists = true)
    (hnodupU : (s.users.map (fun v => v.id)).Nodup)
    (hnodupG : (s.groups.map (fun h => h.id)).Nodup)
    (hconv : convergedB cfg g s = true) :
    (runMain cfg g s noFaults).aborted = false ∧
    (runMain cfg g s noFaults).st.events.filter secondPassMut = [] ∧
    (runMain cfg g s noFaults).st.bi.groups = s.groups := by
  have hspec := convergedB_spec cfg g s hconv
  have hee := c2_enroll_ensure cfg g (initSt g s) hl hex
  simp only [runMain]
  split
  next st1 heq =>
    rw [hee] at heq
    exact absurd (congrArg Prod.fst heq) (by simp)
  next bg st1 heq =>
    rw [hee] at heq
    have hst1 : st1 = (initSt g s).push [Event.readEnrollGroupGet] := by
      have h2 := congrArg Prod.snd heq
      simpa using h2.symm
    rw [detailed_user_info_st]
    simp only [hl, Bool.false_eq_true, if_false]
    split
    next hstat =>
      have hstXbi : ((st1.push [Event.readUserByName
          "will.may@beyondidentity.dev"]).push [Event.readListAllUsers]).bi = s := by
        rw [push_bi, push_bi, hst1, push_bi]
        rfl
      have hsnap : snapshotOf ((st1.push [Event.readUserByName
          "will.may@beyondidentity.dev"]).push [Event.readListAllUsers]).bi
          = snapshotOf s := by rw [hstXbi]
      simp only [runPass]
      rw [hsnap]
      cases hpg : processGroups cfg g noFaults bg cfg.gwsGroups
          (seedUsers (snapshotOf s),
           (st1.push [Event.readUserByName "will.may@beyondidentity.dev"]).push
             [Event.readListAllUsers]) with
      | mk acc2 st2 =>
        have hc2pg := c2_processGroups cfg g s bg cfg.gwsGroups hl hnodupU hnodupG
          (seedUsers (snapshotOf s),
           (st1.push [Event.readUserByName "will.may@beyondidentity.dev"]).push
             [Event.readListAllUsers])
          (fun e he => he) (fun e he => hspec.1 e he)
          (by
            show ((st1.push [Event.readUserByName
              "will.may@beyondidentity.dev"]).push [Event.readListAllUsers]).bi.groups
              = s.groups
            rw [hstXbi])
          (by
            show usersSim cfg g s.users ((st1.push [Event.readUserByName
              "will.may@beyondidentity.dev"]).push [Event.readListAllUsers]).bi.users
            rw [hstXbi]
            exact usersSim_refl cfg g s.users)
        rw [hpg] at hc2pg
        have hacc := acc_processGroups cfg g bg (seedUsers (snapshotOf s)) cfg.gwsGroups
          (seedUsers (snapshotOf s),
           (st1.push [Event.readUserByName "will.may@beyondidentity.dev"]).push
             [Event.readListAllUsers])
          (keysNodup_seedUsers _)
          (fun kv hkv _ => mem_getRec_of_nodup _ _ _ (keysNodup_seedUsers _) hkv)
        rw [hpg] at hacc
        have hoffs : ∀ kv ∈ acc2, offboardable cfg g s kv := by
          intro kv hkv
          intro hsc hwas
          have hseed : getRec (seedUsers (snapshotOf s)) kv.1 = some kv.2 :=
            hacc.2.1 kv hkv hwas
          have hkv0 : (kv.1, kv.2) ∈ seedUsers (snapshotOf s) :=
            getRec_mem _ _ _ hseed
          obtain ⟨v, hvs, hvx, hscim, hval⟩ := mem_seedUsers _ (kv.1, kv.2) hkv0
          obtain ⟨w, hwmem, hwid, hwx, hwn⟩ := mem_snapshotOf s v hvs
          have hwext : w.externalId = some kv.1 := by rw [← hwx]; exact hvx
          have hndisc : discovered cfg g kv.1 = false := by
            cases hd : discovered cfg g kv.1
            · rfl
            · exfalso
              rw [discovered] at hd
              obtain ⟨e, he, hcont⟩ := List.any_eq_true.mp hd
              have hmem2 : kv.1 ∈ srcMembers g e := by simpa using hcont
              obtain ⟨i, hi, hiwas⟩ := hacc.2.2.1 e he kv.1 hmem2
              have hkrec : getRec acc2 kv.1 = some kv.2 :=
                mem_getRec_of_nodup _ _ _ hacc.1 hkv
              rw [hkrec] at hi
              have hik : kv.2 = i := by injection hi
              rw [← hik] at hiwas
              rw [hwas] at hiwas
              exact absurd hiwas (by simp)
          have hfacts := hspec.2 w hwmem kv.1 hwext hscim hndisc
          refine ⟨w, hwmem, ?_, hfacts.1, ?_, hfacts.2⟩
          · rw [hval]
            show some v.id = some w.id
            rw [hwid]
          · intro x hx
            rw [hwext] at hx
            have hxk : kv.1 = x := by injection hx
            rw [← hxk]
            exact hndisc
        have hsw := c2_sweepRecords cfg g s bg hnodupU acc2 st2
          hc2pg.1 hc2pg.2.1 hoffs
        refine ⟨by trivial, ?_, ?_⟩
        · show (sweepRecords cfg noFaults (snapshotOf s) bg acc2 st2).events.filter
            secondPassMut = []
          rw [hsw.2.2, hc2pg.2.2]
          rw [hst1]
          simp only [push_events, List.filter_append]
          simp [initSt, secondPassMut]
        · show (sweepRecords cfg noFaults (snapshotOf s) bg acc2 st2).bi.groups
            = s.groups
          exact hsw.1
    next hstat =>
      exact absurd rfl hstat

/-- C2 counterexample: a second live pass immediately after a first pass,
with the source unchanged and the target exactly as the first pass left it,
still issues a mutating user-update PUT (the pass unconditionally re-PUTs
every discovered user), so "zero additional mutating calls" is false. -/
theorem second_pass_still_updates :
    Event.mutUpdateUser "bi-user-0" ∈
      (runMain
        { gwsGroups := ["eng@co"], pfx := "GoogleSCIM_", domain := "co", testMode := false }
        { groupPages := [("eng@co", [["100000000000000000001"]])],
          users := [{ id := "100000000000000000001", primaryEmail := "u1@co",
                      givenName := "U", familyName := "One", suspended := false }],
          enrollGroupExists := true,
          enrollMembers :=
            (runMain
              { gwsGroups := ["eng@co"], pfx := "GoogleSCIM_", domain := "co",
                testMode := false }
              { groupPages := [("eng@co", [["100000000000000000001"]])],
                users := [{ id := "100000000000000000001", primaryEmail := "u1@co",
                            givenName := "U", familyName := "One", suspended := false }],
                enrollGroupExists := true, enrollMembers := [] }
              { users := [{ id := "b9", externalId := some "900000000000000000009",
                            userName := "gone@co", givenName := "G", familyName := "Z",
                            active := true }],
                groups := [{ id := "gx", displayName := "GoogleSCIM_old@co",
                             members := ["b9"] }],
                enrolled := ["b9"], nextUid := 0, nextGid := 0 }
              noFaults).st.enroll }
        (runMain
          { gwsGroups := ["eng@co"], pfx := "GoogleSCIM_", domain := "co",
            testMode := false }
          { groupPages := [("eng@co", [["100000000000000000001"]])],
            users := [{ id := "100000000000000000001", primaryEmail := "u1@co",
                        givenName := "U", familyName := "One", suspended := false }],
            enrollGroupExists := true, enrollMembers := [] }
          { users := [{ id := "b9", externalId := some "900000000000000000009",
                        userName := "gone@co", givenName := "G", familyName := "Z",
                        active := true }],
            groups := [{ id := "gx", displayName := "GoogleSCIM_old@co",
                         members := ["b9"] }],
            enrolled := ["b9"], nextUid := 0, nextGid := 0 }
          noFaults).st.bi
        noFaults).st.events := by
  have h : (runMain
        { gwsGroups := ["eng@co"], pfx := "GoogleSCIM_", domain := "co", testMode := false }
        { groupPages := [("eng@co", [["100000000000000000001"]])],
          users := [{ id := "100000000000000000001", primaryEmail := "u1@co",
                      givenName := "U", familyName := "One", suspended := false }],
          enrollGroupExists := true,
          enrollMembers :=
            (runMain
              { gwsGroups := ["eng@co"], pfx := "GoogleSCIM_", domain := "co",
                testMode := false }
              { groupPages := [("eng@co", [["100000000000000000001"]])],
                users := [{ id := "100000000000000000001", primaryEmail := "u1@co",
                            givenName := "U", familyName := "One", suspended := false }],
                enrollGroupExists := true, enrollMembers := [] }
              { users := [{ id := "b9", externalId := some "900000000000000000009",
                            userName := "gone@co", givenName := "G", familyName := "Z",
                            active := true }],
                groups := [{ id := "gx", displayName := "GoogleSCIM_old@co",
                             members := ["b9"] }],
                enrolled := ["b9"], nextUid := 0, nextGid := 0 }
              noFaults).st.enroll }
        (runMain
          { gwsGroups := ["eng@co"], pfx := "GoogleSCIM_", domain := "co",
            testMode := false }
          { groupPages := [("eng@co", [["100000000000000000001"]])],
            users := [{ id := "100000000000000000001", primaryEmail := "u1@co",
                        givenName := "U", familyName := "One", suspended := false }],
            enrollGroupExists := true, enrollMembers := [] }
          { users := [{ id := "b9", externalId := some "900000000000000000009",
                        userName := "gone@co", givenName := "G", familyName := "Z",
                        active := true }],
            groups := [{ id := "gx", displayName := "GoogleSCIM_old@co",
                         members := ["b9"] }],
            enrolled := ["b9"], nextUid := 0, nextGid := 0 }
          noFaults).st.bi
        noFaults).st.events
      = [Event.readEnrollGroupGet,
         Event.readUserByName "will.may@beyondidentity.dev",
         Event.readListAllUsers,
         Event.readGroupFilter "eng@co",
         Event.readMembersList "eng@co",
         Event.readUserDetails "100000000000000000001",
         Event.readUserFilter "100000000000000000001",
         Event.mutUpdateUser "bi-user-0",
         Event.readGroupGet "bi-group-0",
         Event.readEnrollment "bi-user-0",
         Event.mutEnrollDelete "u1@co",
         Event.readUserGet "b9",
         Event.mutEnrollDelete "gone@co",
         Event.readEnrollment "bi-user-0",
         Event.mutEnrollDelete "u1@co"] := rfl
  rw [h]
  decide

/-- Witness for `converged_pass_no_structural_mutations`: a concrete
converged tenant for one tracked group with one member; the pass performs
no structural mutation and preserves the group list. -/
theorem converged_pass_no_structural_mutations_witness :
    (runMain
      { gwsGroups := ["eng@co"], pfx := "GoogleSCIM_", domain := "co", testMode := false }
      { groupPages := [("eng@co", [["100000000000000000001"]])],
        users := [{ id := "100000000000000000001", primaryEmail := "u1@co",
                    givenName := "U", familyName := "One", suspended := false }],
        enrollGroupExists := true, enrollMembers := ["u1@co"] }
      { users := [{ id := "b1", externalId := some "100000000000000000001",
                    userName := "u1@co", givenName := "U", familyName := "One",
                    active := true }],
        groups := [{ id := "g1", displayName := "GoogleSCIM_eng@co",
                     members := ["b1"] }],
        enrolled := ["b1"], nextUid := 0, nextGid := 0 }
      noFaults).aborted = false ∧
    (runMain
      { gwsGroups := ["eng@co"], pfx := "GoogleSCIM_", domain := "co", testMode := false }
      { groupPages := [("eng@co", [["100000000000000000001"]])],
        users := [{ id := "100000000000000000001", primaryEmail := "u1@co",
                    givenName := "U", familyName := "One", suspended := false }],
        enrollGroupExists := true, enrollMembers := ["u1@co"] }
      { users := [{ id := "b1", externalId := some "100000000000000000001",
                    userName := "u1@co", givenName := "U", familyName := "One",
                    active := true }],
        groups := [{ id := "g1", displayName := "GoogleSCIM_eng@co",
                     members := ["b1"] }],
        enrolled := ["b1"], nextUid := 0, nextGid := 0 }
      noFaults).st.events.filter secondPassMut = [] ∧
    (runMain
      { gwsGroups := ["eng@co"], pfx := "GoogleSCIM_", domain := "co", testMode := false }
      { groupPages := [("eng@co", [["100000000000000000001"]])],
        users := [{ id := "100000000000000000001", primaryEmail := "u1@co",
                    givenName := "U", familyName := "One", suspended := false }],
        enrollGroupExists := true, enrollMembers := ["u1@co"] }
      { users := [{ id := "b1", externalId := some "100000000000000000001",
                    userName := "u1@co", givenName := "U", familyName := "One",
                    active := true }],
        groups := [{ id := "g1", displayName := "GoogleSCIM_eng@co",
                     members := ["b1"] }],
        enrolled := ["b1"], nextUid := 0, nextGid := 0 }
      noFaults).st.bi.groups
      = ({ users := [{ id := "b1", externalId := some "100000000000000000001",
                       userName := "u1@co", givenName := "U", familyName := "One",
                       active := true }],
           groups := [{ id := "g1", displayName := "GoogleSCIM_eng@co",
                        members := ["b1"] }],
           enrolled := ["b1"], nextUid := 0, nextGid := 0 } : BIState).groups :=
  converged_pass_no_structural_mutations
    { gwsGroups := ["eng@co"], pfx := "GoogleSCIM_", domain := "co", testMode := false }
    { groupPages := [("eng@co", [["100000000000000000001"]])],
      users := [{ id := "100000000000000000001", primaryEmail := "u1@co",
                  givenName := "U", familyName := "One", suspended := false }],
      enrollGroupExists := true, enrollMembers := ["u1@co"] }
    { users := [{ id := "b1", externalId := some "100000000000000000001",
                  userName := "u1@co", givenName := "U", familyName := "One",
                  active := true }],
      groups := [{ id := "g1", displayName := "GoogleSCIM_eng@co",
                   members := ["b1"] }],
      enrolled := ["b1"], nextUid := 0, nextGid := 0 }
    rfl rfl (by decide) (by decide) (by decide)

theorem getRec_foldl_seedStep_unique (k : String) (v : BIUserView)
    (hvx : v.externalId = some k) (hscim : isScimId k = true) :
    ∀ (l : List BIUserView) (m : AllUsers),
      (∀ v2 ∈ l, v2.externalId = some k → v2 = v) →
      (v ∈ l ∨ getRec m k = some (seedVal v)) →
      getRec (l.foldl seedStep m) k = some (seedVal v) := by
  intro l
  induction l with
  | nil =>
    intro m _ hd
    rcases hd with h | h
    · simp at h
    · exact h
  | cons v2 rest ih =>
    intro m huniq hd
    simp only [List.foldl_cons]
    by_cases hc : v2.externalId = some k
    · have hv2 : v2 = v := huniq v2 (List.mem_cons_self _ _) hc
      subst hv2
      have hstep : seedStep m v2 = setRec m k (seedVal v2) := by
        simp only [seedStep, hc, hscim, if_true]
      rw [hstep]
      exact ih (setRec m k (seedVal v2))
        (fun v3 h3 hx3 => huniq v3 (List.mem_cons_of_mem _ h3) hx3)
        (Or.inr (getRec_setRec_self m k (seedVal v2)))
    · have hpres : getRec (seedStep m v2) k = getRec m k := by
        simp only [seedStep]
        split
        · rfl
        next k2 hx2 =>
          split
          · exact getRec_setRec_ne m k2 k (seedVal v2)
              (fun h => hc (by rw [hx2, h]))
          · rfl
      have hv : v ∈ rest ∨ getRec (seedStep m v2) k = some (seedVal v) := by
        rcases hd with h | h
        · rcases List.mem_cons.mp h with h2 | h2
          · exact absurd (h2 ▸ hvx) hc
          · exact Or.inl h2
        · exact Or.inr (by rw [hpres]; exact h)
      exact ih (seedStep m v2) (fun v3 h3 hx3 => huniq v3 (List.mem_cons_of_mem _ h3) hx3) hv

theorem getRec_seedUsers_unique (snap : List BIUserView) (k : String) (v : BIUserView)
    (hv : v ∈ snap) (hvx : v.externalId = some k) (hscim : isScimId k = true)
    (huniq : ∀ v2 ∈ snap, v2.externalId = some k → v2 = v) :
    getRec (seedUsers snap) k = some (seedVal v) :=
  getRec_foldl_seedStep_unique k v hvx hscim snap [] huniq (Or.inl hv)

theorem grSim_refl (wid : String) (gr : BIGroup) : grSim wid gr gr := ⟨rfl, rfl, id⟩

theorem groupsTrack_init (wid : String) (base : List BIGroup) : groupsTrack wid base base :=
  ⟨base, [], by simp, List.forall₂_same.mpr (fun gr _ => grSim_refl wid gr), by simp⟩

theorem groupsTrack_map (wid : String) (base cur : List BIGroup) (f : BIGroup → BIGroup)
    (hf : ∀ gr, (f gr).id = gr.id ∧ (f gr).displayName = gr.displayName ∧
      ((f gr).members.contains wid = true → gr.members.contains wid = true))
    (h : groupsTrack wid base cur) : groupsTrack wid base (cur.map f) := by
  obtain ⟨front, tail, hcur, hfa, htail⟩ := h
  refine ⟨front.map f, tail.map f, by rw [hcur, List.map_append], ?_, ?_⟩
  · rw [List.forall₂_map_right_iff]
    exact hfa.imp (fun a b h0 =>
      ⟨(hf b).1.trans h0.1, (hf b).2.1.trans h0.2.1, fun hc => h0.2.2 ((hf b).2.2 hc)⟩)
  · intro gr hgr
    obtain ⟨gr0, hgr0, hfeq⟩ := List.mem_map.mp hgr
    refine ⟨?_, ?_⟩
    · rw [← hfeq, (hf gr0).1]
      exact (htail gr0 hgr0).1
    · rw [← hfeq]
      cases hc : ((f gr0).members.contains wid)
      · rfl
      · exact absurd ((hf gr0).2.2 hc) (by rw [(htail gr0 hgr0).2]; simp)

theorem groupsTrack_append_fresh (wid : String) (base cur : List BIGroup) (gr : BIGroup)
    (hid : strStarts gr.id "bi-group-" = true) (hm : gr.members.contains wid = false)
    (h : groupsTrack wid base cur) : groupsTrack wid base (cur ++ [gr]) := by
  obtain ⟨front, tail, hcur, hfa, htail⟩ := h
  refine ⟨front, tail ++ [gr], by rw [hcur, List.append_assoc], hfa, ?_⟩
  intro gr2 hgr2
  rcases List.mem_append.mp hgr2 with h2 | h2
  · exact htail gr2 h2
  · have : gr2 = gr := by simpa using h2
    rw [this]
    exact ⟨hid, hm⟩

theorem noMarkedWith_map (cfg : Config) (wid : String) (gl : List BIGroup)
    (f : BIGroup → BIGroup)
    (hf : ∀ gr, (f gr).displayName = gr.displayName ∧
      ((f gr).members.contains wid = true → gr.members.contains wid = true))
    (h : noMarkedWith cfg wid gl) : noMarkedWith cfg wid (gl.map f) := by
  intro gr hgr hmk
  obtain ⟨gr0, hgr0, hfeq⟩ := List.mem_map.mp hgr
  cases hc : gr.members.contains wid
  · rfl
  · exfalso
    have h1 := (hf gr0).2 (by rw [hfeq]; exact hc)
    have h2 := h gr0 hgr0 (by rw [← (hf gr0).1, hfeq]; exact hmk)
    rw [h2] at h1
    exact absurd h1 (by simp)

theorem c3_create_bi_group (cfg : Config) (wid : String) (base : List BIGroup) (e : String)
    (st : St) (hl : cfg.testMode = false)
    (hg : groupsTrack wid base st.bi.groups) :
    (create_bi_group cfg noFaults e st).2.bi.users = st.bi.users ∧
    groupsTrack wid base (create_bi_group cfg noFaults e st).2.bi.groups ∧
    (create_bi_group cfg noFaults e st).2.enroll = st.enroll ∧
    (create_bi_group cfg noFaults e st).2.decisions = st.decisions := by
  simp only [create_bi_group, create_bi_group_post, noFaults, hl, Bool.false_eq_true,
    if_false]
  split
  · split
    next a t heq => exact ⟨rfl, by simpa using hg, rfl, rfl⟩
    next heq =>
      split
      next h201 =>
        refine ⟨rfl, ?_, rfl, rfl⟩
        exact groupsTrack_append_fresh wid base st.bi.groups _
          (freshGroupId_marked _) rfl (by simpa using hg)
      next h201 => exact absurd rfl h201
  next h => exact absurd rfl h

theorem c3_add_user_to_group (cfg : Config) (wid : String) (base : List BIGroup)
    (b gid : String) (st : St) (hb : b ≠ wid)
    (hg : groupsTrack wid base st.bi.groups) :
    (add_user_to_group cfg noFaults b gid st).2.bi.users = st.bi.users ∧
    groupsTrack wid base (add_user_to_group cfg noFaults b gid st).2.bi.groups ∧
    (add_user_to_group cfg noFaults b gid st).2.enroll = st.enroll ∧
    (add_user_to_group cfg noFaults b gid st).2.decisions = st.decisions := by
  simp only [add_user_to_group, noFaults]
  split
  · split
    next heq => exact ⟨rfl, by simpa using hg, rfl, rfl⟩
    next gr heq =>
      split
      · exact ⟨rfl, by simpa using hg, rfl, rfl⟩
      · split
        next ht => exact ⟨rfl, by simpa using hg, rfl, rfl⟩
        next ht =>
          refine ⟨rfl, ?_, rfl, rfl⟩
          apply groupsTrack_map wid base st.bi.groups _ ?_ (by simpa using hg)
          intro gr2
          refine ⟨?_, ?_, ?_⟩
          · split <;> rfl
          · split <;> rfl
          · intro hc
            split at hc
            · have hc2 : wid ∈ gr2.members ++ [b] := by simpa using hc
              rcases List.mem_append.mp hc2 with h2 | h2
              · simpa using h2
              · exfalso
                have h3 : wid = b := by simpa using h2
                exact hb h3.symm
            · exact hc
  next h => exact absurd rfl h

theorem c3_remove_user_from_group (cfg : Config) (wid : String) (base : List BIGroup)
    (b gid : String) (st : St)
    (hg : groupsTrack wid base st.bi.groups) :
    (remove_user_from_group cfg noFaults b gid st).2.bi.users = st.bi.users ∧
    groupsTrack wid base (remove_user_from_group cfg noFaults b gid st).2.bi.groups ∧
    (remove_user_from_group cfg noFaults b gid st).2.enroll = st.enroll ∧
    (remove_user_from_group cfg noFaults b gid st).2.decisions = st.decisions := by
  simp only [remove_user_from_group, noFaults]
  split
  · split
    next heq => exact ⟨rfl, by simpa using hg, rfl, rfl⟩
    next gr heq =>
      split
      · exact ⟨rfl, by simpa using hg, rfl, rfl⟩
      · split
        next ht => exact ⟨rfl, by simpa using hg, rfl, rfl⟩
        next ht =>
          refine ⟨rfl, ?_, rfl, rfl⟩
          apply groupsTrack_map wid base st.bi.groups _ ?_ (by simpa using hg)
          intro gr2
          refine ⟨?_, ?_, ?_⟩
          · split <;> rfl
          · split <;> rfl
          · intro hc
            split at hc
            · have h2 : wid ∈ gr2.members ∧ ¬wid = b := by simpa using hc
              simpa using h2.1
            · exact hc
  next h => exact absurd rfl h

theorem count_offboard_addDec (st : St) (d : Decision) (k : String)
    (hd : ∀ k2, d ≠ Decision.offboard k2) :
    (st.addDec d).decisions.count (Decision.offboard k)
      = st.decisions.count (Decision.offboard k) := by
  rw [addDec_decisions, List.count_append]
  have h1 : List.count (Decision.offboard k) [d] = 0 := by
    simp [List.count_cons, hd k]
  rw [h1, Nat.add_zero]

theorem c3_create_or_update (cfg : Config) (g : GoogleInput) (wid x : String) (d : GUser)
    (st : St) (hl : cfg.testMode = false)
    (hwno : strStarts wid "bi-user-" = false)
    (hdisc : discovered cfg g d.id = true) (hnd : discovered cfg g x = false)
    (hpro : usersProtect wid x st.bi.users) :
    (∀ b, (create_or_update_bi_user cfg noFaults d st).1 = some b → b ≠ wid) ∧
    (create_or_update_bi_user cfg noFaults d st).2.bi.groups = st.bi.groups ∧
    usersProtect wid x (create_or_update_bi_user cfg noFaults d st).2.bi.users ∧
    (create_or_update_bi_user cfg noFaults d st).2.enroll = st.enroll ∧
    ∀ k, (create_or_update_bi_user cfg noFaults d st).2.decisions.count (Decision.offboard k)
      = st.decisions.count (Decision.offboard k) := by
  have hxd : x ≠ d.id := by
    intro h
    rw [h, hdisc] at hnd
    exact absurd hnd (by simp)
  simp only [create_or_update_bi_user, create_bi_user_post, noFaults]
  split
  · split
    next a t heq =>
      have h2 : st.bi.users.filter (fun u => u.externalId == some d.id) = a :: t := heq
      have hamem : a ∈ st.bi.users ∧ (a.externalId == some d.id) = true := by
        apply List.mem_filter.mp
        rw [h2]
        exact List.mem_cons_self _ _
      have haw : a.id ≠ wid := by
        intro hid
        have hax := hpro.2.1 a hamem.1 hid
        have h3 : some x = some d.id := by
          rw [← hax]
          simpa using hamem.2
        exact hxd (by injection h3)
      rw [if_neg (by simp [hl])]
      have hidEq : ∀ u : BIUser,
          (if (u.id == a.id) = true then updateBIUser u d else u).id = u.id := by
        intro u
        split <;> rfl
      have hfix : ∀ u : BIUser, u.id = wid →
          (if (u.id == a.id) = true then updateBIUser u d else u) = u := by
        intro u hu
        rw [if_neg ?_]
        intro hc
        apply haw
        rw [← (by simpa using hc : u.id = a.id), hu]
      refine ⟨?_, by simp, ?_, by simp, ?_⟩
      · intro b hb
        have h3 : a.id = b := by simpa using hb
        rw [← h3]
        exact haw
      · simp only [addDec_bi, push_bi]
        obtain ⟨⟨v0, hv0, hv0id⟩, hpin, a0, hagree⟩ := hpro
        refine ⟨?_, ?_, ⟨a0, ?_⟩⟩
        · refine ⟨_, List.mem_map.mpr ⟨v0, hv0, rfl⟩, ?_⟩
          rw [hfix v0 hv0id]
          exact hv0id
        · intro v hv hvid
          obtain ⟨u, hu, hueq⟩ := List.mem_map.mp hv
          have huid : u.id = wid := by
            rw [← (hidEq u), hueq]
            exact hvid
          rw [← hueq, hfix u huid]
          exact hpin u hu huid
        · intro v hv hvid
          obtain ⟨u, hu, hueq⟩ := List.mem_map.mp hv
          have huid : u.id = wid := by
            rw [← (hidEq u), hueq]
            exact hvid
          rw [← hueq, hfix u huid]
          exact hagree u hu huid
      · intro k
        simp [List.count_append, List.count_cons]
    next heq =>
      rw [if_neg (by simp [hl])]
      have hnw : freshUserId st.bi.nextUid ≠ wid := by
        intro h
        rw [← h] at hwno
        rw [freshUserId_marked st.bi.nextUid] at hwno
        exact absurd hwno (by simp)
      refine ⟨?_, by simp, ?_, by simp, ?_⟩
      · intro b hb
        have h3 : freshUserId st.bi.nextUid = b := by simpa using hb
        rw [← h3]
        exact hnw
      · simp only [addDec_bi, push_bi]
        obtain ⟨⟨v0, hv0, hv0id⟩, hpin, a0, hagree⟩ := hpro
        refine ⟨⟨v0, List.mem_append.mpr (Or.inl hv0), hv0id⟩, ?_, ⟨a0, ?_⟩⟩
        · intro v hv hvid
          rcases List.mem_append.mp hv with h3 | h3
          · exact hpin v h3 hvid
          · exfalso
            have h4 : v.id = freshUserId st.bi.nextUid := by
              have : v = { id := freshUserId st.bi.nextUid, externalId := some d.id,
                           userName := d.primaryEmail, givenName := d.givenName,
                           familyName := d.familyName, active := true } := by simpa using h3
              rw [this]
            rw [hvid] at h4
            exact hnw h4.symm
        · intro v hv hvid
          rcases List.mem_append.mp hv with h3 | h3
          · exact hagree v h3 hvid
          · exfalso
            have h4 : v.id = freshUserId st.bi.nextUid := by
              have : v = { id := freshUserId st.bi.nextUid, externalId := some d.id,
                           userName := d.primaryEmail, givenName := d.givenName,
                           familyName := d.familyName, active := true } := by simpa using h3
              rw [this]
            rw [hvid] at h4
            exact hnw h4.symm
      · intro k
        simp [List.count_append, List.count_cons]
  next h => exact absurd rfl h

theorem c3_suspend_user (cfg : Config) (wid x b : String) (st : St)
    (hpro : usersProtect wid x st.bi.users) :
    (suspend_user cfg noFaults b st).2.bi.groups = st.bi.groups ∧
    usersProtect wid x (suspend_user cfg noFaults b st).2.bi.users ∧
    (suspend_user cfg noFaults b st).2.enroll = st.enroll ∧
    (suspend_user cfg noFaults b st).2.decisions = st.decisions := by
  simp only [suspend_user, noFaults]
  split
  · split
    next heq => exact ⟨rfl, by simpa using hpro, rfl, rfl⟩
    next u heq =>
      split
      · exact ⟨rfl, by simpa using hpro, rfl, rfl⟩
      · split
        next ht => exact ⟨rfl, by simpa using hpro, rfl, rfl⟩
        next ht =>
          refine ⟨rfl, ?_, rfl, rfl⟩
          have hidEq : ∀ u2 : BIUser,
              (if (u2.id == b) = true then { u2 with active := false } else u2).id
                = u2.id := by
            intro u2
            split <;> rfl
          obtain ⟨⟨v0, hv0, hv0id⟩, hpin, a0, hagree⟩ := hpro
          refine ⟨?_, ?_, ?_⟩
          · refine ⟨_, List.mem_map.mpr ⟨v0, hv0, rfl⟩, ?_⟩
            rw [hidEq v0]
            exact hv0id
          · intro v hv hvid
            obtain ⟨u2, hu2, hueq⟩ := List.mem_map.mp hv
            have huid : u2.id = wid := by
              rw [← (hidEq u2), hueq]
              exact hvid
            have hext := hpin u2 hu2 huid
            rw [← hueq]
            split <;> exact hext
          · by_cases hbw : b = wid
            · refine ⟨false, ?_⟩
              intro v hv hvid
              obtain ⟨u2, hu2, hueq⟩ := List.mem_map.mp hv
              have huid : u2.id = wid := by
                rw [← (hidEq u2), hueq]
                exact hvid
              rw [← hueq]
              rw [if_pos (by simp [huid, hbw])]
            · refine ⟨a0, ?_⟩
              intro v hv hvid
              obtain ⟨u2, hu2, hueq⟩ := List.mem_map.mp hv
              have huid : u2.id = wid := by
                rw [← (hidEq u2), hueq]
                exact hvid
              rw [← hueq]
              rw [if_neg (by simp [huid]; exact fun h => hbw h.symm)]
              exact hagree u2 hu2 huid
  next h => exact absurd rfl h

theorem accName_setRec (x bad : String) (m : AllUsers) (k : String) (v : URec)
    (hm : accName x bad m)
    (hv : k ≠ x → ∀ un, v.username = some un → un ≠ bad) :
    accName x bad (setRec m k v) := by
  intro kv hkv hne un hun
  rcases mem_setRec m k v kv hkv with h | h
  · rw [h] at hne hun
    exact hv hne un hun
  · exact hm kv h hne un hun

theorem c3_processMember (cfg : Config) (g : GoogleInput) (wid x bad : String)
    (base : List BIGroup) (bg e gid : String) (acc : AllUsers) (st : St) (m : String)
    (hl : cfg.testMode = false)
    (hwno : strStarts wid "bi-user-" = false)
    (hnd : discovered cfg g x = false)
    (hpe : ∀ d ∈ g.users, d.primaryEmail ≠ bad)
    (hmd : discovered cfg g m = true)
    (hg : groupsTrack wid base st.bi.groups)
    (hpro : usersProtect wid x st.bi.users)
    (hacc : accName x bad acc) :
    groupsTrack wid base (processMember cfg g noFaults bg e gid acc st m).2.bi.groups ∧
    usersProtect wid x (processMember cfg g noFaults bg e gid acc st m).2.bi.users ∧
    accName x bad (processMember cfg g noFaults bg e gid acc st m).1 ∧
    ∀ k, (processMember cfg g noFaults bg e gid acc st m).2.decisions.count
        (Decision.offboard k)
      = st.decisions.count (Decision.offboard k) := by
  have hacc1 : accName x bad (setRec acc m
      { (getRec acc m).getD freshURec with
        groups := if ((getRec acc m).getD freshURec).groups.contains e then
            ((getRec acc m).getD freshURec).groups
          else ((getRec acc m).getD freshURec).groups ++ [e],
        was_in_group := true }) := by
    apply accName_setRec x bad acc m _ hacc
    intro hne un hun
    simp only at hun
    cases hr : getRec acc m with
    | none =>
      rw [hr] at hun
      simp [freshURec] at hun
    | some r0 =>
      rw [hr] at hun
      have : r0.username = some un := hun
      exact hacc (m, r0) (getRec_mem acc m r0 hr) hne un this
  simp only [processMember]
  split
  next ev heq =>
    refine ⟨hg, hpro, hacc1, ?_⟩
    intro k
    rw [count_offboard_addDec _ _ _ (fun k2 => by simp)]
    simp
  next d ev heq =>
    have hd : lookupGUser g m = some d := by
      have h1 := congrArg Prod.fst heq
      simp only [get_user_details, hl, noFaults] at h1
      exact h1
    have hdg : d ∈ g.users := by
      rw [lookupGUser] at hd
      exact List.mem_of_find?_eq_some hd
    have hddisc : discovered cfg g d.id = true := by
      rw [lookupGUser_id g m d hd]
      exact hmd
    have hco := c3_create_or_update cfg g wid x d (st.push ev) hl hwno hddisc hnd
      (by simpa using hpro)
    split
    next st2 heq2 =>
      refine ⟨?_, ?_, hacc1, ?_⟩
      · have h2 := hco.2.1
        rw [heq2] at h2
        rw [h2]
        simpa using hg
      · have h2 := hco.2.2.1
        rw [heq2] at h2
        exact h2
      · intro k
        have h2 := hco.2.2.2.2 k
        rw [heq2] at h2
        simp only at h2
        rw [h2]
        simp
    next bid st2 heq2 =>
      have hbid : bid ≠ wid := by
        apply hco.1
        rw [heq2]
      have hst2g : groupsTrack wid base st2.bi.groups := by
        have h2 := hco.2.1
        rw [heq2] at h2
        simp only at h2
        rw [h2]
        simpa using hg
      have hst2p : usersProtect wid x st2.bi.users := by
        have h2 := hco.2.2.1
        rw [heq2] at h2
        exact h2
      have hst2d : ∀ k, st2.decisions.count (Decision.offboard k)
          = st.decisions.count (Decision.offboard k) := by
        intro k
        have h2 := hco.2.2.2.2 k
        rw [heq2] at h2
        simp only at h2
        rw [h2]
        simp
      have hacc2 : accName x bad (setRec (setRec acc m
          { (getRec acc m).getD freshURec with
            groups := if ((getRec acc m).getD freshURec).groups.contains e then
                ((getRec acc m).getD freshURec).groups
              else ((getRec acc m).getD freshURec).groups ++ [e],
            was_in_group := true }) m
          { (getRec acc m).getD freshURec with
            groups := if ((getRec acc m).getD freshURec).groups.contains e then
                ((getRec acc m).getD freshURec).groups
              else ((getRec acc m).getD freshURec).groups ++ [e],
            was_in_group := true, bi_id := some bid, is_scim_user := true,
            username := some d.primaryEmail } : AllUsers) := by
        apply accName_setRec x bad _ m _ hacc1
        intro _ un hun
        have h3 : d.primaryEmail = un := by simpa using hun
        rw [← h3]
        exact hpe d hdg
      cases hadd : add_user_to_group cfg noFaults bid gid st2 with
      | mk ok st3 =>
        have ha := c3_add_user_to_group cfg wid base bid gid st2 hbid hst2g
        rw [hadd] at ha
        simp only at ha
        cases henr : get_bi_enrollment_status noFaults bid st3 with
        | mk b2 st4 =>
          have hst4 : st4 = st3.push [Event.readEnrollment bid] := by
            have h4 := enrollment_status_st noFaults bid st3
            rw [henr] at h4
            exact h4
          have hupd := c2_update_byid cfg bg d.primaryEmail b2 st4
          refine ⟨?_, ?_, ?_, ?_⟩
          · rw [hupd.1, hst4]
            simpa using ha.2.1
          · rw [hupd.1, hst4]
            have h5 : st3.bi.users = st2.bi.users := ha.1
            show usersProtect wid x st3.bi.users
            rw [h5]
            exact hst2p
          · exact hacc2
          · intro k
            rw [hupd.2.2, hst4]
            simp only [push_decisions]
            rw [ha.2.2.2]
            exact hst2d k

theorem c3_processMembers (cfg : Config) (g : GoogleInput) (wid x bad : String)
    (base : List BIGroup) (bg e gid : String) (ms : List String)
    (hl : cfg.testMode = false)
    (hwno : strStarts wid "bi-user-" = false)
    (hnd : discovered cfg g x = false)
    (hpe : ∀ d ∈ g.users, d.primaryEmail ≠ bad)
    (hms : ∀ m ∈ ms, discovered cfg g m = true) :
    ∀ acc st, groupsTrack wid base st.bi.groups → usersProtect wid x st.bi.users →
      accName x bad acc →
      groupsTrack wid base
        (processMembers cfg g noFaults bg e gid ms (acc, st)).2.bi.groups ∧
      usersProtect wid x (processMembers cfg g noFaults bg e gid ms (acc, st)).2.bi.users ∧
      accName x bad (processMembers cfg g noFaults bg e gid ms (acc, st)).1 ∧
      ∀ k, (processMembers cfg g noFaults bg e gid ms (acc, st)).2.decisions.count
          (Decision.offboard k)
        = st.decisions.count (Decision.offboard k) := by
  induction ms with
  | nil => intro acc st hg hpro hacc; exact ⟨hg, hpro, hacc, fun k => rfl⟩
  | cons m rest ih =>
    intro acc st hg hpro hacc
    simp only [processMembers]
    cases hpm : processMember cfg g noFaults bg e gid acc st m with
    | mk acc1 st1 =>
      have h1 := c3_processMember cfg g wid x bad base bg e gid acc st m hl hwno hnd hpe
        (hms m (List.mem_cons_self _ _)) hg hpro hacc
      rw [hpm] at h1
      have h2 := ih (fun m2 hm2 => hms m2 (List.mem_cons_of_mem _ hm2)) acc1 st1
        h1.1 h1.2.1 h1.2.2.1
      exact ⟨h2.1, h2.2.1, h2.2.2.1, fun k => (h2.2.2.2 k).trans (h1.2.2.2 k)⟩

theorem c3_processGroup (cfg : Config) (g : GoogleInput) (wid x bad : String)
    (base : List BIGroup) (bg e : String) (p : AllUsers × St)
    (hl : cfg.testMode = false)
    (hwno : strStarts wid "bi-user-" = false)
    (hnd : discovered cfg g x = false)
    (hpe : ∀ d ∈ g.users, d.primaryEmail ≠ bad)
    (he : e ∈ cfg.gwsGroups)
    (hg : groupsTrack wid base p.2.bi.groups)
    (hpro : usersProtect wid x p.2.bi.users)
    (hacc : accName x bad p.1) :
    groupsTrack wid base (processGroup cfg g noFaults bg p e).2.bi.groups ∧
    usersProtect wid x (processGroup cfg g noFaults bg p e).2.bi.users ∧
    accName x bad (processGroup cfg g noFaults bg p e).1 ∧
    ∀ k, (processGroup cfg g noFaults bg p e).2.decisions.count (Decision.offboard k)
      = p.2.decisions.count (Decision.offboard k) := by
  have hcg := c3_create_bi_group cfg wid base e p.2 hl hg
  simp only [processGroup]
  split
  next st1 heq =>
    rw [heq] at hcg
    simp only at hcg
    refine ⟨hcg.2.1, ?_, hacc, ?_⟩
    · show usersProtect wid x st1.bi.users
      rw [hcg.1]
      exact hpro
    · intro k
      show st1.decisions.count (Decision.offboard k) = _
      rw [hcg.2.2.2]
  next gid st1 heq =>
    rw [heq] at hcg
    simp only at hcg
    rw [noFaults_members]
    have h2 := c3_processMembers cfg g wid x bad base bg e gid (srcMembers g e) hl hwno
      hnd hpe (fun m hm => discovered_of_mem cfg g e m he hm) p.1
      (st1.push [Event.readMembersList e])
      (by simpa using hcg.2.1)
      (by
        show usersProtect wid x st1.bi.users
        rw [hcg.1]
        exact hpro)
      hacc
    refine ⟨h2.1, h2.2.1, h2.2.2.1, ?_⟩
    intro k
    rw [h2.2.2.2 k]
    simp only [push_decisions]
    rw [hcg.2.2.2]

theorem c3_processGroups (cfg : Config) (g : GoogleInput) (wid x bad : String)
    (base : List BIGroup) (bg : String) (es : List String)
    (hl : cfg.testMode = false)
    (hwno : strStarts wid "bi-user-" = false)
    (hnd : discovered cfg g x = false)
    (hpe : ∀ d ∈ g.users, d.primaryEmail ≠ bad)
    (hes : ∀ e ∈ es, e ∈ cfg.gwsGroups) :
    ∀ p : AllUsers × St, groupsTrack wid base p.2.bi.groups →
      usersProtect wid x p.2.bi.users → accName x bad p.1 →
      groupsTrack wid base (processGroups cfg g noFaults bg es p).2.bi.groups ∧
      usersProtect wid x (processGroups cfg g noFaults bg es p).2.bi.users ∧
      accName x bad (processGroups cfg g noFaults bg es p).1 ∧
      ∀ k, (processGroups cfg g noFaults bg es p).2.decisions.count (Decision.offboard k)
        = p.2.decisions.count (Decision.offboard k) := by
  induction es with
  | nil => intro p hg hpro hacc; exact ⟨hg, hpro, hacc, fun k => rfl⟩
  | cons e rest ih =>
    intro p hg hpro hacc
    simp only [processGroups]
    have h1 := c3_processGroup cfg g wid x bad base bg e p hl hwno hnd hpe
      (hes e (List.mem_cons_self _ _)) hg hpro hacc
    have h2 := ih (fun e2 he2 => hes e2 (List.mem_cons_of_mem _ he2))
      (processGroup cfg g noFaults bg p e) h1.1 h1.2.1 h1.2.2.1
    exact ⟨h2.1, h2.2.1, h2.2.2.1, fun k => (h2.2.2.2 k).trans (h1.2.2.2 k)⟩

theorem remove_keeps (cfg : Config) (f : Faults) (b gid : String) (st : St) :
    (remove_user_from_group cfg f b gid st).2.bi.users = st.bi.users ∧
    (remove_user_from_group cfg f b gid st).2.enroll = st.enroll ∧
    (remove_user_from_group cfg f b gid st).2.decisions = st.decisions := by
  simp only [remove_user_from_group]
  split
  · split
    · exact ⟨rfl, rfl, rfl⟩
    · split
      · exact ⟨rfl, rfl, rfl⟩
      · split
        · exact ⟨rfl, rfl, rfl⟩
        · split
          · exact ⟨rfl, rfl, rfl⟩
          · exact ⟨rfl, rfl, rfl⟩
  · exact ⟨rfl, rfl, rfl⟩

theorem suspend_keeps (cfg : Config) (f : Faults) (b : String) (st : St) :
    (suspend_user cfg f b st).2.bi.groups = st.bi.groups ∧
    (suspend_user cfg f b st).2.enroll = st.enroll ∧
    (suspend_user cfg f b st).2.decisions = st.decisions := by
  simp only [suspend_user]
  split
  · split
    · exact ⟨rfl, rfl, rfl⟩
    · split
      · exact ⟨rfl, rfl, rfl⟩
      · split
        · exact ⟨rfl, rfl, rfl⟩
        · split
          · exact ⟨rfl, rfl, rfl⟩
          · exact ⟨rfl, rfl, rfl⟩
  · exact ⟨rfl, rfl, rfl⟩

theorem offboardRemovals_keeps (cfg : Config) (f : Faults) (b : String) :
    ∀ (snap : List BIUserView) (st : St),
      (offboardRemovals cfg f snap b st).bi.users = st.bi.users ∧
      (offboardRemovals cfg f snap b st).enroll = st.enroll ∧
      (offboardRemovals cfg f snap b st).decisions = st.decisions := by
  have hinner : ∀ (gl : List (String × String)) (st : St),
      (gl.foldl (fun st gv =>
        if strStarts gv.2 cfg.pfx then (remove_user_from_group cfg f b gv.1 st).2
        else st) st).bi.users = st.bi.users ∧
      (gl.foldl (fun st gv =>
        if strStarts gv.2 cfg.pfx then (remove_user_from_group cfg f b gv.1 st).2
        else st) st).enroll = st.enroll ∧
      (gl.foldl (fun st gv =>
        if strStarts gv.2 cfg.pfx then (remove_user_from_group cfg f b gv.1 st).2
        else st) st).decisions = st.decisions := by
    intro gl
    induction gl with
    | nil => intro st; exact ⟨rfl, rfl, rfl⟩
    | cons gv rest ih =>
      intro st
      simp only [List.foldl_cons]
      by_cases hmk : strStarts gv.2 cfg.pfx = true
      · rw [if_pos hmk]
        have h1 := remove_keeps cfg f b gv.1 st
        have h2 := ih (remove_user_from_group cfg f b gv.1 st).2
        exact ⟨h2.1.trans h1.1, h2.2.1.trans h1.2.1, h2.2.2.trans h1.2.2⟩
      · rw [if_neg hmk]
        exact ih st
  intro snap
  induction snap with
  | nil => intro st; exact ⟨rfl, rfl, rfl⟩
  | cons v rest ih =>
    intro st
    simp only [offboardRemovals, List.foldl_cons]
    by_cases hvb : (v.id == b) = true
    · rw [if_pos hvb]
      have h1 := hinner v.groups st
      have h2 := ih (v.groups.foldl (fun st gv =>
        if strStarts gv.2 cfg.pfx then (remove_user_from_group cfg f b gv.1 st).2
        else st) st)
      simp only [offboardRemovals] at h2
      exact ⟨h2.1.trans h1.1, h2.2.1.trans h1.2.1, h2.2.2.trans h1.2.2⟩
    · rw [if_neg hvb]
      have h2 := ih st
      simp only [offboardRemovals] at h2
      exact h2

theorem forall₂_mem_right {α β : Type} {R : α → β → Prop} :
    ∀ {l₁ : List α} {l₂ : List β}, List.Forall₂ R l₁ l₂ → ∀ b ∈ l₂, ∃ a ∈ l₁, R a b := by
  intro l₁ l₂ h
  induction h with
  | nil => intro b hb; simp at hb
  | cons hr hrest ih =>
    intro b hb
    rcases List.mem_cons.mp hb with h2 | h2
    · rename_i a c _ _
      exact ⟨a, List.mem_cons_self _ _, h2 ▸ hr⟩
    · obtain ⟨a2, ha2, hr2⟩ := ih b h2
      exact ⟨a2, List.mem_cons_of_mem _ ha2, hr2⟩

theorem track_ids_eq (wid : String) :
    ∀ {base front : List BIGroup}, List.Forall₂ (grSim wid) base front →
      front.map (fun h => h.id) = base.map (fun h => h.id) := by
  intro base front h
  induction h with
  | nil => rfl
  | cons hr hrest ih =>
    simp only [List.map_cons]
    rw [ih, hr.1]

theorem mem_front_of_id (wid : String) (base front tail : List BIGroup)
    (hfa : List.Forall₂ (grSim wid) base front)
    (htail : ∀ gr ∈ tail, strStarts gr.id "bi-group-" = true ∧
      gr.members.contains wid = false)
    (hfr : ∀ gr ∈ base, strStarts gr.id "bi-group-" = false)
    (gr0 : BIGroup) (h0 : gr0 ∈ base) (g1 : BIGroup) (h1 : g1 ∈ front ++ tail)
    (hid : g1.id = gr0.id) : g1 ∈ front := by
  rcases List.mem_append.mp h1 with h2 | h2
  · exact h2
  · exfalso
    have h3 := (htail g1 h2).1
    rw [hid] at h3
    rw [hfr gr0 h0] at h3
    exact absurd h3 (by simp)

theorem groupsTrack_sim_of_id (wid : String) (base cur : List BIGroup)
    (hn : (base.map (fun h => h.id)).Nodup)
    (hfr : ∀ gr ∈ base, strStarts gr.id "bi-group-" = false)
    (hg : groupsTrack wid base cur) (gr0 : BIGroup) (h0 : gr0 ∈ base) :
    ∀ g1 ∈ cur, g1.id = gr0.id → grSim wid gr0 g1 := by
  obtain ⟨front, tail, hcur, hfa, htail⟩ := hg
  intro g1 h1 hid
  have hmem : g1 ∈ front :=
    mem_front_of_id wid base front tail hfa htail hfr gr0 h0 g1 (hcur ▸ h1) hid
  obtain ⟨a, ha, hra⟩ := forall₂_mem_right hfa g1 hmem
  have haid : a.id = gr0.id := by rw [← hra.1, hid]
  have ha0 : a = gr0 := List.inj_on_of_nodup_map hn ha h0 haid
  rw [← ha0]
  exact hra

theorem groupsTrack_unique_id (wid : String) (base cur : List BIGroup)
    (hn : (base.map (fun h => h.id)).Nodup)
    (hfr : ∀ gr ∈ base, strStarts gr.id "bi-group-" = false)
    (hg : groupsTrack wid base cur) (gr0 : BIGroup) (h0 : gr0 ∈ base) :
    ∀ g1 ∈ cur, ∀ g2 ∈ cur, g1.id = gr0.id → g2.id = gr0.id → g1 = g2 := by
  obtain ⟨front, tail, hcur, hfa, htail⟩ := hg
  have hfn : (front.map (fun h => h.id)).Nodup := by
    rw [track_ids_eq wid hfa]
    exact hn
  intro g1 h1 g2 h2 hid1 hid2
  have hmem1 : g1 ∈ front :=
    mem_front_of_id wid base front tail hfa htail hfr gr0 h0 g1 (hcur ▸ h1) hid1
  have hmem2 : g2 ∈ front :=
    mem_front_of_id wid base front tail hfa htail hfr gr0 h0 g2 (hcur ▸ h2) hid2
  exact List.inj_on_of_nodup_map hfn hmem1 hmem2 (hid1.trans hid2.symm)

theorem remove_stepSim (cfg : Config) (f : Faults) (b gid : String) (st : St) :
    ∀ gr ∈ (remove_user_from_group cfg f b gid st).2.bi.groups,
      ∃ grp ∈ st.bi.groups, gr.id = grp.id ∧ gr.displayName = grp.displayName ∧
        ∀ u, gr.members.contains u = true → grp.members.contains u = true := by
  have hid : ∀ (gl : List BIGroup), ∀ gr ∈ gl,
      ∃ grp ∈ gl, gr.id = grp.id ∧ gr.displayName = grp.displayName ∧
        ∀ u, gr.members.contains u = true → grp.members.contains u = true :=
    fun gl gr hgr => ⟨gr, hgr, rfl, rfl, fun _ => id⟩
  simp only [remove_user_from_group]
  split
  · split
    · exact hid _
    · split
      · exact hid _
      · split
        · exact hid _
        · split
          · intro gr hgr
            obtain ⟨grp, hgrp, hfeq⟩ := List.mem_map.mp (by simpa using hgr)
            refine ⟨grp, by simpa using hgrp, ?_, ?_, ?_⟩
            · rw [← hfeq]
              split <;> rfl
            · rw [← hfeq]
              split <;> rfl
            · intro u hu
              rw [← hfeq] at hu
              split at hu
              · have h2 : u ∈ grp.members.filter (fun m => m != b) := by simpa using hu
                simpa using (List.mem_filter.mp h2).1
              · exact hu
          · exact hid _
  · exact hid _

theorem c3_remove_clears (cfg : Config) (wid : String) (s : BIState) (gid : String)
    (st : St) (hl : cfg.testMode = false)
    (hnodupG : (s.groups.map (fun h => h.id)).Nodup)
    (hfrG : ∀ gr ∈ s.groups, strStarts gr.id "bi-group-" = false)
    (gr0 : BIGroup) (h0 : gr0 ∈ s.groups) (hgid : gid = gr0.id)
    (hg : groupsTrack wid s.groups st.bi.groups) :
    ∀ gr ∈ (remove_user_from_group cfg noFaults wid gid st).2.bi.groups,
      gr.id = gid → gr.members.contains wid = false := by
  simp only [remove_user_from_group, noFaults]
  split
  · split
    next heq =>
      intro gr hgr hidg
      have h2 : lookupBIGroup st.bi gid = none := heq
      rw [lookupBIGroup] at h2
      have h3 := List.find?_eq_none.mp h2 gr (by simpa using hgr)
      exact absurd (by simpa using hidg) h3
    next grf heq =>
      have h2 : lookupBIGroup st.bi gid = some grf := heq
      rw [lookupBIGroup] at h2
      have hgrfmem : grf ∈ st.bi.groups := List.mem_of_find?_eq_some h2
      have hgrfid : grf.id = gid := by
        have h3 := List.find?_some h2
        simpa using h3
      split
      next hnc =>
        intro gr hgr hidg
        have huniq := groupsTrack_unique_id wid s.groups st.bi.groups hnodupG hfrG hg
          gr0 h0
        have hge : gr = grf := huniq gr (by simpa using hgr) grf hgrfmem
          (by rw [hidg, hgid]) (by rw [hgrfid, hgid])
        rw [hge]
        simpa using hnc
      next hnc =>
        split
        next ht => exact absurd ht (by simp [hl])
        next ht =>
          intro gr hgr hidg
          obtain ⟨grp, hgrp, hfeq⟩ := List.mem_map.mp (by simpa using hgr)
          by_cases hpid : grp.id = gid
          · rw [if_pos hpid] at hfeq
            rw [← hfeq]
            cases hc : (grp.members.filter (fun m => m != wid)).contains wid
            · rfl
            · exfalso
              have h3 : wid ∈ grp.members.filter (fun m => m != wid) := by simpa using hc
              have h4 := (List.mem_filter.mp h3).2
              simp at h4
          · rw [if_neg hpid] at hfeq
            exfalso
            apply hpid
            rw [← hfeq] at hidg
            exact hidg
  · intro gr hgr hidg
    exfalso
    rename_i h
    exact h rfl

theorem snapshot_view_groups (s : BIState) (v : BIUserView) (h : v ∈ snapshotOf s) :
    (∀ gv ∈ v.groups, ∃ gr0 ∈ s.groups, gv.1 = gr0.id ∧ gv.2 = gr0.displayName) ∧
    (∀ gr0 ∈ s.groups, gr0.members.contains v.id = true →
      (gr0.id, gr0.displayName) ∈ v.groups) := by
  simp only [snapshotOf, List.mem_map] at h
  obtain ⟨w, hw, hv⟩ := h
  constructor
  · intro gv hgv
    rw [← hv] at hgv
    simp only [List.mem_map] at hgv
    obtain ⟨gr0, hgr0, hgeq⟩ := hgv
    exact ⟨gr0, (List.mem_filter.mp hgr0).1, by rw [← hgeq], by rw [← hgeq]⟩
  · intro gr0 hgr0 hc
    have hvid : v.id = w.id := by rw [← hv]
    rw [← hv]
    simp only [List.mem_map]
    refine ⟨gr0, List.mem_filter.mpr ⟨hgr0, ?_⟩, rfl⟩
    rw [hvid] at hc
    simpa using hc

theorem c3_offboard_inner_run (cfg : Config) (wid : String) (s : BIState)
    (hl : cfg.testMode = false)
    (hnodupG : (s.groups.map (fun h => h.id)).Nodup)
    (hfrG : ∀ gr ∈ s.groups, strStarts gr.id "bi-group-" = false) :
    ∀ (gl : List (String × String)) (st : St),
      groupsTrack wid s.groups st.bi.groups →
      (∀ gv ∈ gl, ∃ gr0 ∈ s.groups, gv.1 = gr0.id ∧ gv.2 = gr0.displayName) →
      (∀ gr ∈ st.bi.groups, strStarts gr.displayName cfg.pfx = true →
        gr.members.contains wid = true → ∃ gv ∈ gl, gv.1 = gr.id) →
      groupsTrack wid s.groups (gl.foldl (fun st gv =>
        if strStarts gv.2 cfg.pfx then (remove_user_from_group cfg noFaults wid gv.1 st).2
        else st) st).bi.groups ∧
      noMarkedWith cfg wid (gl.foldl (fun st gv =>
        if strStarts gv.2 cfg.pfx then (remove_user_from_group cfg noFaults wid gv.1 st).2
        else st) st).bi.groups := by
  intro gl
  induction gl with
  | nil =>
    intro st hg hprop hcover
    refine ⟨hg, ?_⟩
    intro gr hgr hmk
    cases hc : gr.members.contains wid
    · rfl
    · obtain ⟨gv, hgv, _⟩ := hcover gr hgr hmk hc
      simp at hgv
  | cons gv rest ih =>
    intro st hg hprop hcover
    simp only [List.foldl_cons]
    obtain ⟨gr0, h0, hgv1, hgv2⟩ := hprop gv (List.mem_cons_self _ _)
    by_cases hmk : strStarts gv.2 cfg.pfx = true
    · rw [if_pos hmk]
      have hrm := c3_remove_user_from_group cfg wid s.groups wid gv.1 st hg
      have hclr := c3_remove_clears cfg wid s gv.1 st hl hnodupG hfrG gr0 h0 hgv1 hg
      apply ih _ hrm.2.1 (fun gv2 h2 => hprop gv2 (List.mem_cons_of_mem _ h2))
      intro gr hgr hmkg hcg
      obtain ⟨grp, hgrp, hpid, hpname, hpc⟩ :=
        remove_stepSim cfg noFaults wid gv.1 st gr hgr
      obtain ⟨gv3, hgv3, hgv3id⟩ := hcover grp hgrp (by rw [← hpname]; exact hmkg)
        (hpc wid hcg)
      rcases List.mem_cons.mp hgv3 with h3 | h3
      · exfalso
        have h4 : gr.id = gv.1 := by rw [hpid, ← hgv3id, h3]
        have h5 := hclr gr hgr h4
        rw [h5] at hcg
        exact absurd hcg (by simp)
      · exact ⟨gv3, h3, by rw [hgv3id, hpid]⟩
    · rw [if_neg hmk]
      apply ih st hg (fun gv2 h2 => hprop gv2 (List.mem_cons_of_mem _ h2))
      intro gr hgr hmkg hcg
      obtain ⟨gv3, hgv3, hgv3id⟩ := hcover gr hgr hmkg hcg
      rcases List.mem_cons.mp hgv3 with h3 | h3
      · exfalso
        have hsim := groupsTrack_sim_of_id wid s.groups st.bi.groups hnodupG hfrG hg
          gr0 h0 gr hgr (by rw [← hgv3id, h3, hgv1])
        apply hmk
        rw [hgv2, ← hsim.2.1]
        exact hmkg
      · exact ⟨gv3, h3, hgv3id⟩

theorem c3_offboard_outer (cfg : Config) (wid : String) (s : BIState)
    (hl : cfg.testMode = false)
    (hnodupG : (s.groups.map (fun h => h.id)).Nodup)
    (hfrG : ∀ gr ∈ s.groups, strStarts gr.id "bi-group-" = false) :
    ∀ (snap : List BIUserView) (st : St),
      (∀ v ∈ snap, v.id = wid →
        (∀ gv ∈ v.groups, ∃ gr0 ∈ s.groups, gv.1 = gr0.id ∧ gv.2 = gr0.displayName) ∧
        (∀ gr0 ∈ s.groups, gr0.members.contains wid = true →
          (gr0.id, gr0.displayName) ∈ v.groups)) →
      groupsTrack wid s.groups st.bi.groups →
      groupsTrack wid s.groups (offboardRemovals cfg noFaults snap wid st).bi.groups ∧
      (noMarkedWith cfg wid st.bi.groups →
        noMarkedWith cfg wid (offboardRemovals cfg noFaults snap wid st).bi.groups) ∧
      ((∃ v ∈ snap, v.id = wid) →
        noMarkedWith cfg wid (offboardRemovals cfg noFaults snap wid st).bi.groups) := by
  intro snap
  induction snap with
  | nil =>
    intro st _ hg
    exact ⟨hg, fun h => h, fun h => by simp at h⟩
  | cons v rest ih =>
    intro st hprops hg
    simp only [offboardRemovals, List.foldl_cons]
    by_cases hvb : (v.id == wid) = true
    · rw [if_pos hvb]
      have hvid : v.id = wid := by simpa using hvb
      have hvp := hprops v (List.mem_cons_self _ _) hvid
      have hcover0 : ∀ gr ∈ st.bi.groups, strStarts gr.displayName cfg.pfx = true →
          gr.members.contains wid = true → ∃ gv ∈ v.groups, gv.1 = gr.id := by
        intro gr hgr hmk hc
        obtain ⟨front, tail, hcur, hfa, htail⟩ := hg
        have hmemf : gr ∈ front := by
          rw [hcur] at hgr
          rcases List.mem_append.mp hgr with h2 | h2
          · exact h2
          · exfalso
            rw [(htail gr h2).2] at hc
            exact absurd hc (by simp)
        obtain ⟨gr0, h0, hsim⟩ := forall₂_mem_right hfa gr hmemf
        refine ⟨(gr0.id, gr0.displayName), hvp.2 gr0 h0 (hsim.2.2 hc), ?_⟩
        rw [hsim.1]
      have hinner := c3_offboard_inner_run cfg wid s hl hnodupG hfrG v.groups st hg
        hvp.1 hcover0
      have hrest := ih _ (fun v2 h2 hv2 => hprops v2 (List.mem_cons_of_mem _ h2) hv2)
        hinner.1
      simp only [offboardRemovals] at hrest
      exact ⟨hrest.1, fun _ => hrest.2.1 hinner.2, fun _ => hrest.2.1 hinner.2⟩
    · rw [if_neg hvb]
      have hrest := ih st (fun v2 h2 hv2 => hprops v2 (List.mem_cons_of_mem _ h2) hv2) hg
      simp only [offboardRemovals] at hrest
      refine ⟨hrest.1, hrest.2.1, ?_⟩
      intro hex
      obtain ⟨v2, hv2, hv2id⟩ := hex
      rcases List.mem_cons.mp hv2 with h2 | h2
      · exact absurd (by rw [h2] at hv2id; simpa using hv2id) hvb
      · exact hrest.2.2 ⟨v2, h2, hv2id⟩

theorem c3_update_byid_enroll (cfg : Config) (ge ue : String) (b : Bool) (st : St)
    (bad : String) (hnb : bad ∉ st.enroll) (hue : ue ≠ bad) :
    bad ∉ (update_byid_enrolled_group cfg ge ue b st).enroll := by
  simp only [update_byid_enrolled_group]
  split
  · exact hnb
  · split
    · split
      · simpa using hnb
      · intro hmem
        rcases (by simpa using hmem : bad ∈ st.enroll ∨ bad = ue) with h | h
        · exact hnb h
        · exact hue h.symm
    · intro hmem
      have h2 : bad ∈ st.enroll ∧ ¬bad = ue := by simpa using hmem
      exact hnb h2.1

theorem c3_update_byid_delete (cfg : Config) (ge ue : String) (st : St)
    (hl : cfg.testMode = false) :
    ue ∉ (update_byid_enrolled_group cfg ge ue false st).enroll := by
  simp only [update_byid_enrolled_group, hl, Bool.false_eq_true, if_false]
  intro hmem
  simp at hmem

theorem c3_suspend_done (cfg : Config) (f : Faults) (wid b : String) (st : St)
    (hd : usersDone wid st.bi.users) :
    usersDone wid (suspend_user cfg f b st).2.bi.users := by
  simp only [suspend_user]
  split
  · split
    · exact fun v hv => hd v (by simpa using hv)
    · split
      · exact fun v hv => hd v (by simpa using hv)
      · split
        · exact fun v hv => hd v (by simpa using hv)
        · split
          · intro v hv hvid
            obtain ⟨u2, hu2, hueq⟩ := List.mem_map.mp (by simpa using hv)
            rw [← hueq]
            split
            · rfl
            · rw [← hueq] at hvid
              apply hd u2 hu2
              rw [← hvid]
              split <;> rfl
          · exact fun v hv => hd v (by simpa using hv)
  · exact fun v hv => hd v (by simpa using hv)

theorem c3_suspend_establish (cfg : Config) (wid x : String) (st : St)
    (hl : cfg.testMode = false)
    (hpro : usersProtect wid x st.bi.users) :
    usersDone wid (suspend_user cfg noFaults wid st).2.bi.users ∧
    (suspend_user cfg noFaults wid st).2.bi.groups = st.bi.groups ∧
    (suspend_user cfg noFaults wid st).2.enroll = st.enroll ∧
    (suspend_user cfg noFaults wid st).2.decisions = st.decisions := by
  obtain ⟨⟨v0, hv0, hv0id⟩, hpin, a0, hagree⟩ := hpro
  have hsome : (st.bi.users.find? (fun u => u.id == wid)).isSome := by
    rw [List.find?_isSome]
    exact ⟨v0, hv0, by simpa using hv0id⟩
  simp only [suspend_user, noFaults]
  split
  · split
    next heq =>
      exfalso
      have h2 : st.bi.users.find? (fun u => u.id == wid) = none := by
        have h3 : lookupBIUser st.bi wid = none := heq
        simpa [lookupBIUser] using h3
      rw [h2] at hsome
      simp at hsome
    next u heq =>
      have h2 : st.bi.users.find? (fun u => u.id == wid) = some u := by
        have h3 : lookupBIUser st.bi wid = some u := heq
        simpa [lookupBIUser] using h3
      have humem : u ∈ st.bi.users := List.mem_of_find?_eq_some h2
      have huid : u.id = wid := by
        have h3 := List.find?_some h2
        simpa using h3
      split
      next hact =>
        have hua : u.active = false := by simpa using hact
        have ha0 : a0 = false := by
          rw [← hagree u humem huid]
          exact hua
        refine ⟨?_, rfl, rfl, rfl⟩
        intro v hv hvid
        rw [hagree v (by simpa using hv) hvid, ha0]
      next hact =>
        split
        next ht => exact absurd ht (by simp [hl])
        next ht =>
          refine ⟨?_, rfl, rfl, rfl⟩
          intro v hv hvid
          obtain ⟨u2, hu2, hueq⟩ := List.mem_map.mp (by simpa using hv)
          have hu2id : u2.id = wid := by
            rw [← hvid, ← hueq]
            split <;> rfl
          rw [← hueq]
          rw [if_pos (by simpa using hu2id)]
  next h => exact absurd rfl h

theorem c3_offboardRemovals_track (cfg : Config) (wid : String) (base : List BIGroup)
    (b : String) :
    ∀ (snap : List BIUserView) (st : St), groupsTrack wid base st.bi.groups →
      groupsTrack wid base (offboardRemovals cfg noFaults snap b st).bi.groups := by
  have hinner : ∀ (gl : List (String × String)) (st : St),
      groupsTrack wid base st.bi.groups →
      groupsTrack wid base ((gl.foldl (fun st gv =>
        if strStarts gv.2 cfg.pfx then (remove_user_from_group cfg noFaults b gv.1 st).2
        else st) st)).bi.groups := by
    intro gl
    induction gl with
    | nil => intro st hg; exact hg
    | cons gv rest ih =>
      intro st hg
      simp only [List.foldl_cons]
      by_cases hmk : strStarts gv.2 cfg.pfx = true
      · rw [if_pos hmk]
        exact ih _ (c3_remove_user_from_group cfg wid base b gv.1 st hg).2.1
      · rw [if_neg hmk]
        exact ih st hg
  intro snap
  induction snap with
  | nil => intro st hg; exact hg
  | cons v rest ih =>
    intro st hg
    simp only [offboardRemovals, List.foldl_cons]
    by_cases hvb : (v.id == b) = true
    · rw [if_pos hvb]
      have h1 := hinner v.groups st hg
      have h2 := ih _ h1
      simpa [offboardRemovals] using h2
    · rw [if_neg hvb]
      have h2 := ih st hg
      simpa [offboardRemovals] using h2

theorem c3_offboardRemovals_nomk (cfg : Config) (wid : String) (b : String) :
    ∀ (snap : List BIUserView) (st : St), noMarkedWith cfg wid st.bi.groups →
      noMarkedWith cfg wid (offboardRemovals cfg noFaults snap b st).bi.groups := by
  have hstep : ∀ (gid : String) (st : St), noMarkedWith cfg wid st.bi.groups →
      noMarkedWith cfg wid (remove_user_from_group cfg noFaults b gid st).2.bi.groups := by
    intro gid st hn gr hgr hmk
    obtain ⟨grp, hgrp, hpid, hpname, hpc⟩ := remove_stepSim cfg noFaults b gid st gr hgr
    cases hc : gr.members.contains wid
    · rfl
    · exfalso
      have h2 := hn grp hgrp (by rw [← hpname]; exact hmk)
      rw [hpc wid hc] at h2
      exact absurd h2 (by simp)
  have hinner : ∀ (gl : List (String × String)) (st : St),
      noMarkedWith cfg wid st.bi.groups →
      noMarkedWith cfg wid ((gl.foldl (fun st gv =>
        if strStarts gv.2 cfg.pfx then (remove_user_from_group cfg noFaults b gv.1 st).2
        else st) st)).bi.groups := by
    intro gl
    induction gl with
    | nil => intro st hn; exact hn
    | cons gv rest ih =>
      intro st hn
      simp only [List.foldl_cons]
      by_cases hmk : strStarts gv.2 cfg.pfx = true
      · rw [if_pos hmk]
        exact ih _ (hstep gv.1 st hn)
      · rw [if_neg hmk]
        exact ih st hn
  intro snap
  induction snap with
  | nil => intro st hn; exact hn
  | cons v rest ih =>
    intro st hn
    simp only [offboardRemovals, List.foldl_cons]
    by_cases hvb : (v.id == b) = true
    · rw [if_pos hvb]
      have h2 := ih _ (hinner v.groups st hn)
      simpa [offboardRemovals] using h2
    · rw [if_neg hvb]
      have h2 := ih st hn
      simpa [offboardRemovals] using h2

theorem sweepRecord_decisions (cfg : Config) (snap : List BIUserView) (bg : String)
    (st : St) (kv : String × URec) :
    (sweepRecord cfg noFaults snap bg st kv).decisions
      = if (kv.2.is_scim_user && !kv.2.was_in_group) = true
        then st.decisions ++ [Decision.offboard kv.1] else st.decisions := by
  cases hsc : kv.2.is_scim_user with
  | false =>
    rw [if_neg (by simp [hsc])]
    simp only [sweepRecord]
    rw [if_pos (by simp [hsc])]
  | true =>
    cases hwas : kv.2.was_in_group with
    | false =>
      rw [if_pos (by simp [hsc, hwas])]
      simp only [sweepRecord]
      rw [if_neg (by simp [hsc]), if_pos (by simp [hwas])]
      cases hs : suspend_user cfg noFaults (kv.2.bi_id.getD "")
          (offboardRemovals cfg noFaults snap (kv.2.bi_id.getD "")
            ((st.addDec (Decision.offboard kv.1)))) with
      | mk ok st3 =>
        have hsk := suspend_keeps cfg noFaults (kv.2.bi_id.getD "")
          (offboardRemovals cfg noFaults snap (kv.2.bi_id.getD "")
            ((st.addDec (Decision.offboard kv.1))))
        rw [hs] at hsk
        rw [(c2_update_byid cfg bg (kv.2.username.getD "") false st3).2.2]
        rw [hsk.2.2]
        rw [(offboardRemovals_keeps cfg noFaults (kv.2.bi_id.getD "") snap
          (st.addDec (Decision.offboard kv.1))).2.2]
        rw [addDec_decisions]
    | true =>
      rw [if_neg (by simp [hwas])]
      simp only [sweepRecord]
      rw [if_neg (by simp [hsc]), if_neg (by simp [hwas])]
      rw [enrollment_status_st]
      rw [(c2_update_byid cfg bg (kv.2.username.getD "") _ _).2.2]
      rw [push_decisions]

theorem c3_sweep_count (cfg : Config) (snap : List BIUserView) (bg : String)
    (k : String) :
    ∀ (recs : AllUsers) (st : St),
      (sweepRecords cfg noFaults snap bg recs st).decisions.count (Decision.offboard k)
        = st.decisions.count (Decision.offboard k)
          + recs.countP (fun kv => kv.1 == k && kv.2.is_scim_user
              && !kv.2.was_in_group) := by
  intro recs
  induction recs with
  | nil => intro st; simp [sweepRecords]
  | cons kv rest ih =>
    intro st
    simp only [sweepRecords]
    rw [ih, List.countP_cons]
    have hdec := sweepRecord_decisions cfg snap bg st kv
    by_cases hq : (kv.2.is_scim_user && !kv.2.was_in_group) = true
    · rw [if_pos hq] at hdec
      rw [hdec, List.count_append]
      have h12 : kv.2.is_scim_user = true ∧ (!kv.2.was_in_group) = true := by
        simpa using hq
      have h1 : kv.2.is_scim_user = true := h12.1
      have h2 : (!kv.2.was_in_group) = true := h12.2
      have hp : (kv.1 == k && kv.2.is_scim_user && !kv.2.was_in_group)
          = (kv.1 == k) := by
        rw [Bool.and_assoc]
        rw [h1, h2]
        simp
      rw [hp]
      by_cases hk : (kv.1 == k) = true
      · have hke : kv.1 = k := by simpa using hk
        have hsing : List.count (Decision.offboard k) [Decision.offboard kv.1] = 1 := by
          rw [hke]
          simp [List.count_cons]
        rw [hsing, hk, if_pos rfl]
        omega
      · have hkb : (kv.1 == k) = false := by
          cases hx : (kv.1 == k)
          · rfl
          · exact absurd hx hk
        have hke : ¬kv.1 = k := by simpa using hkb
        have hsing : List.count (Decision.offboard k) [Decision.offboard kv.1] = 0 := by
          simp [List.count_cons, hke]
        rw [hsing, hkb, if_neg (by simp)]
        omega
    · rw [if_neg hq] at hdec
      rw [hdec]
      have hp : (kv.1 == k && kv.2.is_scim_user && !kv.2.was_in_group) = false := by
        rw [Bool.and_assoc]
        cases hx : (kv.2.is_scim_user && !kv.2.was_in_group)
        · simp
        · exact absurd hx hq
      rw [hp, if_neg (by simp)]
      omega

theorem countP_keyed_unique (k : String) (v : URec) (p : String × URec → Bool) :
    ∀ m : AllUsers, keysNodup m → (k, v) ∈ m → p (k, v) = true →
      (∀ kv ∈ m, p kv = true → kv.1 = k) → m.countP p = 1 := by
  intro m
  induction m with
  | nil => intro _ hmem; simp at hmem
  | cons kv0 rest ih =>
    intro hn hmem hq hkey
    have hn2 : (kv0.1 ∉ rest.map (fun kv => kv.1)) ∧ keysNodup rest := by
      rw [keysNodup, List.map_cons] at hn
      exact List.nodup_cons.mp hn
    rw [List.countP_cons]
    by_cases hp0 : p kv0 = true
    · have hk0 : kv0.1 = k := hkey kv0 (List.mem_cons_self _ _) hp0
      have hrest0 : rest.countP p = 0 := by
        rw [List.countP_eq_zero]
        intro kv2 hkv2 hp2
        have hk2 := hkey kv2 (List.mem_cons_of_mem _ hkv2) hp2
        apply hn2.1
        rw [hk0, ← hk2]
        exact List.mem_map.mpr ⟨kv2, hkv2, rfl⟩
      rw [hrest0, if_pos hp0]
    · have hmem2 : (k, v) ∈ rest := by
        rcases List.mem_cons.mp hmem with h | h
        · exfalso
          rw [← h] at hp0
          exact hp0 hq
        · exact h
      rw [if_neg hp0, ih hn2.2 hmem2 hq
        (fun kv2 hkv2 hp2 => hkey kv2 (List.mem_cons_of_mem _ hkv2) hp2)]

theorem sweepRecords_append (cfg : Config) (f : Faults) (snap : List BIUserView)
    (bg : String) :
    ∀ (l₁ l₂ : AllUsers) (st : St),
      sweepRecords cfg f snap bg (l₁ ++ l₂) st
        = sweepRecords cfg f snap bg l₂ (sweepRecords cfg f snap bg l₁ st) := by
  intro l₁
  induction l₁ with
  | nil => intro l₂ st; rfl
  | cons kv rest ih =>
    intro l₂ st
    simp only [List.cons_append, sweepRecords]
    exact ih l₂ (sweepRecord cfg f snap bg st kv)

theorem c3_sweepRecord_pre (cfg : Config) (wid x : String) (base : List BIGroup)
    (snap : List BIUserView) (bg : String) (st : St) (kv : String × URec)
    (hg : groupsTrack wid base st.bi.groups)
    (hpro : usersProtect wid x st.bi.users) :
    groupsTrack wid base (sweepRecord cfg noFaults snap bg st kv).bi.groups ∧
    usersProtect wid x (sweepRecord cfg noFaults snap bg st kv).bi.users := by
  simp only [sweepRecord]
  split
  · exact ⟨hg, hpro⟩
  · split
    · have hg1 : groupsTrack wid base (offboardRemovals cfg noFaults snap
          (kv.2.bi_id.getD "") (st.addDec (Decision.offboard kv.1))).bi.groups :=
        c3_offboardRemovals_track cfg wid base (kv.2.bi_id.getD "") snap
          (st.addDec (Decision.offboard kv.1)) (by simpa using hg)
      have hu1 : usersProtect wid x (offboardRemovals cfg noFaults snap
          (kv.2.bi_id.getD "") (st.addDec (Decision.offboard kv.1))).bi.users := by
        rw [(offboardRemovals_keeps cfg noFaults (kv.2.bi_id.getD "") snap
          (st.addDec (Decision.offboard kv.1))).1]
        simpa using hpro
      cases hs : suspend_user cfg noFaults (kv.2.bi_id.getD "")
          (offboardRemovals cfg noFaults snap (kv.2.bi_id.getD "")
            (st.addDec (Decision.offboard kv.1))) with
      | mk ok st3 =>
        have hsus := c3_suspend_user cfg wid x (kv.2.bi_id.getD "")
          (offboardRemovals cfg noFaults snap (kv.2.bi_id.getD "")
            (st.addDec (Decision.offboard kv.1))) hu1
        rw [hs] at hsus
        have hupd := c2_update_byid cfg bg (kv.2.username.getD "") false st3
        constructor
        · rw [hupd.1]
          show groupsTrack wid base st3.bi.groups
          rw [hsus.1]
          exact hg1
        · rw [hupd.1]
          exact hsus.2.1
    · rw [enrollment_status_st]
      have hupd := c2_update_byid cfg bg (kv.2.username.getD "")
        (get_bi_enrollment_status noFaults (kv.2.bi_id.getD "") st).1
        (st.push [Event.readEnrollment (kv.2.bi_id.getD "")])
      constructor
      · rw [hupd.1]
        simpa using hg
      · rw [hupd.1]
        simpa using hpro

theorem c3_sweepRecords_pre (cfg : Config) (wid x : String) (base : List BIGroup)
    (snap : List BIUserView) (bg : String) :
    ∀ (recs : AllUsers) (st : St),
      groupsTrack wid base st.bi.groups → usersProtect wid x st.bi.users →
      groupsTrack wid base (sweepRecords cfg noFaults snap bg recs st).bi.groups ∧
      usersProtect wid x (sweepRecords cfg noFaults snap bg recs st).bi.users := by
  intro recs
  induction recs with
  | nil => intro st hg hpro; exact ⟨hg, hpro⟩
  | cons kv rest ih =>
    intro st hg hpro
    simp only [sweepRecords]
    have h1 := c3_sweepRecord_pre cfg wid x base snap bg st kv hg hpro
    exact ih _ h1.1 h1.2

theorem c3_sweepRecord_post (cfg : Config) (wid bad : String)
    (snap : List BIUserView) (bg : String) (st : St) (kv : String × URec)
    (hl : cfg.testMode = false) (hbne : bad ≠ "")
    (hun : ∀ un, kv.2.username = some un → un ≠ bad)
    (hdone : usersDone wid st.bi.users)
    (hnomk : noMarkedWith cfg wid st.bi.groups)
    (hnb : bad ∉ st.enroll)
    (hex : ∃ v ∈ st.bi.users, v.id = wid) :
    usersDone wid (sweepRecord cfg noFaults snap bg st kv).bi.users ∧
    noMarkedWith cfg wid (sweepRecord cfg noFaults snap bg st kv).bi.groups ∧
    bad ∉ (sweepRecord cfg noFaults snap bg st kv).enroll ∧
    (∃ v ∈ (sweepRecord cfg noFaults snap bg st kv).bi.users, v.id = wid) := by
  have hsusex : ∀ (b : String) (st2 : St), (∃ v ∈ st2.bi.users, v.id = wid) →
      ∃ v ∈ (suspend_user cfg noFaults b st2).2.bi.users, v.id = wid := by
    intro b st2 ⟨v0, hv0, hv0id⟩
    simp only [suspend_user, noFaults]
    split
    · split
      · exact ⟨v0, by simpa using hv0, hv0id⟩
      · split
        · exact ⟨v0, by simpa using hv0, hv0id⟩
        · split
          · exact ⟨v0, by simpa using hv0, hv0id⟩
          · refine ⟨_, List.mem_map.mpr ⟨v0, by simpa using hv0, rfl⟩, ?_⟩
            split <;> exact hv0id
    · exact ⟨v0, by simpa using hv0, hv0id⟩
  have hue : kv.2.username.getD "" ≠ bad := by
    cases hu : kv.2.username with
    | none => exact fun h => hbne h.symm
    | some un => exact hun un hu
  simp only [sweepRecord]
  split
  · exact ⟨hdone, hnomk, hnb, hex⟩
  · split
    · have hk1 := offboardRemovals_keeps cfg noFaults (kv.2.bi_id.getD "") snap
        (st.addDec (Decision.offboard kv.1))
      have hd1 : usersDone wid (offboardRemovals cfg noFaults snap
          (kv.2.bi_id.getD "") (st.addDec (Decision.offboard kv.1))).bi.users := by
        rw [hk1.1]
        exact fun v hv => hdone v (by simpa using hv)
      have hm1 : noMarkedWith cfg wid (offboardRemovals cfg noFaults snap
          (kv.2.bi_id.getD "") (st.addDec (Decision.offboard kv.1))).bi.groups :=
        c3_offboardRemovals_nomk cfg wid (kv.2.bi_id.getD "") snap
          (st.addDec (Decision.offboard kv.1)) (by simpa using hnomk)
      have he1 : bad ∉ (offboardRemovals cfg noFaults snap
          (kv.2.bi_id.getD "") (st.addDec (Decision.offboard kv.1))).enroll := by
        rw [hk1.2.1]
        simpa using hnb
      cases hs : suspend_user cfg noFaults (kv.2.bi_id.getD "")
          (offboardRemovals cfg noFaults snap (kv.2.bi_id.getD "")
            (st.addDec (Decision.offboard kv.1))) with
      | mk ok st3 =>
        have hsk := suspend_keeps cfg noFaults (kv.2.bi_id.getD "")
          (offboardRemovals cfg noFaults snap (kv.2.bi_id.getD "")
            (st.addDec (Decision.offboard kv.1)))
        rw [hs] at hsk
        have hd3 : usersDone wid st3.bi.users := by
          have := c3_suspend_done cfg noFaults wid (kv.2.bi_id.getD "")
            (offboardRemovals cfg noFaults snap (kv.2.bi_id.getD "")
              (st.addDec (Decision.offboard kv.1))) hd1
          rw [hs] at this
          exact this
        have hupd := c2_update_byid cfg bg (kv.2.username.getD "") false st3
        have hex3 : ∃ v ∈ st3.bi.users, v.id = wid := by
          have h5 := hsusex (kv.2.bi_id.getD "")
            (offboardRemovals cfg noFaults snap (kv.2.bi_id.getD "")
              (st.addDec (Decision.offboard kv.1)))
            (by rw [hk1.1]; simpa using hex)
          rw [hs] at h5
          exact h5
        refine ⟨?_, ?_, ?_, ?_⟩
        · rw [hupd.1]
          exact hd3
        · rw [hupd.1]
          show noMarkedWith cfg wid st3.bi.groups
          rw [hsk.1]
          exact hm1
        · apply c3_update_byid_enroll cfg bg (kv.2.username.getD "") false st3 bad
            ?_ hue
          rw [hsk.2.1]
          exact he1
        · rw [hupd.1]
          exact hex3
    · rw [enrollment_status_st]
      have hupd := c2_update_byid cfg bg (kv.2.username.getD "")
        (get_bi_enrollment_status noFaults (kv.2.bi_id.getD "") st).1
        (st.push [Event.readEnrollment (kv.2.bi_id.getD "")])
      refine ⟨?_, ?_, ?_, ?_⟩
      · rw [hupd.1]
        exact fun v hv => hdone v (by simpa using hv)
      · rw [hupd.1]
        exact fun gr hgr => hnomk gr (by simpa using hgr)
      · apply c3_update_byid_enroll cfg bg (kv.2.username.getD "") _ _ bad ?_ hue
        simpa using hnb
      · rw [hupd.1]
        obtain ⟨v0, hv0, hv0id⟩ := hex
        exact ⟨v0, by simpa using hv0, hv0id⟩

theorem c3_sweepRecords_post (cfg : Config) (wid bad : String)
    (snap : List BIUserView) (bg : String)
    (hl : cfg.testMode = false) (hbne : bad ≠ "") :
    ∀ (recs : AllUsers) (st : St),
      (∀ kv ∈ recs, ∀ un, kv.2.username = some un → un ≠ bad) →
      usersDone wid st.bi.users → noMarkedWith cfg wid st.bi.groups →
      bad ∉ st.enroll → (∃ v ∈ st.bi.users, v.id = wid) →
      usersDone wid (sweepRecords cfg noFaults snap bg recs st).bi.users ∧
      noMarkedWith cfg wid (sweepRecords cfg noFaults snap bg recs st).bi.groups ∧
      bad ∉ (sweepRecords cfg noFaults snap bg recs st).enroll ∧
      (∃ v ∈ (sweepRecords cfg noFaults snap bg recs st).bi.users, v.id = wid) := by
  intro recs
  induction recs with
  | nil => intro st _ hd hm hb hex; exact ⟨hd, hm, hb, hex⟩
  | cons kv rest ih =>
    intro st huns hd hm hb hex
    simp only [sweepRecords]
    have h1 := c3_sweepRecord_post cfg wid bad snap bg st kv hl hbne
      (huns kv (List.mem_cons_self _ _)) hd hm hb hex
    exact ih _ (fun kv2 h2 => huns kv2 (List.mem_cons_of_mem _ h2)) h1.1 h1.2.1
      h1.2.2.1 h1.2.2.2

theorem suspend_exists (cfg : Config) (f : Faults) (wid b : String) (st : St)
    (hex : ∃ v ∈ st.bi.users, v.id = wid) :
    ∃ v ∈ (suspend_user cfg f b st).2.bi.users, v.id = wid := by
  obtain ⟨v0, hv0, hv0id⟩ := hex
  simp only [suspend_user]
  split
  · split
    · exact ⟨v0, by simpa using hv0, hv0id⟩
    · split
      · exact ⟨v0, by simpa using hv0, hv0id⟩
      · split
        · exact ⟨v0, by simpa using hv0, hv0id⟩
        · split
          · refine ⟨_, List.mem_map.mpr ⟨v0, by simpa using hv0, rfl⟩, ?_⟩
            split <;> exact hv0id
          · exact ⟨v0, by simpa using hv0, hv0id⟩
  · exact ⟨v0, by simpa using hv0, hv0id⟩

theorem c3_sweepRecord_at (cfg : Config) (wid x bad : String) (s : BIState) (bg : String)
    (st : St) (i : URec)
    (hl : cfg.testMode = false)
    (hnodupG : (s.groups.map (fun h => h.id)).Nodup)
    (hfrG : ∀ gr ∈ s.groups, strStarts gr.id "bi-group-" = false)
    (hviews : ∀ v ∈ snapshotOf s, v.id = wid →
      (∀ gv ∈ v.groups, ∃ gr0 ∈ s.groups, gv.1 = gr0.id ∧ gv.2 = gr0.displayName) ∧
      (∀ gr0 ∈ s.groups, gr0.members.contains wid = true →
        (gr0.id, gr0.displayName) ∈ v.groups))
    (hexv : ∃ v ∈ snapshotOf s, v.id = wid)
    (hi1 : i.is_scim_user = true) (hi2 : i.was_in_group = false)
    (hi3 : i.bi_id = some wid) (hi4 : i.username = some bad)
    (hg : groupsTrack wid s.groups st.bi.groups)
    (hpro : usersProtect wid x st.bi.users) :
    usersDone wid (sweepRecord cfg noFaults (snapshotOf s) bg st (x, i)).bi.users ∧
    noMarkedWith cfg wid
      (sweepRecord cfg noFaults (snapshotOf s) bg st (x, i)).bi.groups ∧
    bad ∉ (sweepRecord cfg noFaults (snapshotOf s) bg st (x, i)).enroll ∧
    (∃ v ∈ (sweepRecord cfg noFaults (snapshotOf s) bg st (x, i)).bi.users,
      v.id = wid) := by
  have hgetd : i.bi_id.getD "" = wid := by rw [hi3]; rfl
  have hbadname : i.username.getD "" = bad := by rw [hi4]; rfl
  simp only [sweepRecord]
  rw [if_neg (by simp [hi1]), if_pos (by simp [hi2])]
  rw [hgetd, hbadname]
  have hout := c3_offboard_outer cfg wid s hl hnodupG hfrG (snapshotOf s)
    (st.addDec (Decision.offboard x)) hviews (by simpa using hg)
  have hgk := offboardRemovals_keeps cfg noFaults wid (snapshotOf s)
    (st.addDec (Decision.offboard x))
  have hpro2 : usersProtect wid x (offboardRemovals cfg noFaults (snapshotOf s) wid
      (st.addDec (Decision.offboard x))).bi.users := by
    rw [hgk.1]
    simpa using hpro
  cases hs : suspend_user cfg noFaults wid (offboardRemovals cfg noFaults (snapshotOf s)
      wid (st.addDec (Decision.offboard x))) with
  | mk ok st3 =>
    have hest := c3_suspend_establish cfg wid x (offboardRemovals cfg noFaults
      (snapshotOf s) wid (st.addDec (Decision.offboard x))) hl hpro2
    rw [hs] at hest
    have hupd := c2_update_byid cfg bg bad false st3
    refine ⟨?_, ?_, ?_, ?_⟩
    · rw [hupd.1]
      exact hest.1
    · rw [hupd.1]
      show noMarkedWith cfg wid st3.bi.groups
      rw [hest.2.1]
      exact hout.2.2 hexv
    · exact c3_update_byid_delete cfg bg bad st3 hl
    · rw [hupd.1]
      have h5 := suspend_exists cfg noFaults wid wid
        (offboardRemovals cfg noFaults (snapshotOf s) wid
          (st.addDec (Decision.offboard x)))
        (by rw [hgk.1]; simpa using hpro.1)
      rw [hs] at h5
      exact h5

theorem snapshotOf_eq (s : BIState) : snapshotOf s = s.users.map (viewOf s) := rfl

theorem c3_enroll_ensure (cfg : Config) (g : GoogleInput) (st : St)
    (hl : cfg.testMode = false) :
    (create_or_get_byid_enrolled_group cfg g noFaults st).1
      = some ("BYID_Enrolled@" ++ cfg.domain) ∧
    (create_or_get_byid_enrolled_group cfg g noFaults st).2.bi = st.bi ∧
    (create_or_get_byid_enrolled_group cfg g noFaults st).2.enroll = st.enroll ∧
    (create_or_get_byid_enrolled_group cfg g noFaults st).2.decisions
      = st.decisions := by
  simp only [create_or_get_byid_enrolled_group, noFaults, hl, Bool.false_eq_true,
    if_false]
  split
  · exact ⟨rfl, rfl, rfl, rfl⟩
  · exact ⟨rfl, rfl, rfl, rfl⟩

/-- C3: in a live fault-free pass, the offboarding branch fires exactly once
for a previously-managed user absent from every tracked source group
(exactly one `offboard` decision for their source id), offboard decisions
arise only for records that were seeded from the tenant listing and never
seen in a tracked group this pass, and at the end of the pass the user is
present, suspended, out of every prefixed group and out of the enrollment
group — regardless of their enrollment status. -/
theorem offboarding_fires_once (cfg : Config) (g : GoogleInput) (s : BIState)
    (w : BIUser) (x : String)
    (hl : cfg.testMode = false)
    (hnodupU : (s.users.map (fun v => v.id)).Nodup)
    (hnodupG : (s.groups.map (fun h => h.id)).Nodup)
    (hfresh : noFreshCollision s = true)
    (hw : w ∈ s.users) (hx : w.externalId = some x) (hscim : isScimId x = true)
    (hnd : discovered cfg g x = false)
    (huniqx : ∀ v ∈ s.users, v.externalId = some x → v = w)
    (husers : ∀ v ∈ s.users, v.userName = w.userName → v = w)
    (hpe : ∀ d ∈ g.users, d.primaryEmail ≠ w.userName)
    (hwne : w.userName ≠ "") :
    (runMain cfg g s noFaults).st.decisions.count (Decision.offboard x) = 1 ∧
    (∀ k, Decision.offboard k ∈ (runMain cfg g s noFaults).st.decisions →
      seededKey s k = true ∧ discovered cfg g k = false) ∧
    (∃ v ∈ (runMain cfg g s noFaults).st.bi.users, v.id = w.id) ∧
    (∀ v ∈ (runMain cfg g s noFaults).st.bi.users, v.id = w.id →
      v.active = false) ∧
    (∀ gr ∈ (runMain cfg g s noFaults).st.bi.groups,
      strStarts gr.displayName cfg.pfx = true →
      gr.members.contains w.id = false) ∧
    w.userName ∉ (runMain cfg g s noFaults).st.enroll := by
  have hfr12 : s.users.all (fun u => !strStarts u.id "bi-user-") = true ∧
      s.groups.all (fun h => !strStarts h.id "bi-group-") = true := by
    simpa [noFreshCollision] using hfresh
  have hwno : strStarts w.id "bi-user-" = false := by
    have h2 := List.all_eq_true.mp hfr12.1 w hw
    simpa using h2
  have hfrG : ∀ gr ∈ s.groups, strStarts gr.id "bi-group-" = false := by
    intro gr hgr
    have h2 := List.all_eq_true.mp hfr12.2 gr hgr
    simpa using h2
  have hwVmem : viewOf s w ∈ snapshotOf s := by
    rw [snapshotOf_eq]
    exact List.mem_map.mpr ⟨w, hw, rfl⟩
  have huniqV : ∀ v2 ∈ snapshotOf s, v2.externalId = some x → v2 = viewOf s w := by
    intro v2 hv2 hx2
    rw [snapshotOf_eq] at hv2
    obtain ⟨u, hu, hueq⟩ := List.mem_map.mp hv2
    have hux : u.externalId = some x := by
      rw [← hueq] at hx2
      exact hx2
    rw [← hueq, huniqx u hu hux]
  have hseed : getRec (seedUsers (snapshotOf s)) x = some (seedVal (viewOf s w)) :=
    getRec_seedUsers_unique (snapshotOf s) x (viewOf s w) hwVmem (by simpa using hx)
      hscim huniqV
  have hviews : ∀ v ∈ snapshotOf s, v.id = w.id →
      (∀ gv ∈ v.groups, ∃ gr0 ∈ s.groups, gv.1 = gr0.id ∧ gv.2 = gr0.displayName) ∧
      (∀ gr0 ∈ s.groups, gr0.members.contains w.id = true →
        (gr0.id, gr0.displayName) ∈ v.groups) := by
    intro v hv hvid
    have hsvg := snapshot_view_groups s v hv
    exact ⟨fun gv hgv => (hsvg.1 gv hgv).imp (fun gr0 h => ⟨h.1, h.2.1, h.2.2⟩),
      fun gr0 hgr0 hc => hsvg.2 gr0 hgr0 (by rw [hvid]; exact hc)⟩
  have hexv : ∃ v ∈ snapshotOf s, v.id = w.id := ⟨viewOf s w, hwVmem, rfl⟩
  have haccseed : accName x w.userName (seedUsers (snapshotOf s)) := by
    intro kv hkv hne un hun
    obtain ⟨v, hvs, hvx, hsc, hval⟩ := mem_seedUsers _ kv hkv
    obtain ⟨u, hu, huid, hux, hunm⟩ := mem_snapshotOf s v hvs
    have huname : kv.2.username = some v.userName := by
      rw [hval]
      rfl
    rw [huname] at hun
    have hvun : v.userName = un := by injection hun
    intro hbad
    have huu : u.userName = w.userName := by
      rw [← hunm, hvun, hbad]
    have huw : u = w := husers u hu huu
    apply hne
    have h3 : w.externalId = some kv.1 := by
      rw [← huw, ← hux]
      exact hvx
    rw [hx] at h3
    injection h3 with h4
    exact h4.symm
  have hee := c3_enroll_ensure cfg g (initSt g s) hl
  simp only [runMain]
  split
  next st1 heq =>
    exfalso
    rw [heq] at hee
    exact absurd hee.1 (by simp)
  next bg st1 heq =>
    rw [heq] at hee
    simp only at hee
    have hst1bi : st1.bi = s := hee.2.1
    have hst1d : st1.decisions = [] := by
      rw [hee.2.2.2]
      rfl
    rw [detailed_user_info_st]
    simp only [hl, Bool.false_eq_true, if_false]
    split
    next hstat =>
      have hstXbi : ((st1.push [Event.readUserByName
          "will.may@beyondidentity.dev"]).push [Event.readListAllUsers]).bi = s := by
        rw [push_bi, push_bi, hst1bi]
      have hsnap : snapshotOf ((st1.push [Event.readUserByName
          "will.may@beyondidentity.dev"]).push [Event.readListAllUsers]).bi
          = snapshotOf s := by rw [hstXbi]
      simp only [runPass]
      rw [hsnap]
      cases hpg : processGroups cfg g noFaults bg cfg.gwsGroups
          (seedUsers (snapshotOf s),
           (st1.push [Event.readUserByName "will.may@beyondidentity.dev"]).push
             [Event.readListAllUsers]) with
      | mk recs st2 =>
        have hB := c3_processGroups cfg g w.id x w.userName s.groups bg cfg.gwsGroups
          hl hwno hnd hpe (fun e he => he)
          (seedUsers (snapshotOf s),
           (st1.push [Event.readUserByName "will.may@beyondidentity.dev"]).push
             [Event.readListAllUsers])
          (by
            show groupsTrack w.id s.groups ((st1.push [Event.readUserByName
              "will.may@beyondidentity.dev"]).push [Event.readListAllUsers]).bi.groups
            rw [hstXbi]
            exact groupsTrack_init w.id s.groups)
          (by
            show usersProtect w.id x ((st1.push [Event.readUserByName
              "will.may@beyondidentity.dev"]).push [Event.readListAllUsers]).bi.users
            rw [hstXbi]
            refine ⟨⟨w, hw, rfl⟩, ?_, ⟨w.active, ?_⟩⟩
            · intro v hv hvid
              rw [List.inj_on_of_nodup_map hnodupU hv hw hvid]
              exact hx
            · intro v hv hvid
              rw [List.inj_on_of_nodup_map hnodupU hv hw hvid])
          haccseed
        rw [hpg] at hB
        have hacc := acc_processGroups cfg g bg (seedUsers (snapshotOf s))
          cfg.gwsGroups
          (seedUsers (snapshotOf s),
           (st1.push [Event.readUserByName "will.may@beyondidentity.dev"]).push
             [Event.readListAllUsers])
          (keysNodup_seedUsers _)
          (fun kv hkv _ => mem_getRec_of_nodup _ _ _ (keysNodup_seedUsers _) hkv)
        rw [hpg] at hacc
        have hst2d : st2.decisions.count (Decision.offboard x) = 0 := by
          have h2 := hB.2.2.2 x
          simp only at h2
          rw [h2]
          simp only [push_decisions]
          rw [hst1d]
          rfl
        have hnotin : ∀ e ∈ cfg.gwsGroups, x ∉ srcMembers g e := by
          intro e he hmem
          have h2 := discovered_of_mem cfg g e x he hmem
          rw [h2] at hnd
          exact absurd hnd (by simp)
        have hrecx : getRec recs x = some (seedVal (viewOf s w)) := by
          have h2 := hacc.2.2.2 x hnotin
          simp only at h2
          rw [h2]
          exact hseed
        have hmemx : (x, seedVal (viewOf s w)) ∈ recs := getRec_mem _ _ _ hrecx
        obtain ⟨pre, post, hsplit⟩ := List.append_of_mem hmemx
        have hkeysnd : keysNodup recs := hacc.1
        have hxpost : ∀ kv ∈ post, kv.1 ≠ x := by
          intro kv hkv heqx
          have h2 : (recs.map (fun kv => kv.1)).Nodup := hkeysnd
          rw [hsplit, List.map_append, List.map_cons] at h2
          have h3 := (List.nodup_cons.mp (h2.of_append_right)).1
          apply h3
          rw [← heqx]
          exact List.mem_map.mpr ⟨kv, hkv, rfl⟩
        have hpostuns : ∀ kv ∈ post, ∀ un, kv.2.username = some un →
            un ≠ w.userName := by
          intro kv hkv un hun
          have hkvrec : kv ∈ recs := by
            rw [hsplit]
            exact List.mem_append.mpr (Or.inr (List.mem_cons_of_mem _ hkv))
          exact hB.2.2.1 kv hkvrec (hxpost kv hkv) un hun
        have hfin : sweepRecords cfg noFaults (snapshotOf s) bg recs st2
            = sweepRecords cfg noFaults (snapshotOf s) bg post
                (sweepRecord cfg noFaults (snapshotOf s) bg
                  (sweepRecords cfg noFaults (snapshotOf s) bg pre st2)
                  (x, seedVal (viewOf s w))) := by
          rw [hsplit, sweepRecords_append]
          rfl
        have hpre := c3_sweepRecords_pre cfg w.id x s.groups (snapshotOf s) bg pre
          st2 hB.1 hB.2.1
        have hat := c3_sweepRecord_at cfg w.id x w.userName s bg
          (sweepRecords cfg noFaults (snapshotOf s) bg pre st2)
          (seedVal (viewOf s w)) hl hnodupG hfrG hviews hexv rfl rfl rfl rfl
          hpre.1 hpre.2
        have hpost := c3_sweepRecords_post cfg w.id w.userName (snapshotOf s) bg hl
          hwne post
          (sweepRecord cfg noFaults (snapshotOf s) bg
            (sweepRecords cfg noFaults (snapshotOf s) bg pre st2)
            (x, seedVal (viewOf s w)))
          hpostuns hat.1 hat.2.1 hat.2.2.1 hat.2.2.2
        have hcnt := c3_sweep_count cfg (snapshotOf s) bg x recs st2
        have hst2dk : ∀ k, st2.decisions.count (Decision.offboard k) = 0 := by
          intro k
          have h2 := hB.2.2.2 k
          simp only at h2
          rw [h2]
          simp only [push_decisions]
          rw [hst1d]
          rfl
        have hcountP : recs.countP (fun kv => kv.1 == x && kv.2.is_scim_user
            && !kv.2.was_in_group) = 1 := by
          apply countP_keyed_unique x (seedVal (viewOf s w)) _ recs hkeysnd hmemx
          · simp [seedVal]
          · intro kv _ hp
            have hps : ((kv.1 == x) = true ∧ kv.2.is_scim_user = true) ∧
                (!kv.2.was_in_group) = true := by
              simpa using hp
            simpa using hps.1.1
        refine ⟨?_, ?_, ?_, ?_, ?_, ?_⟩
        · show (sweepRecords cfg noFaults (snapshotOf s) bg recs st2).decisions.count
            (Decision.offboard x) = 1
          rw [hcnt, hst2dk x, hcountP]
        · show ∀ k, Decision.offboard k ∈
            (sweepRecords cfg noFaults (snapshotOf s) bg recs st2).decisions → _
          intro k hkmem
          have hcntk := c3_sweep_count cfg (snapshotOf s) bg k recs st2
          have hpos : 0 < (sweepRecords cfg noFaults (snapshotOf s) bg recs
              st2).decisions.count (Decision.offboard k) :=
            List.count_pos_iff_mem.mpr hkmem
          rw [hcntk, hst2dk k] at hpos
          have hpos2 : 0 < recs.countP (fun kv => kv.1 == k && kv.2.is_scim_user
              && !kv.2.was_in_group) := by simpa using hpos
          obtain ⟨kv, hkv, hp⟩ := List.countP_pos.mp hpos2
          have hps : ((kv.1 == k) = true ∧ kv.2.is_scim_user = true) ∧
              (!kv.2.was_in_group) = true := by
            simpa using hp
          have hk1 : kv.1 = k := by simpa using hps.1.1
          have hwas : kv.2.was_in_group = false := by simpa using hps.2
          have hseeded := hacc.2.1 kv hkv hwas
          have hkvmem : (kv.1, kv.2) ∈ seedUsers (snapshotOf s) :=
            getRec_mem _ _ _ hseeded
          obtain ⟨v, hvs, hvx, hsc, hval⟩ := mem_seedUsers _ (kv.1, kv.2) hkvmem
          obtain ⟨u, hu, huid, hux, humn⟩ := mem_snapshotOf s v hvs
          constructor
          · rw [← hk1, seededKey, hsc]
            simp only [Bool.true_and]
            apply List.any_eq_true.mpr
            refine ⟨u, hu, ?_⟩
            rw [← hux, hvx]
            simp
          · rw [← hk1]
            cases hd : discovered cfg g kv.1
            · rfl
            · exfalso
              rw [discovered] at hd
              obtain ⟨e, he, hcont⟩ := List.any_eq_true.mp hd
              obtain ⟨i2, hi2, hi2w⟩ := hacc.2.2.1 e he kv.1 (by simpa using hcont)
              have hkrec : getRec recs kv.1 = some kv.2 :=
                mem_getRec_of_nodup _ _ _ hkeysnd hkv
              rw [hkrec] at hi2
              have h3 : kv.2 = i2 := by injection hi2
              rw [← h3, hwas] at hi2w
              exact absurd hi2w (by simp)
        · show ∃ v ∈ (sweepRecords cfg noFaults (snapshotOf s) bg recs
              st2).bi.users, v.id = w.id
          rw [hfin]
          exact hpost.2.2.2
        · show ∀ v ∈ (sweepRecords cfg noFaults (snapshotOf s) bg recs
              st2).bi.users, v.id = w.id → v.active = false
          rw [hfin]
          exact hpost.1
        · show ∀ gr ∈ (sweepRecords cfg noFaults (snapshotOf s) bg recs
              st2).bi.groups, strStarts gr.displayName cfg.pfx = true →
              gr.members.contains w.id = false
          rw [hfin]
          exact hpost.2.1
        · show w.userName ∉ (sweepRecords cfg noFaults (snapshotOf s) bg recs
              st2).enroll
          rw [hfin]
          exact hpost.2.2.1
    next hstat =>
      exact absurd rfl hstat

/-- Witness for `offboarding_fires_once`: a tenant user managed from a
21-digit source id, absent from the only tracked group, currently enrolled;
the pass emits exactly one offboard decision for their source id. -/
theorem offboarding_fires_once_witness :
    (runMain
      { gwsGroups := ["eng@co"], pfx := "GoogleSCIM_", domain := "co",
        testMode := false }
      { groupPages := [("eng@co", [["100000000000000000001"]])],
        users := [{ id := "100000000000000000001", primaryEmail := "u1@co",
                    givenName := "U", familyName := "One", suspended := false }],
        enrollGroupExists := true, enrollMembers := ["gone@co"] }
      { users := [{ id := "b9", externalId := some "900000000000000000009",
                    userName := "gone@co", givenName := "G", familyName := "Z",
                    active := true }],
        groups := [{ id := "gx", displayName := "GoogleSCIM_old@co",
                     members := ["b9"] }],
        enrolled := ["b9"], nextUid := 0, nextGid := 0 }
      noFaults).st.decisions.count
        (Decision.offboard "900000000000000000009") = 1 ∧
    "gone@co" ∉ (runMain
      { gwsGroups := ["eng@co"], pfx := "GoogleSCIM_", domain := "co",
        testMode := false }
      { groupPages := [("eng@co", [["100000000000000000001"]])],
        users := [{ id := "100000000000000000001", primaryEmail := "u1@co",
                    givenName := "U", familyName := "One", suspended := false }],
        enrollGroupExists := true, enrollMembers := ["gone@co"] }
      { users := [{ id := "b9", externalId := some "900000000000000000009",
                    userName := "gone@co", givenName := "G", familyName := "Z",
                    active := true }],
        groups := [{ id := "gx", displayName := "GoogleSCIM_old@co",
                     members := ["b9"] }],
        enrolled := ["b9"], nextUid := 0, nextGid := 0 }
      noFaults).st.enroll :=
  have h := offboarding_fires_once
    { gwsGroups := ["eng@co"], pfx := "GoogleSCIM_", domain := "co",
      testMode := false }
    { groupPages := [("eng@co", [["100000000000000000001"]])],
      users := [{ id := "100000000000000000001", primaryEmail := "u1@co",
                  givenName := "U", familyName := "One", suspended := false }],
      enrollGroupExists := true, enrollMembers := ["gone@co"] }
    { users := [{ id := "b9", externalId := some "900000000000000000009",
                  userName := "gone@co", givenName := "G", familyName := "Z",
                  active := true }],
      groups := [{ id := "gx", displayName := "GoogleSCIM_old@co",
                   members := ["b9"] }],
      enrolled := ["b9"], nextUid := 0, nextGid := 0 }
    { id := "b9", externalId := some "900000000000000000009", userName := "gone@co",
      givenName := "G", familyName := "Z", active := true }
    "900000000000000000009"
    rfl (by decide) (by decide) (by decide) (by decide) rfl (by decide) (by decide)
    (by decide) (by decide) (by decide) (by decide)
  ⟨h.1, h.2.2.2.2.2⟩

@[simp] theorem swapE_users (b : BIState) (l2 : List String) :
    ({ b with enrolled := l2 } : BIState).users = b.users := rfl

@[simp] theorem swapE_groups (b : BIState) (l2 : List String) :
    ({ b with enrolled := l2 } : BIState).groups = b.groups := rfl

@[simp] theorem swapE_nextUid (b : BIState) (l2 : List String) :
    ({ b with enrolled := l2 } : BIState).nextUid = b.nextUid := rfl

@[simp] theorem swapE_nextGid (b : BIState) (l2 : List String) :
    ({ b with enrolled := l2 } : BIState).nextGid = b.nextGid := rfl

@[simp] theorem swapE_enrolled (b : BIState) (l2 : List String) :
    ({ b with enrolled := l2 } : BIState).enrolled = l2 := rfl

theorem snapshotOf_swapE (b : BIState) (l2 : List String) :
    snapshotOf { b with enrolled := l2 } = snapshotOf b := rfl

theorem simR_push (l1 l2 : List String) (st₁ st₂ : St) (es : List Event)
    (h : simR l1 l2 st₁ st₂) (hes : es.filter (fun ev => !enrollEdit ev) = es) :
    simR l1 l2 (st₁.push es) (st₂.push es) := by
  obtain ⟨h1, h2, h3, h4⟩ := h
  refine ⟨h1, h2, h3, ?_⟩
  simp only [push_events, List.filter_append]
  rw [h4, hes]

theorem c9_detailed_pair (l1 l2 : List String) (ue : String) (st₁ st₂ : St)
    (h : simR l1 l2 st₁ st₂) :
    (get_detailed_user_info noFaults ue st₂).1
      = (get_detailed_user_info noFaults ue st₁).1 ∧
    simR l1 l2 (get_detailed_user_info noFaults ue st₁).2
      (get_detailed_user_info noFaults ue st₂).2 ∧
    (get_detailed_user_info noFaults ue st₁).2.enroll = st₁.enroll ∧
    (get_detailed_user_info noFaults ue st₂).2.enroll = st₂.enroll := by
  have h2 := h.2.1
  simp only [get_detailed_user_info, noFaults]
  refine ⟨?_, ?_, rfl, rfl⟩
  · rw [push_bi, push_bi, h2]
    rfl
  · exact simR_push l1 l2 st₁ st₂ _ h (by simp [enrollEdit])

theorem c9_enroll_ensure_pair (cfg : Config) (g : GoogleInput) (l1 l2 : List String)
    (st₁ st₂ : St) (h : simR l1 l2 st₁ st₂) :
    (create_or_get_byid_enrolled_group cfg g noFaults st₂).1
      = (create_or_get_byid_enrolled_group cfg g noFaults st₁).1 ∧
    simR l1 l2 (create_or_get_byid_enrolled_group cfg g noFaults st₁).2
      (create_or_get_byid_enrolled_group cfg g noFaults st₂).2 ∧
    (create_or_get_byid_enrolled_group cfg g noFaults st₁).2.enroll = st₁.enroll ∧
    (create_or_get_byid_enrolled_group cfg g noFaults st₂).2.enroll = st₂.enroll := by
  simp only [create_or_get_byid_enrolled_group, noFaults]
  by_cases ht : cfg.testMode = true
  · rw [if_pos ht, if_pos ht]
    exact ⟨rfl, h, rfl, rfl⟩
  · rw [if_neg ht, if_neg ht]
    by_cases hex : g.enrollGroupExists = true
    · rw [if_pos hex, if_pos hex]
      exact ⟨rfl, simR_push l1 l2 st₁ st₂ _ h (by simp [enrollEdit]), rfl, rfl⟩
    · rw [if_neg hex, if_neg hex]
      refine ⟨rfl, ?_, rfl, rfl⟩
      apply simR_push l1 l2 (st₁.push [Event.readEnrollGroupGet])
        (st₂.push [Event.readEnrollGroupGet])
      · exact simR_push l1 l2 st₁ st₂ _ h (by simp [enrollEdit])
      · simp [enrollEdit]

theorem c9_create_bi_group_pair (cfg : Config) (l1 l2 : List String) (e : String)
    (st₁ st₂ : St) (h : simR l1 l2 st₁ st₂) :
    (create_bi_group cfg noFaults e st₂).1 = (create_bi_group cfg noFaults e st₁).1 ∧
    simR l1 l2 (create_bi_group cfg noFaults e st₁).2
      (create_bi_group cfg noFaults e st₂).2 ∧
    (create_bi_group cfg noFaults e st₁).2.enroll = st₁.enroll ∧
    (create_bi_group cfg noFaults e st₂).2.enroll = st₂.enroll := by
  obtain ⟨bi₂, en₂, ev₂, de₂⟩ := st₂
  obtain ⟨h1, h2, h3, h4⟩ := h
  have h2a : bi₂ = { st₁.bi with enrolled := l2 } := h2
  have h3a : de₂ = st₁.decisions := h3
  subst h2a
  subst h3a
  have h4a : ev₂.filter (fun ev => !enrollEdit ev)
      = st₁.events.filter (fun ev => !enrollEdit ev) := h4
  simp only [create_bi_group, create_bi_group_post, noFaults, push_bi, swapE_groups,
    swapE_users, swapE_nextUid, swapE_nextGid, swapE_enrolled]
  cases hsc : st₁.bi.groups.filter (fun h => h.displayName == cfg.pfx ++ e) with
  | cons gr t =>
    refine ⟨rfl, ⟨h1, rfl, rfl, ?_⟩, rfl, rfl⟩
    show (ev₂ ++ [Event.readGroupFilter e]).filter (fun ev => !enrollEdit ev)
      = (st₁.events ++ [Event.readGroupFilter e]).filter (fun ev => !enrollEdit ev)
    rw [List.filter_append, List.filter_append, h4a]
  | nil =>
    by_cases ht : cfg.testMode = true
    · rw [if_pos ht, if_pos ht]
      refine ⟨rfl, ⟨h1, rfl, rfl, ?_⟩, rfl, rfl⟩
      show (ev₂ ++ [Event.readGroupFilter e]).filter (fun ev => !enrollEdit ev)
        = (st₁.events ++ [Event.readGroupFilter e]).filter (fun ev => !enrollEdit ev)
      rw [List.filter_append, List.filter_append, h4a]
    · rw [if_neg ht, if_neg ht]
      refine ⟨rfl, ⟨h1, ?_, rfl, ?_⟩, rfl, rfl⟩
      · rfl
      · show ((ev₂ ++ [Event.readGroupFilter e])
            ++ [Event.mutCreateGroup (cfg.pfx ++ e)]).filter (fun ev => !enrollEdit ev)
          = ((st₁.events ++ [Event.readGroupFilter e])
            ++ [Event.mutCreateGroup (cfg.pfx ++ e)]).filter (fun ev => !enrollEdit ev)
        rw [List.filter_append, List.filter_append, List.filter_append,
          List.filter_append, h4a]

theorem c9_filter2 (ev₂ ev₁ : List Event) (es : List Event)
    (h : ev₂.filter (fun ev => !enrollEdit ev) = ev₁.filter (fun ev => !enrollEdit ev)) :
    (ev₂ ++ es).filter (fun ev => !enrollEdit ev)
      = (ev₁ ++ es).filter (fun ev => !enrollEdit ev) := by
  rw [List.filter_append, List.filter_append, h]

theorem c9_add_pair (cfg : Config) (l1 l2 : List String) (b gid : String)
    (st₁ st₂ : St) (h : simR l1 l2 st₁ st₂) :
    (add_user_to_group cfg noFaults b gid st₂).1
      = (add_user_to_group cfg noFaults b gid st₁).1 ∧
    simR l1 l2 (add_user_to_group cfg noFaults b gid st₁).2
      (add_user_to_group cfg noFaults b gid st₂).2 ∧
    (add_user_to_group cfg noFaults b gid st₁).2.enroll = st₁.enroll ∧
    (add_user_to_group cfg noFaults b gid st₂).2.enroll = st₂.enroll := by
  obtain ⟨bi₂, en₂, ev₂, de₂⟩ := st₂
  obtain ⟨h1, h2, h3, h4⟩ := h
  have h2a : bi₂ = { st₁.bi with enrolled := l2 } := h2
  have h3a : de₂ = st₁.decisions := h3
  subst h2a
  subst h3a
  have h4a : ev₂.filter (fun ev => !enrollEdit ev)
      = st₁.events.filter (fun ev => !enrollEdit ev) := h4
  simp only [add_user_to_group, noFaults, lookupBIGroup, push_bi, swapE_groups,
    swapE_users, swapE_nextUid, swapE_nextGid, swapE_enrolled]
  cases hsc : st₁.bi.groups.find? (fun h => h.id == gid) with
  | none =>
    exact ⟨rfl, ⟨h1, rfl, rfl, c9_filter2 ev₂ st₁.events [Event.readGroupGet gid] h4a⟩,
      rfl, rfl⟩
  | some gr =>
    by_cases hc : gr.members.contains b = true
    · simp only [hc, if_true, eq_self_iff_true]
      exact ⟨rfl, ⟨h1, rfl, rfl,
        c9_filter2 ev₂ st₁.events [Event.readGroupGet gid] h4a⟩, rfl, rfl⟩
    · have hc2 : gr.members.contains b = false := by
        cases hx : gr.members.contains b
        · rfl
        · exact absurd hx hc
      simp only [hc2, Bool.false_eq_true, if_false]
      by_cases ht : cfg.testMode = true
      · simp only [ht, if_true, eq_self_iff_true]
        exact ⟨rfl, ⟨h1, rfl, rfl,
          c9_filter2 ev₂ st₁.events [Event.readGroupGet gid] h4a⟩, rfl, rfl⟩
      · have ht2 : cfg.testMode = false := by
          cases hx : cfg.testMode
          · rfl
          · exact absurd hx ht
        simp only [ht2, Bool.false_eq_true, if_false]
        refine ⟨rfl, ⟨h1, ?_, rfl, ?_⟩, rfl, rfl⟩
        · rfl
        · exact c9_filter2 _ _ [Event.mutAddMember gid b]
            (c9_filter2 ev₂ st₁.events [Event.readGroupGet gid] h4a)

theorem c9_remove_pair (cfg : Config) (l1 l2 : List String) (b gid : String)
    (st₁ st₂ : St) (h : simR l1 l2 st₁ st₂) :
    (remove_user_from_group cfg noFaults b gid st₂).1
      = (remove_user_from_group cfg noFaults b gid st₁).1 ∧
    simR l1 l2 (remove_user_from_group cfg noFaults b gid st₁).2
      (remove_user_from_group cfg noFaults b gid st₂).2 ∧
    (remove_user_from_group cfg noFaults b gid st₁).2.enroll = st₁.enroll ∧
    (remove_user_from_group cfg noFaults b gid st₂).2.enroll = st₂.enroll := by
  obtain ⟨bi₂, en₂, ev₂, de₂⟩ := st₂
  obtain ⟨h1, h2, h3, h4⟩ := h
  have h2a : bi₂ = { st₁.bi with enrolled := l2 } := h2
  have h3a : de₂ = st₁.decisions := h3
  subst h2a
  subst h3a
  have h4a : ev₂.filter (fun ev => !enrollEdit ev)
      = st₁.events.filter (fun ev => !enrollEdit ev) := h4
  simp only [remove_user_from_group, noFaults, lookupBIGroup, push_bi, swapE_groups,
    swapE_users, swapE_nextUid, swapE_nextGid, swapE_enrolled]
  cases hsc : st₁.bi.groups.find? (fun h => h.id == gid) with
  | none =>
    exact ⟨rfl, ⟨h1, rfl, rfl, c9_filter2 ev₂ st₁.events [Event.readGroupGet gid] h4a⟩,
      rfl, rfl⟩
  | some gr =>
    by_cases hc : gr.members.contains b = true
    · have hc2 : (!gr.members.contains b) = false := by rw [hc]; rfl
      simp only [hc2, Bool.false_eq_true, if_false]
      by_cases ht : cfg.testMode = true
      · simp only [ht, if_true, eq_self_iff_true]
        exact ⟨rfl, ⟨h1, rfl, rfl,
          c9_filter2 ev₂ st₁.events [Event.readGroupGet gid] h4a⟩, rfl, rfl⟩
      · have ht2 : cfg.testMode = false := by
          cases hx : cfg.testMode
          · rfl
          · exact absurd hx ht
        simp only [ht2, Bool.false_eq_true, if_false]
        refine ⟨rfl, ⟨h1, ?_, rfl, ?_⟩, rfl, rfl⟩
        · rfl
        · exact c9_filter2 _ _ [Event.mutRemoveMember gid b]
            (c9_filter2 ev₂ st₁.events [Event.readGroupGet gid] h4a)
    · have hc2 : (!gr.members.contains b) = true := by
        cases hx : gr.members.contains b
        · rfl
        · exact absurd hx hc
      simp only [hc2, if_true, eq_self_iff_true]
      exact ⟨rfl, ⟨h1, rfl, rfl,
        c9_filter2 ev₂ st₁.events [Event.readGroupGet gid] h4a⟩, rfl, rfl⟩

theorem c9_suspend_pair (cfg : Config) (l1 l2 : List String) (b : String)
    (st₁ st₂ : St) (h : simR l1 l2 st₁ st₂) :
    (suspend_user cfg noFaults b st₂).1 = (suspend_user cfg noFaults b st₁).1 ∧
    simR l1 l2 (suspend_user cfg noFaults b st₁).2
      (suspend_user cfg noFaults b st₂).2 ∧
    (suspend_user cfg noFaults b st₁).2.enroll = st₁.enroll ∧
    (suspend_user cfg noFaults b st₂).2.enroll = st₂.enroll := by
  obtain ⟨bi₂, en₂, ev₂, de₂⟩ := st₂
  obtain ⟨h1, h2, h3, h4⟩ := h
  have h2a : bi₂ = { st₁.bi with enrolled := l2 } := h2
  have h3a : de₂ = st₁.decisions := h3
  subst h2a
  subst h3a
  have h4a : ev₂.filter (fun ev => !enrollEdit ev)
      = st₁.events.filter (fun ev => !enrollEdit ev) := h4
  simp only [suspend_user, noFaults, lookupBIUser, push_bi, swapE_groups,
    swapE_users, swapE_nextUid, swapE_nextGid, swapE_enrolled]
  cases hsc : st₁.bi.users.find? (fun u => u.id == b) with
  | none =>
    exact ⟨rfl, ⟨h1, rfl, rfl, c9_filter2 ev₂ st₁.events [Event.readUserGet b] h4a⟩,
      rfl, rfl⟩
  | some u =>
    by_cases hc : (u.active == false) = true
    · simp only [hc, if_true, eq_self_iff_true]
      exact ⟨rfl, ⟨h1, rfl, rfl,
        c9_filter2 ev₂ st₁.events [Event.readUserGet b] h4a⟩, rfl, rfl⟩
    · have hc2 : (u.active == false) = false := by
        cases hx : (u.active == false)
        · rfl
        · exact absurd hx hc
      simp only [hc2, Bool.false_eq_true, if_false]
      by_cases ht : cfg.testMode = true
      · simp only [ht, if_true, eq_self_iff_true]
        exact ⟨rfl, ⟨h1, rfl, rfl,
          c9_filter2 ev₂ st₁.events [Event.readUserGet b] h4a⟩, rfl, rfl⟩
      · have ht2 : cfg.testMode = false := by
          cases hx : cfg.testMode
          · rfl
          · exact absurd hx ht
        simp only [ht2, Bool.false_eq_true, if_false]
        refine ⟨rfl, ⟨h1, ?_, rfl, ?_⟩, rfl, rfl⟩
        · rfl
        · exact c9_filter2 _ _ [Event.mutSuspendPut b]
            (c9_filter2 ev₂ st₁.events [Event.readUserGet b] h4a)

@[simp] theorem stSetEnroll_bi (st : St) (x : List String) :
    ({ st with enroll := x } : St).bi = st.bi := rfl

@[simp] theorem stSetEnroll_events (st : St) (x : List String) :
    ({ st with enroll := x } : St).events = st.events := rfl

@[simp] theorem stSetEnroll_decisions (st : St) (x : List String) :
    ({ st with enroll := x } : St).decisions = st.decisions := rfl

@[simp] theorem stSetEnroll_enroll (st : St) (x : List String) :
    ({ st with enroll := x } : St).enroll = x := rfl

theorem c9_app (l : List String) (a e : String) :
    (l ++ [a]).contains e = (l.contains e || e == a) := by
  by_cases hm : e ∈ l
  · have h1 : l.contains e = true := by simpa using hm
    have h2 : (l ++ [a]).contains e = true := by simp [hm]
    rw [h1, h2, Bool.true_or]
  · have h1 : l.contains e = false := by simpa using hm
    rw [h1, Bool.false_or]
    by_cases he : e = a
    · subst he
      have h2 : (l ++ [e]).contains e = true := by simp
      rw [h2]
      simp
    · have heb : (e == a) = false := by simpa using he
      rw [heb]
      have h2 : (l ++ [a]).contains e = false := by simp [hm, he]
      rw [h2]

theorem c9_del (l : List String) (a e : String) :
    (l.filter (fun s => s != a)).contains e = (l.contains e && !(e == a)) := by
  by_cases he : e = a
  · subst he
    have h1 : (l.filter (fun s => s != e)).contains e = false := by simp
    rw [h1]
    simp
  · have heb : (e == a) = false := by simpa using he
    rw [heb]
    by_cases hm : e ∈ l
    · have h1 : l.contains e = true := by simpa using hm
      have h2 : (l.filter (fun s => s != a)).contains e = true := by simp [hm, he]
      rw [h1, h2]
      rfl
    · have h1 : l.contains e = false := by simpa using hm
      have h2 : (l.filter (fun s => s != a)).contains e = false := by
        simp [List.mem_filter, hm]
      rw [h1, h2]
      rfl

theorem c9_create_or_update_pair (cfg : Config) (l1 l2 : List String) (d : GUser)
    (st₁ st₂ : St) (h : simR l1 l2 st₁ st₂) :
    (create_or_update_bi_user cfg noFaults d st₂).1
      = (create_or_update_bi_user cfg noFaults d st₁).1 ∧
    simR l1 l2 (create_or_update_bi_user cfg noFaults d st₁).2
      (create_or_update_bi_user cfg noFaults d st₂).2 ∧
    (create_or_update_bi_user cfg noFaults d st₁).2.enroll = st₁.enroll ∧
    (create_or_update_bi_user cfg noFaults d st₂).2.enroll = st₂.enroll := by
  obtain ⟨bi₂, en₂, ev₂, de₂⟩ := st₂
  obtain ⟨h1, h2, h3, h4⟩ := h
  have h2a : bi₂ = { st₁.bi with enrolled := l2 } := h2
  have h3a : de₂ = st₁.decisions := h3
  subst h2a
  subst h3a
  have h4a : ev₂.filter (fun ev => !enrollEdit ev)
      = st₁.events.filter (fun ev => !enrollEdit ev) := h4
  simp only [create_or_update_bi_user, create_bi_user_post, noFaults, push_bi,
    addDec_bi, swapE_groups, swapE_users, swapE_nextUid, swapE_nextGid,
    swapE_enrolled]
  cases hsc : st₁.bi.users.filter (fun u => u.externalId == some d.id) with
  | cons u t =>
    by_cases ht : cfg.testMode = true
    · simp only [ht, if_true, eq_self_iff_true]
      exact ⟨rfl, ⟨h1, rfl, rfl,
        c9_filter2 ev₂ st₁.events [Event.readUserFilter d.id] h4a⟩, rfl, rfl⟩
    · have ht2 : cfg.testMode = false := by
        cases hx : cfg.testMode
        · rfl
        · exact absurd hx ht
      simp only [ht2, Bool.false_eq_true, if_false]
      refine ⟨rfl, ⟨h1, ?_, rfl, ?_⟩, rfl, rfl⟩
      · rfl
      · exact c9_filter2 _ _ [Event.mutUpdateUser u.id]
          (c9_filter2 ev₂ st₁.events [Event.readUserFilter d.id] h4a)
  | nil =>
    by_cases ht : cfg.testMode = true
    · simp only [ht, if_true, eq_self_iff_true]
      exact ⟨rfl, ⟨h1, rfl, rfl,
        c9_filter2 ev₂ st₁.events [Event.readUserFilter d.id] h4a⟩, rfl, rfl⟩
    · have ht2 : cfg.testMode = false := by
        cases hx : cfg.testMode
        · rfl
        · exact absurd hx ht
      simp only [ht2, Bool.false_eq_true, if_false]
      refine ⟨rfl, ⟨h1, ?_, rfl, ?_⟩, rfl, rfl⟩
      · rfl
      · exact c9_filter2 _ _ [Event.mutCreateUser d.id]
          (c9_filter2 ev₂ st₁.events [Event.readUserFilter d.id] h4a)

theorem c9_enrollment_pair (l1 l2 : List String) (uu b : String) (st₁ st₂ : St)
    (h : simR l1 l2 st₁ st₂)
    (henl : ∀ b2, b2 ≠ uu → l2.contains b2 = l1.contains b2) :
    (b ≠ uu → (get_bi_enrollment_status noFaults b st₂).1
      = (get_bi_enrollment_status noFaults b st₁).1) ∧
    simR l1 l2 (get_bi_enrollment_status noFaults b st₁).2
      (get_bi_enrollment_status noFaults b st₂).2 ∧
    (get_bi_enrollment_status noFaults b st₁).2.enroll = st₁.enroll ∧
    (get_bi_enrollment_status noFaults b st₂).2.enroll = st₂.enroll := by
  obtain ⟨bi₂, en₂, ev₂, de₂⟩ := st₂
  obtain ⟨h1, h2, h3, h4⟩ := h
  have h2a : bi₂ = { st₁.bi with enrolled := l2 } := h2
  have h3a : de₂ = st₁.decisions := h3
  subst h2a
  subst h3a
  have h4a : ev₂.filter (fun ev => !enrollEdit ev)
      = st₁.events.filter (fun ev => !enrollEdit ev) := h4
  simp only [get_bi_enrollment_status, noFaults, push_bi, swapE_enrolled]
  refine ⟨?_, ⟨h1, rfl, rfl,
    c9_filter2 ev₂ st₁.events [Event.readEnrollment b] h4a⟩, rfl, rfl⟩
  intro hb
  show l2.contains b = st₁.bi.enrolled.contains b
  rw [h1]
  exact henl b hb

theorem c9_update_byid_pair (cfg : Config) (l1 l2 : List String) (E : List String)
    (ge ue : String) (b₁ b₂ : Bool) (st₁ st₂ : St)
    (h : simR l1 l2 st₁ st₂) (hag : enrAgree E st₁ st₂)
    (hcase : b₁ = b₂ ∨ ue ∈ E) :
    simR l1 l2 (update_byid_enrolled_group cfg ge ue b₁ st₁)
      (update_byid_enrolled_group cfg ge ue b₂ st₂) ∧
    enrAgree E (update_byid_enrolled_group cfg ge ue b₁ st₁)
      (update_byid_enrolled_group cfg ge ue b₂ st₂) := by
  obtain ⟨bi₂, en₂, ev₂, de₂⟩ := st₂
  obtain ⟨h1, h2, h3, h4⟩ := h
  have h2a : bi₂ = { st₁.bi with enrolled := l2 } := h2
  have h3a : de₂ = st₁.decisions := h3
  subst h2a
  subst h3a
  have h4a : ev₂.filter (fun ev => !enrollEdit ev)
      = st₁.events.filter (fun ev => !enrollEdit ev) := h4
  have haga : ∀ e, e ∉ E → en₂.contains e = st₁.enroll.contains e := hag
  simp only [update_byid_enrolled_group, push_enroll, push_bi, stSetEnroll_bi,
    stSetEnroll_events, stSetEnroll_decisions, stSetEnroll_enroll]
  by_cases ht : cfg.testMode = true
  · simp only [ht, if_true, eq_self_iff_true]
    exact ⟨⟨h1, rfl, rfl, h4a⟩, haga⟩
  · have ht2 : cfg.testMode = false := by
      cases hx : cfg.testMode
      · rfl
      · exact absurd hx ht
    simp only [ht2, Bool.false_eq_true, if_false]
    cases b₁ with
    | true =>
      cases b₂ with
      | true =>
        simp only [if_true]
        cases hc₂ : en₂.contains ue <;> cases hc₁ : st₁.enroll.contains ue
        · simp only [Bool.false_eq_true, if_false]
          refine ⟨⟨h1, rfl, rfl, ?_⟩, ?_⟩
          · exact c9_filter2 ev₂ st₁.events [Event.mutEnrollInsert ue] h4a
          · intro e he
            show (en₂ ++ [ue]).contains e = (st₁.enroll ++ [ue]).contains e
            rw [c9_app, c9_app, haga e he]
        · simp only [Bool.false_eq_true, if_false, if_true]
          refine ⟨⟨h1, rfl, rfl, ?_⟩, ?_⟩
          · exact c9_filter2 ev₂ st₁.events [Event.mutEnrollInsert ue] h4a
          · intro e he
            show (en₂ ++ [ue]).contains e = st₁.enroll.contains e
            rw [c9_app, haga e he]
            by_cases hee : e = ue
            · subst hee
              rw [hc₁]
              simp
            · have heb : (e == ue) = false := by simpa using hee
              rw [heb, Bool.or_false]
        · simp only [Bool.false_eq_true, if_false, if_true]
          refine ⟨⟨h1, rfl, rfl, ?_⟩, ?_⟩
          · exact c9_filter2 ev₂ st₁.events [Event.mutEnrollInsert ue] h4a
          · intro e he
            show en₂.contains e = (st₁.enroll ++ [ue]).contains e
            rw [c9_app, haga e he]
            by_cases hee : e = ue
            · subst hee
              exact absurd (haga e he) (by rw [hc₂, hc₁]; simp)
            · have heb : (e == ue) = false := by simpa using hee
              rw [heb, Bool.or_false]
        · simp only [if_true]
          exact ⟨⟨h1, rfl, rfl,
            c9_filter2 ev₂ st₁.events [Event.mutEnrollInsert ue] h4a⟩, haga⟩
      | false =>
        have hueE : ue ∈ E := by
          rcases hcase with hcc | hcc
          · exact absurd hcc (by simp)
          · exact hcc
        simp only [Bool.false_eq_true, if_false, if_true]
        cases hc₁ : st₁.enroll.contains ue
        · simp only [Bool.false_eq_true, if_false]
          refine ⟨⟨h1, rfl, rfl, ?_⟩, ?_⟩
          · show (ev₂ ++ [Event.mutEnrollDelete ue]).filter (fun ev => !enrollEdit ev)
              = (st₁.events ++ [Event.mutEnrollInsert ue]).filter
                (fun ev => !enrollEdit ev)
            rw [List.filter_append, List.filter_append, h4a]
            rfl
          · intro e he
            have hee : e ≠ ue := fun hx => he (hx ▸ hueE)
            have heb : (e == ue) = false := by simpa using hee
            show (en₂.filter (fun s => s != ue)).contains e
              = (st₁.enroll ++ [ue]).contains e
            rw [c9_del, c9_app, heb, haga e he]
            simp
        · simp only [if_true]
          refine ⟨⟨h1, rfl, rfl, ?_⟩, ?_⟩
          · show (ev₂ ++ [Event.mutEnrollDelete ue]).filter (fun ev => !enrollEdit ev)
              = (st₁.events ++ [Event.mutEnrollInsert ue]).filter
                (fun ev => !enrollEdit ev)
            rw [List.filter_append, List.filter_append, h4a]
            rfl
          · intro e he
            have hee : e ≠ ue := fun hx => he (hx ▸ hueE)
            have heb : (e == ue) = false := by simpa using hee
            show (en₂.filter (fun s => s != ue)).contains e = st₁.enroll.contains e
            rw [c9_del, heb, haga e he]
            simp
    | false =>
      cases b₂ with
      | true =>
        have hueE : ue ∈ E := by
          rcases hcase with hcc | hcc
          · exact absurd hcc (by simp)
          · exact hcc
        simp only [Bool.false_eq_true, if_false, if_true]
        cases hc₂ : en₂.contains ue
        · simp only [Bool.false_eq_true, if_false]
          refine ⟨⟨h1, rfl, rfl, ?_⟩, ?_⟩
          · show ((ev₂ ++ [Event.mutEnrollInsert ue])).filter (fun ev => !enrollEdit ev)
              = (st₁.events ++ [Event.mutEnrollDelete ue]).filter
                (fun ev => !enrollEdit ev)
            rw [List.filter_append, List.filter_append, h4a]
            rfl
          · intro e he
            have hee : e ≠ ue := fun hx => he (hx ▸ hueE)
            have heb : (e == ue) = false := by simpa using hee
            show (en₂ ++ [ue]).contains e
              = (st₁.enroll.filter (fun s => s != ue)).contains e
            rw [c9_app, c9_del, heb, haga e he]
            simp
        · simp only [if_true]
          refine ⟨⟨h1, rfl, rfl, ?_⟩, ?_⟩
          · show (ev₂ ++ [Event.mutEnrollInsert ue]).filter (fun ev => !enrollEdit ev)
              = (st₁.events ++ [Event.mutEnrollDelete ue]).filter
                (fun ev => !enrollEdit ev)
            rw [List.filter_append, List.filter_append, h4a]
            rfl
          · intro e he
            have hee : e ≠ ue := fun hx => he (hx ▸ hueE)
            have heb : (e == ue) = false := by simpa using hee
            show en₂.contains e = (st₁.enroll.filter (fun s => s != ue)).contains e
            rw [c9_del, heb, haga e he]
            simp
      | false =>
        simp only [Bool.false_eq_true, if_false]
        refine ⟨⟨h1, rfl, rfl, ?_⟩, ?_⟩
        · exact c9_filter2 ev₂ st₁.events [Event.mutEnrollDelete ue] h4a
        · intro e he
          show (en₂.filter (fun s => s != ue)).contains e
            = (st₁.enroll.filter (fun s => s != ue)).contains e
          rw [c9_del, c9_del, haga e he]

theorem lookupGUser_mem (g : GoogleInput) (m : String) (d : GUser)
    (h : lookupGUser g m = some d) : d ∈ g.users :=
  List.mem_of_find?_eq_some h

theorem simR_addDec (l1 l2 : List String) (st₁ st₂ : St) (d : Decision)
    (h : simR l1 l2 st₁ st₂) : simR l1 l2 (st₁.addDec d) (st₂.addDec d) := by
  obtain ⟨h1, h2, h3, h4⟩ := h
  refine ⟨h1, h2, ?_, h4⟩
  simp only [addDec_decisions, h3]

theorem c9_users_group (cfg : Config) (e : String) (st : St) :
    (create_bi_group cfg noFaults e st).2.bi.users = st.bi.users := by
  simp only [create_bi_group, create_bi_group_post, noFaults, push_bi,
    beq_self_eq_true, if_true]
  cases hsc : st.bi.groups.filter (fun h => h.displayName == cfg.pfx ++ e) with
  | cons gr t => rfl
  | nil =>
    by_cases ht : cfg.testMode = true
    · simp only [ht, if_true, push_bi]
    · have ht2 : cfg.testMode = false := by
        cases hx : cfg.testMode
        · rfl
        · exact absurd hx ht
      simp only [ht2, Bool.false_eq_true, if_false, push_bi]

theorem c9_users_add (cfg : Config) (b gid : String) (st : St) :
    (add_user_to_group cfg noFaults b gid st).2.bi.users = st.bi.users := by
  simp only [add_user_to_group, noFaults, push_bi, beq_self_eq_true, if_true]
  cases hsc : lookupBIGroup st.bi gid with
  | none => rfl
  | some gr =>
    by_cases hc : gr.members.contains b = true
    · simp only [hc, if_true, push_bi]
    · have hc2 : gr.members.contains b = false := by
        cases hx : gr.members.contains b
        · rfl
        · exact absurd hx hc
      simp only [hc2, Bool.false_eq_true, if_false]
      by_cases ht : cfg.testMode = true
      · simp only [ht, if_true, push_bi]
      · have ht2 : cfg.testMode = false := by
          cases hx : cfg.testMode
          · rfl
          · exact absurd hx ht
        simp only [ht2, Bool.false_eq_true, if_false, push_bi]

theorem c9_users_remove (cfg : Config) (b gid : String) (st : St) :
    (remove_user_from_group cfg noFaults b gid st).2.bi.users = st.bi.users := by
  simp only [remove_user_from_group, noFaults, push_bi, beq_self_eq_true, if_true]
  cases hsc : lookupBIGroup st.bi gid with
  | none => rfl
  | some gr =>
    by_cases hc : (!gr.members.contains b) = true
    · simp only [hc, if_true, push_bi]
    · have hc2 : (!gr.members.contains b) = false := by
        cases hx : (!gr.members.contains b)
        · rfl
        · exact absurd hx hc
      simp only [hc2, Bool.false_eq_true, if_false]
      by_cases ht : cfg.testMode = true
      · simp only [ht, if_true, push_bi]
      · have ht2 : cfg.testMode = false := by
          cases hx : cfg.testMode
          · rfl
          · exact absurd hx ht
        simp only [ht2, Bool.false_eq_true, if_false, push_bi]

theorem c9_uuP_suspend (cfg : Config) (uu : String) (E : List String) (g : GoogleInput)
    (b : String) (st : St) (hup : uuProtect uu E g st.bi.users) :
    uuProtect uu E g (suspend_user cfg noFaults b st).2.bi.users := by
  have hkey : uuProtect uu E g
      (st.bi.users.map (fun v => if v.id == b then { v with active := false } else v)) := by
    intro v hv hvid
    rw [List.mem_map] at hv
    obtain ⟨w, hw, hwv⟩ := hv
    by_cases hwb : (w.id == b) = true
    · rw [if_pos hwb] at hwv
      subst hwv
      exact hup w hw hvid
    · rw [if_neg hwb] at hwv
      subst hwv
      exact hup w hw hvid
  simp only [suspend_user, noFaults, push_bi, beq_self_eq_true, if_true]
  cases hsc : lookupBIUser st.bi b with
  | none => exact hup
  | some u =>
    by_cases hc : (u.active == false) = true
    · simp only [hc, if_true, push_bi]
      exact hup
    · have hc2 : (u.active == false) = false := by
        cases hx : (u.active == false)
        · rfl
        · exact absurd hx hc
      simp only [hc2, Bool.false_eq_true, if_false]
      by_cases ht : cfg.testMode = true
      · simp only [ht, if_true, push_bi]
        exact hup
      · have ht2 : cfg.testMode = false := by
          cases hx : cfg.testMode
          · rfl
          · exact absurd hx ht
        simp only [ht2, Bool.false_eq_true, if_false, push_bi]
        exact hkey

theorem c9_cou_protect (cfg : Config) (g : GoogleInput) (uu : String) (E : List String)
    (d : GUser) (st : St)
    (hl : cfg.testMode = false)
    (hd : d ∈ g.users) (hgn : (g.users.map (fun x => x.id)).Nodup)
    (huno : strStarts uu "bi-user-" = false)
    (hup : uuProtect uu E g st.bi.users) :
    uuProtect uu E g (create_or_update_bi_user cfg noFaults d st).2.bi.users ∧
    (∀ bb, (create_or_update_bi_user cfg noFaults d st).1 = some bb →
      bb = uu → d.primaryEmail ∈ E) := by
  simp only [create_or_update_bi_user, create_bi_user_post, noFaults, push_bi,
    addDec_bi, hl, Bool.false_eq_true, if_false, beq_self_eq_true, if_true]
  cases hsc : st.bi.users.filter (fun u => u.externalId == some d.id) with
  | cons u t =>
    have humem : u ∈ st.bi.users ∧ (u.externalId == some d.id) = true := by
      have hmm : u ∈ st.bi.users.filter (fun u => u.externalId == some d.id) := by
        rw [hsc]
        exact List.mem_cons_self _ _
      simpa using hmm
    have huext : u.externalId = some d.id := by simpa using humem.2
    have hufact : u.id = uu → d.primaryEmail ∈ E := by
      intro hid
      exact (hup u humem.1 hid).2 d hd huext
    constructor
    · show uuProtect uu E g
        (st.bi.users.map (fun v => if v.id == u.id then updateBIUser v d else v))
      intro v hv hvid
      rw [List.mem_map] at hv
      obtain ⟨w, hw, hwv⟩ := hv
      by_cases hwb : (w.id == u.id) = true
      · rw [if_pos hwb] at hwv
        subst hwv
        have hwid : w.id = u.id := by simpa using hwb
        have huid : u.id = uu := by
          have hpr : (updateBIUser w d).id = w.id := rfl
          rw [hpr, hwid] at hvid
          exact hvid
        refine ⟨?_, ?_⟩
        · show d.primaryEmail ∈ E
          exact hufact huid
        · intro d2 hd2 hx2
          have hdid : some d.id = some d2.id := hx2
          have hid2 : d.id = d2.id := by simpa using hdid
          have hdd : d = d2 := by
            have hinj := List.inj_on_of_nodup_map hgn
            exact hinj hd hd2 hid2
          rw [← hdd]
          exact hufact huid
      · rw [if_neg hwb] at hwv
        subst hwv
        exact hup w hw hvid
    · intro bb hbb hbu
      have hbb2 : some u.id = some bb := hbb
      have hbbu : bb = u.id := by simpa using hbb2.symm
      exact hufact (hbbu ▸ hbu)
  | nil =>
    constructor
    · show uuProtect uu E g (st.bi.users ++
        [{ id := freshUserId st.bi.nextUid, externalId := some d.id,
           userName := d.primaryEmail, givenName := d.givenName,
           familyName := d.familyName, active := true }])
      intro v hv hvid
      rw [List.mem_append] at hv
      rcases hv with hv | hv
      · exact hup v hv hvid
      · have hv2 := List.mem_singleton.mp hv
        have hvi : v.id = freshUserId st.bi.nextUid := by rw [hv2]
        rw [hvi] at hvid
        have hmk := freshUserId_marked st.bi.nextUid
        rw [hvid, huno] at hmk
        exact absurd hmk (by simp)
    · intro bb hbb hbu
      have hbb2 : some (freshUserId st.bi.nextUid) = some bb := hbb
      have hbbu : bb = freshUserId st.bi.nextUid := by simpa using hbb2.symm
      have hmk := freshUserId_marked st.bi.nextUid
      rw [← hbbu, hbu, huno] at hmk
      exact absurd hmk (by simp)

theorem c9_bi_update_byid (cfg : Config) (ge ue : String) (flag : Bool) (st : St) :
    (update_byid_enrolled_group cfg ge ue flag st).bi = st.bi := by
  simp only [update_byid_enrolled_group]
  by_cases ht : cfg.testMode = true
  · rw [if_pos ht]
  · rw [if_neg ht]
    cases flag with
    | true =>
      rw [if_pos rfl]
      by_cases hc : (st.push [Event.mutEnrollInsert ue]).enroll.contains ue = true
      · rw [if_pos hc]
        rfl
      · rw [if_neg hc]
        rfl
    | false =>
      rw [if_neg (by simp)]
      rfl

theorem c9_processMember_pair (cfg : Config) (g : GoogleInput) (l1 l2 : List String)
    (uu : String) (E : List String) (byid ge gid : String) (acc : AllUsers)
    (st₁ st₂ : St) (m : String)
    (hl : cfg.testMode = false)
    (hgn : (g.users.map (fun x => x.id)).Nodup)
    (huno : strStarts uu "bi-user-" = false)
    (henl : ∀ b2, b2 ≠ uu → l2.contains b2 = l1.contains b2)
    (h : simR l1 l2 st₁ st₂) (hag : enrAgree E st₁ st₂)
    (hup : uuProtect uu E g st₁.bi.users) (hacc : accB uu E acc) :
    (processMember cfg g noFaults byid ge gid acc st₂ m).1
      = (processMember cfg g noFaults byid ge gid acc st₁ m).1 ∧
    simR l1 l2 (processMember cfg g noFaults byid ge gid acc st₁ m).2
      (processMember cfg g noFaults byid ge gid acc st₂ m).2 ∧
    enrAgree E (processMember cfg g noFaults byid ge gid acc st₁ m).2
      (processMember cfg g noFaults byid ge gid acc st₂ m).2 ∧
    uuProtect uu E g (processMember cfg g noFaults byid ge gid acc st₁ m).2.bi.users ∧
    accB uu E (processMember cfg g noFaults byid ge gid acc st₁ m).1 := by
  have hgde : get_user_details cfg g noFaults m
      = (lookupGUser g m, [Event.readUserDetails m]) := by
    simp [get_user_details, hl, noFaults]
  have hacc1 : accB uu E (setRec acc m
      { (getRec acc m).getD freshURec with
        groups := if ((getRec acc m).getD freshURec).groups.contains ge
                  then ((getRec acc m).getD freshURec).groups
                  else ((getRec acc m).getD freshURec).groups ++ [ge],
        was_in_group := true }) := by
    intro kv hkv hscim
    rcases mem_setRec _ _ _ _ hkv with hkv | hkv
    · subst hkv
      cases hget : getRec acc m with
      | none =>
        rw [hget] at hscim
        exact absurd hscim (by simp [freshURec])
      | some r0 =>
        rw [hget] at hscim
        have hmem := getRec_mem acc m r0 hget
        obtain ⟨b, un, hb, hun, hfact⟩ := hacc (m, r0) hmem (by simpa using hscim)
        exact ⟨b, un, hb, hun, hfact⟩
    · exact hacc kv hkv hscim
  cases hlu : lookupGUser g m with
  | none =>
    simp only [processMember, hgde, hlu]
    refine ⟨by trivial, ?_, ?_, ?_, ?_⟩
    · exact simR_addDec l1 l2 _ _ _ (simR_push l1 l2 st₁ st₂ _ h (by simp [enrollEdit]))
    · exact hag
    · exact hup
    · exact hacc1
  | some d =>
    simp only [processMember, hgde, hlu]
    have hdm : d ∈ g.users := lookupGUser_mem g m d hlu
    have hsim1 : simR l1 l2 (st₁.push [Event.readUserDetails m])
        (st₂.push [Event.readUserDetails m]) :=
      simR_push l1 l2 st₁ st₂ _ h (by simp [enrollEdit])
    obtain ⟨hcout, hcsim, hcen₁, hcen₂⟩ :=
      c9_create_or_update_pair cfg l1 l2 d _ _ hsim1
    obtain ⟨hcup, hcbid⟩ := c9_cou_protect cfg g uu E d
      (st₁.push [Event.readUserDetails m]) hl hdm hgn huno hup
    cases hcou₁ : create_or_update_bi_user cfg noFaults d
        (st₁.push [Event.readUserDetails m]) with
    | mk ob₁ stp₁ =>
    cases hcou₂ : create_or_update_bi_user cfg noFaults d
        (st₂.push [Event.readUserDetails m]) with
    | mk ob₂ stp₂ =>
    rw [hcou₁, hcou₂] at hcout hcsim
    rw [hcou₁] at hcen₁ hcup hcbid
    rw [hcou₂] at hcen₂
    simp only at hcout hcsim hcen₁ hcen₂ hcup hcbid
    have hagp : enrAgree E stp₁ stp₂ := by
      intro e he
      rw [hcen₁, hcen₂]
      exact hag e he
    cases ob₁ with
    | none =>
      cases ob₂ with
      | some bb => exact absurd hcout (by simp)
      | none =>
        exact ⟨rfl, hcsim, hagp, hcup, hacc1⟩
    | some bid =>
      cases ob₂ with
      | none => exact absurd hcout (by simp)
      | some bid₂ =>
      have hbid2 : bid = bid₂ := by simpa using hcout.symm
      subst hbid2
      dsimp only
      obtain ⟨haout, hasim, haen₁, haen₂⟩ := c9_add_pair cfg l1 l2 bid gid stp₁ stp₂ hcsim
      cases hadd₁ : add_user_to_group cfg noFaults bid gid stp₁ with
      | mk ab₁ sta₁ =>
      cases hadd₂ : add_user_to_group cfg noFaults bid gid stp₂ with
      | mk ab₂ sta₂ =>
      rw [hadd₁, hadd₂] at hasim
      rw [hadd₁] at haen₁
      rw [hadd₂] at haen₂
      simp only at hasim haen₁ haen₂
      try dsimp only
      have haup : uuProtect uu E g sta₁.bi.users := by
        have husers := c9_users_add cfg bid gid stp₁
        rw [hadd₁] at husers
        simp only at husers
        rw [husers]
        exact hcup
      have haag : enrAgree E sta₁ sta₂ := by
        intro e he
        rw [haen₁, haen₂, hcen₁, hcen₂]
        exact hag e he
      obtain ⟨heout, hesim, heen₁, heen₂⟩ :=
        c9_enrollment_pair l1 l2 uu bid sta₁ sta₂ hasim henl
      cases henr₁ : get_bi_enrollment_status noFaults bid sta₁ with
      | mk en₁ ste₁ =>
      cases henr₂ : get_bi_enrollment_status noFaults bid sta₂ with
      | mk en₂ ste₂ =>
      rw [henr₁, henr₂] at heout hesim
      rw [henr₁] at heen₁
      rw [henr₂] at heen₂
      simp only at heout hesim heen₁ heen₂
      try dsimp only
      have heup : uuProtect uu E g ste₁.bi.users := by
        have hst : ste₁ = sta₁.push [Event.readEnrollment bid] := by
          have hq : (get_bi_enrollment_status noFaults bid sta₁).2
              = sta₁.push [Event.readEnrollment bid] := rfl
          rw [henr₁] at hq
          exact hq
        rw [hst]
        exact haup
      have heag : enrAgree E ste₁ ste₂ := by
        intro e he
        rw [heen₁, heen₂]
        exact haag e he
      have hflag : en₁ = en₂ ∨ d.primaryEmail ∈ E := by
        by_cases hbu : bid = uu
        · exact Or.inr (hcbid bid rfl hbu)
        · exact Or.inl (heout hbu).symm
      obtain ⟨husim, huag⟩ := c9_update_byid_pair cfg l1 l2 E byid d.primaryEmail
        en₁ en₂ ste₁ ste₂ hesim heag hflag
      refine ⟨rfl, husim, huag, ?_, ?_⟩
      · have hbieq := c9_bi_update_byid cfg byid d.primaryEmail en₁ ste₁
        intro v hv hvid
        rw [hbieq] at hv
        exact heup v hv hvid
      · intro kv hkv hscim
        rcases mem_setRec _ _ _ _ hkv with hkv | hkv
        · subst hkv
          exact ⟨bid, d.primaryEmail, rfl, rfl, fun hb => hcbid bid rfl hb⟩
        · exact hacc1 kv hkv hscim

theorem c9_processMembers_pair (cfg : Config) (g : GoogleInput) (l1 l2 : List String)
    (uu : String) (E : List String) (byid ge gid : String)
    (hl : cfg.testMode = false)
    (hgn : (g.users.map (fun x => x.id)).Nodup)
    (huno : strStarts uu "bi-user-" = false)
    (henl : ∀ b2, b2 ≠ uu → l2.contains b2 = l1.contains b2) :
    ∀ (ms : List String) (acc : AllUsers) (st₁ st₂ : St),
    simR l1 l2 st₁ st₂ → enrAgree E st₁ st₂ →
    uuProtect uu E g st₁.bi.users → accB uu E acc →
    (processMembers cfg g noFaults byid ge gid ms (acc, st₂)).1
      = (processMembers cfg g noFaults byid ge gid ms (acc, st₁)).1 ∧
    simR l1 l2 (processMembers cfg g noFaults byid ge gid ms (acc, st₁)).2
      (processMembers cfg g noFaults byid ge gid ms (acc, st₂)).2 ∧
    enrAgree E (processMembers cfg g noFaults byid ge gid ms (acc, st₁)).2
      (processMembers cfg g noFaults byid ge gid ms (acc, st₂)).2 ∧
    uuProtect uu E g (processMembers cfg g noFaults byid ge gid ms (acc, st₁)).2.bi.users ∧
    accB uu E (processMembers cfg g noFaults byid ge gid ms (acc, st₁)).1 := by
  intro ms
  induction ms with
  | nil =>
    intro acc st₁ st₂ h hag hup hacc
    exact ⟨rfl, h, hag, hup, hacc⟩
  | cons m rest ih =>
    intro acc st₁ st₂ h hag hup hacc
    obtain ⟨hout, hsim, hagp, hupp, haccp⟩ :=
      c9_processMember_pair cfg g l1 l2 uu E byid ge gid acc st₁ st₂ m
        hl hgn huno henl h hag hup hacc
    simp only [processMembers]
    cases hpm₁ : processMember cfg g noFaults byid ge gid acc st₁ m with
    | mk acc₁ stm₁ =>
    cases hpm₂ : processMember cfg g noFaults byid ge gid acc st₂ m with
    | mk acc₂ stm₂ =>
    rw [hpm₁, hpm₂] at hout hsim hagp
    rw [hpm₁] at hupp haccp
    simp only at hout hsim hagp hupp haccp
    rw [hout]
    exact ih acc₁ stm₁ stm₂ hsim hagp hupp haccp

theorem c9_processGroup_pair (cfg : Config) (g : GoogleInput) (l1 l2 : List String)
    (uu : String) (E : List String) (byid e : String) (acc : AllUsers)
    (st₁ st₂ : St)
    (hl : cfg.testMode = false)
    (hgn : (g.users.map (fun x => x.id)).Nodup)
    (huno : strStarts uu "bi-user-" = false)
    (henl : ∀ b2, b2 ≠ uu → l2.contains b2 = l1.contains b2)
    (h : simR l1 l2 st₁ st₂) (hag : enrAgree E st₁ st₂)
    (hup : uuProtect uu E g st₁.bi.users) (hacc : accB uu E acc) :
    (processGroup cfg g noFaults byid (acc, st₂) e).1
      = (processGroup cfg g noFaults byid (acc, st₁) e).1 ∧
    simR l1 l2 (processGroup cfg g noFaults byid (acc, st₁) e).2
      (processGroup cfg g noFaults byid (acc, st₂) e).2 ∧
    enrAgree E (processGroup cfg g noFaults byid (acc, st₁) e).2
      (processGroup cfg g noFaults byid (acc, st₂) e).2 ∧
    uuProtect uu E g (processGroup cfg g noFaults byid (acc, st₁) e).2.bi.users ∧
    accB uu E (processGroup cfg g noFaults byid (acc, st₁) e).1 := by
  obtain ⟨hgout, hgsim, hgen₁, hgen₂⟩ := c9_create_bi_group_pair cfg l1 l2 e st₁ st₂ h
  have hgup : uuProtect uu E g (create_bi_group cfg noFaults e st₁).2.bi.users := by
    rw [c9_users_group]
    exact hup
  simp only [processGroup]
  cases hcg₁ : create_bi_group cfg noFaults e st₁ with
  | mk og₁ stg₁ =>
  cases hcg₂ : create_bi_group cfg noFaults e st₂ with
  | mk og₂ stg₂ =>
  rw [hcg₁, hcg₂] at hgout hgsim
  rw [hcg₁] at hgen₁ hgup
  rw [hcg₂] at hgen₂
  simp only at hgout hgsim hgen₁ hgen₂ hgup
  have hgag : enrAgree E stg₁ stg₂ := by
    intro x hx
    rw [hgen₁, hgen₂]
    exact hag x hx
  cases og₁ with
  | none =>
    cases og₂ with
    | some gg => exact absurd hgout (by simp)
    | none => exact ⟨rfl, hgsim, hgag, hgup, hacc⟩
  | some gid =>
    cases og₂ with
    | none => exact absurd hgout (by simp)
    | some gid₂ =>
    have hg2 : gid = gid₂ := by simpa using hgout.symm
    subst hg2
    exact c9_processMembers_pair cfg g l1 l2 uu E byid e gid hl hgn huno henl
      _ acc _ _
      (simR_push l1 l2 stg₁ stg₂ _ hgsim (by simp [enrollEdit]))
      hgag hgup hacc

theorem c9_processGroups_pair (cfg : Config) (g : GoogleInput) (l1 l2 : List String)
    (uu : String) (E : List String) (byid : String)
    (hl : cfg.testMode = false)
    (hgn : (g.users.map (fun x => x.id)).Nodup)
    (huno : strStarts uu "bi-user-" = false)
    (henl : ∀ b2, b2 ≠ uu → l2.contains b2 = l1.contains b2) :
    ∀ (es : List String) (acc : AllUsers) (st₁ st₂ : St),
    simR l1 l2 st₁ st₂ → enrAgree E st₁ st₂ →
    uuProtect uu E g st₁.bi.users → accB uu E acc →
    (processGroups cfg g noFaults byid es (acc, st₂)).1
      = (processGroups cfg g noFaults byid es (acc, st₁)).1 ∧
    simR l1 l2 (processGroups cfg g noFaults byid es (acc, st₁)).2
      (processGroups cfg g noFaults byid es (acc, st₂)).2 ∧
    enrAgree E (processGroups cfg g noFaults byid es (acc, st₁)).2
      (processGroups cfg g noFaults byid es (acc, st₂)).2 ∧
    uuProtect uu E g (processGroups cfg g noFaults byid es (acc, st₁)).2.bi.users ∧
    accB uu E (processGroups cfg g noFaults byid es (acc, st₁)).1 := by
  intro es
  induction es with
  | nil =>
    intro acc st₁ st₂ h hag hup hacc
    exact ⟨rfl, h, hag, hup, hacc⟩
  | cons e rest ih =>
    intro acc st₁ st₂ h hag hup hacc
    obtain ⟨hout, hsim, hagp, hupp, haccp⟩ :=
      c9_processGroup_pair cfg g l1 l2 uu E byid e acc st₁ st₂
        hl hgn huno henl h hag hup hacc
    simp only [processGroups]
    cases hpg₁ : processGroup cfg g noFaults byid (acc, st₁) e with
    | mk acc₁ stg₁ =>
    cases hpg₂ : processGroup cfg g noFaults byid (acc, st₂) e with
    | mk acc₂ stg₂ =>
    rw [hpg₁, hpg₂] at hout hsim hagp
    rw [hpg₁] at hupp haccp
    simp only at hout hsim hagp hupp haccp
    rw [hout]
    exact ih acc₁ stg₁ stg₂ hsim hagp hupp haccp

theorem c9_offb_inner_pair (cfg : Config) (g : GoogleInput) (l1 l2 : List String)
    (uu : String) (E : List String) (bid : String) :
    ∀ (gvs : List (String × String)) (st₁ st₂ : St),
    simR l1 l2 st₁ st₂ → enrAgree E st₁ st₂ → uuProtect uu E g st₁.bi.users →
    simR l1 l2
      (gvs.foldl (fun st gv =>
        if strStarts gv.2 cfg.pfx then (remove_user_from_group cfg noFaults bid gv.1 st).2
        else st) st₁)
      (gvs.foldl (fun st gv =>
        if strStarts gv.2 cfg.pfx then (remove_user_from_group cfg noFaults bid gv.1 st).2
        else st) st₂) ∧
    enrAgree E
      (gvs.foldl (fun st gv =>
        if strStarts gv.2 cfg.pfx then (remove_user_from_group cfg noFaults bid gv.1 st).2
        else st) st₁)
      (gvs.foldl (fun st gv =>
        if strStarts gv.2 cfg.pfx then (remove_user_from_group cfg noFaults bid gv.1 st).2
        else st) st₂) ∧
    uuProtect uu E g
      ((gvs.foldl (fun st gv =>
        if strStarts gv.2 cfg.pfx then (remove_user_from_group cfg noFaults bid gv.1 st).2
        else st) st₁)).bi.users := by
  intro gvs
  induction gvs with
  | nil =>
    intro st₁ st₂ h hag hup
    exact ⟨h, hag, hup⟩
  | cons gv rest ih =>
    intro st₁ st₂ h hag hup
    simp only [List.foldl_cons]
    by_cases hm : strStarts gv.2 cfg.pfx = true
    · rw [if_pos hm, if_pos hm]
      obtain ⟨hrout, hrsim, hren₁, hren₂⟩ := c9_remove_pair cfg l1 l2 bid gv.1 st₁ st₂ h
      refine ih _ _ hrsim ?_ ?_
      · intro x hx
        rw [hren₁, hren₂]
        exact hag x hx
      · rw [c9_users_remove]
        exact hup
    · rw [if_neg hm, if_neg hm]
      exact ih st₁ st₂ h hag hup

theorem c9_offboardRemovals_pair (cfg : Config) (g : GoogleInput) (l1 l2 : List String)
    (uu : String) (E : List String) (bid : String) (snap : List BIUserView) :
    ∀ (st₁ st₂ : St),
    simR l1 l2 st₁ st₂ → enrAgree E st₁ st₂ → uuProtect uu E g st₁.bi.users →
    simR l1 l2 (offboardRemovals cfg noFaults snap bid st₁)
      (offboardRemovals cfg noFaults snap bid st₂) ∧
    enrAgree E (offboardRemovals cfg noFaults snap bid st₁)
      (offboardRemovals cfg noFaults snap bid st₂) ∧
    uuProtect uu E g (offboardRemovals cfg noFaults snap bid st₁).bi.users := by
  induction snap with
  | nil =>
    intro st₁ st₂ h hag hup
    exact ⟨h, hag, hup⟩
  | cons v rest ih =>
    intro st₁ st₂ h hag hup
    simp only [offboardRemovals, List.foldl_cons] at *
    by_cases hv : (v.id == bid) = true
    · rw [if_pos hv, if_pos hv]
      obtain ⟨hsim, hagp, hupp⟩ :=
        c9_offb_inner_pair cfg g l1 l2 uu E bid v.groups st₁ st₂ h hag hup
      exact ih _ _ hsim hagp hupp
    · rw [if_neg hv, if_neg hv]
      exact ih st₁ st₂ h hag hup

theorem c9_sweepRecord_pair (cfg : Config) (g : GoogleInput) (l1 l2 : List String)
    (uu : String) (E : List String) (byid : String) (snap : List BIUserView)
    (kv : String × URec) (st₁ st₂ : St)
    (hl : cfg.testMode = false)
    (henl : ∀ b2, b2 ≠ uu → l2.contains b2 = l1.contains b2)
    (h : simR l1 l2 st₁ st₂) (hag : enrAgree E st₁ st₂)
    (hup : uuProtect uu E g st₁.bi.users)
    (hkv : kv.2.is_scim_user = true →
      ∃ b un, kv.2.bi_id = some b ∧ kv.2.username = some un ∧ (b = uu → un ∈ E)) :
    simR l1 l2 (sweepRecord cfg noFaults snap byid st₁ kv)
      (sweepRecord cfg noFaults snap byid st₂ kv) ∧
    enrAgree E (sweepRecord cfg noFaults snap byid st₁ kv)
      (sweepRecord cfg noFaults snap byid st₂ kv) ∧
    uuProtect uu E g (sweepRecord cfg noFaults snap byid st₁ kv).bi.users := by
  simp only [sweepRecord]
  by_cases hs : (!kv.2.is_scim_user) = true
  · rw [if_pos hs, if_pos hs]
    exact ⟨h, hag, hup⟩
  · rw [if_neg hs, if_neg hs]
    have hscim : kv.2.is_scim_user = true := by
      cases hx : kv.2.is_scim_user
      · rw [hx] at hs
        exact absurd rfl hs
      · rfl
    obtain ⟨b, un, hb, hun, hfact⟩ := hkv hscim
    by_cases hw : (!kv.2.was_in_group) = true
    · rw [if_pos hw, if_pos hw]
      obtain ⟨hosim, hoag, houp⟩ := c9_offboardRemovals_pair cfg g l1 l2 uu E
        (kv.2.bi_id.getD "") snap _ _
        (simR_addDec l1 l2 st₁ st₂ _ h) hag hup
      obtain ⟨hsout, hssim, hsen₁, hsen₂⟩ := c9_suspend_pair cfg l1 l2
        (kv.2.bi_id.getD "") _ _ hosim
      have hsag : enrAgree E (suspend_user cfg noFaults (kv.2.bi_id.getD "")
          (offboardRemovals cfg noFaults snap (kv.2.bi_id.getD "")
            (st₁.addDec (Decision.offboard kv.1)))).2
          (suspend_user cfg noFaults (kv.2.bi_id.getD "")
            (offboardRemovals cfg noFaults snap (kv.2.bi_id.getD "")
              (st₂.addDec (Decision.offboard kv.1)))).2 := by
        intro x hx
        rw [hsen₁, hsen₂]
        exact hoag x hx
      obtain ⟨husim, huag⟩ := c9_update_byid_pair cfg l1 l2 E byid
        (kv.2.username.getD "") false false _ _ hssim hsag (Or.inl rfl)
      refine ⟨husim, huag, ?_⟩
      rw [c9_bi_update_byid]
      exact c9_uuP_suspend cfg uu E g _ _ houp
    · rw [if_neg hw, if_neg hw]
      obtain ⟨heout, hesim, heen₁, heen₂⟩ :=
        c9_enrollment_pair l1 l2 uu (kv.2.bi_id.getD "") st₁ st₂ h henl
      cases henr₁ : get_bi_enrollment_status noFaults (kv.2.bi_id.getD "") st₁ with
      | mk en₁ ste₁ =>
      cases henr₂ : get_bi_enrollment_status noFaults (kv.2.bi_id.getD "") st₂ with
      | mk en₂ ste₂ =>
      rw [henr₁, henr₂] at heout hesim
      rw [henr₁] at heen₁
      rw [henr₂] at heen₂
      simp only at heout hesim heen₁ heen₂
      have heag : enrAgree E ste₁ ste₂ := by
        intro x hx
        rw [heen₁, heen₂]
        exact hag x hx
      have hflag : en₁ = en₂ ∨ (kv.2.username.getD "") ∈ E := by
        by_cases hbu : (kv.2.bi_id.getD "") = uu
        · refine Or.inr ?_
          have hbb : b = uu := by
            rw [hb] at hbu
            simpa using hbu
          have hune : un ∈ E := hfact hbb
          rw [hun]
          simpa using hune
        · exact Or.inl (heout hbu).symm
      obtain ⟨husim, huag⟩ := c9_update_byid_pair cfg l1 l2 E byid
        (kv.2.username.getD "") en₁ en₂ ste₁ ste₂ hesim heag hflag
      refine ⟨husim, huag, ?_⟩
      rw [c9_bi_update_byid]
      have hst : ste₁ = st₁.push [Event.readEnrollment (kv.2.bi_id.getD "")] := by
        have hq : (get_bi_enrollment_status noFaults (kv.2.bi_id.getD "") st₁).2
            = st₁.push [Event.readEnrollment (kv.2.bi_id.getD "")] := rfl
        rw [henr₁] at hq
        exact hq
      rw [hst]
      exact hup

theorem c9_sweepRecords_pair (cfg : Config) (g : GoogleInput) (l1 l2 : List String)
    (uu : String) (E : List String) (byid : String) (snap : List BIUserView)
    (hl : cfg.testMode = false)
    (henl : ∀ b2, b2 ≠ uu → l2.contains b2 = l1.contains b2) :
    ∀ (acc : AllUsers) (st₁ st₂ : St),
    simR l1 l2 st₁ st₂ → enrAgree E st₁ st₂ →
    uuProtect uu E g st₁.bi.users → accB uu E acc →
    simR l1 l2 (sweepRecords cfg noFaults snap byid acc st₁)
      (sweepRecords cfg noFaults snap byid acc st₂) ∧
    enrAgree E (sweepRecords cfg noFaults snap byid acc st₁)
      (sweepRecords cfg noFaults snap byid acc st₂) := by
  intro acc
  induction acc with
  | nil =>
    intro st₁ st₂ h hag hup hacc
    exact ⟨h, hag⟩
  | cons kv rest ih =>
    intro st₁ st₂ h hag hup hacc
    simp only [sweepRecords]
    obtain ⟨hsim, hagp, hupp⟩ := c9_sweepRecord_pair cfg g l1 l2 uu E byid snap kv
      st₁ st₂ hl henl h hag hup
      (fun hscim => hacc kv (List.mem_cons_self _ _) hscim)
    exact ih _ _ hsim hagp hupp
      (fun kv2 hkv2 hscim => hacc kv2 (List.mem_cons_of_mem _ hkv2) hscim)

theorem c9_accB_seed (uu : String) (E : List String) (g : GoogleInput) (s : BIState)
    (hup : uuProtect uu E g s.users) : accB uu E (seedUsers (snapshotOf s)) := by
  intro kv hkv hscim
  obtain ⟨v, hv, hvx, hvscim, hval⟩ := mem_seedUsers _ kv hkv
  obtain ⟨w, hw, hid, hext, hname⟩ := mem_snapshotOf s v hv
  refine ⟨v.id, v.userName, by rw [hval]; rfl, by rw [hval]; rfl, ?_⟩
  intro hbu
  rw [hname]
  refine (hup w hw ?_).1
  rw [← hid]
  exact hbu

theorem c9_bi_ensure (cfg : Config) (g : GoogleInput) (st : St) :
    (create_or_get_byid_enrolled_group cfg g noFaults st).2.bi = st.bi := by
  simp only [create_or_get_byid_enrolled_group, noFaults]
  by_cases ht : cfg.testMode = true
  · rw [if_pos ht]
  · rw [if_neg ht]
    by_cases hex : g.enrollGroupExists = true
    · rw [if_pos hex]
      rfl
    · rw [if_neg hex]
      rfl

theorem c9_runPass_pair (cfg : Config) (g : GoogleInput) (l1 l2 : List String)
    (uu : String) (E : List String) (byid : String) (snap : List BIUserView)
    (st₁ st₂ : St)
    (hl : cfg.testMode = false)
    (hgn : (g.users.map (fun x => x.id)).Nodup)
    (huno : strStarts uu "bi-user-" = false)
    (henl : ∀ b2, b2 ≠ uu → l2.contains b2 = l1.contains b2)
    (h : simR l1 l2 st₁ st₂) (hag : enrAgree E st₁ st₂)
    (hup : uuProtect uu E g st₁.bi.users)
    (hacc : accB uu E (seedUsers snap)) :
    simR l1 l2 (runPass cfg g noFaults byid snap st₁)
      (runPass cfg g noFaults byid snap st₂) ∧
    enrAgree E (runPass cfg g noFaults byid snap st₁)
      (runPass cfg g noFaults byid snap st₂) := by
  simp only [runPass]
  obtain ⟨hout, hsim, hagp, hupp, haccp⟩ :=
    c9_processGroups_pair cfg g l1 l2 uu E byid hl hgn huno henl
      cfg.gwsGroups (seedUsers snap) st₁ st₂ h hag hup hacc
  cases hp₁ : processGroups cfg g noFaults byid cfg.gwsGroups (seedUsers snap, st₁) with
  | mk acc₁ stp₁ =>
  cases hp₂ : processGroups cfg g noFaults byid cfg.gwsGroups (seedUsers snap, st₂) with
  | mk acc₂ stp₂ =>
  rw [hp₁, hp₂] at hout hsim hagp
  rw [hp₁] at hupp haccp
  simp only at hout hsim hagp hupp haccp
  rw [hout]
  exact c9_sweepRecords_pair cfg g l1 l2 uu E byid snap hl henl acc₁ stp₁ stp₂
    hsim hagp hupp haccp

/-- C9: A live fault-free pass is insensitive to one user's native enrollment
flag, outside that user's own addresses.  If two initial tenants differ only
in the `enrolled` flag list, and only at the id `uu` of a user whose
userName — and the primaryEmail of any source user they are provisioned
from — lie in the address set `E`, and `uu` is not of the server-fresh
`bi-user-` shape, and source ids are unique, then the two passes abort
identically, end with identical tenant users and groups, emit identical
decision sequences and identical event traces apart from `BYID_Enrolled`
membership edits, and leave `BYID_Enrolled` memberships agreeing on every
address outside `E`. -/
theorem enrollment_flag_independence (cfg : Config) (g : GoogleInput) (s : BIState)
    (l2 : List String) (uu : String) (E : List String)
    (hl : cfg.testMode = false)
    (hgn : (g.users.map (fun x => x.id)).Nodup)
    (huno : strStarts uu "bi-user-" = false)
    (henl : ∀ b2, b2 ≠ uu → l2.contains b2 = s.enrolled.contains b2)
    (hup : uuProtect uu E g s.users) :
    (runMain cfg g { s with enrolled := l2 } noFaults).aborted
      = (runMain cfg g s noFaults).aborted ∧
    (runMain cfg g { s with enrolled := l2 } noFaults).st.bi.users
      = (runMain cfg g s noFaults).st.bi.users ∧
    (runMain cfg g { s with enrolled := l2 } noFaults).st.bi.groups
      = (runMain cfg g s noFaults).st.bi.groups ∧
    (runMain cfg g { s with enrolled := l2 } noFaults).st.decisions
      = (runMain cfg g s noFaults).st.decisions ∧
    (runMain cfg g { s with enrolled := l2 } noFaults).st.events.filter
        (fun ev => !enrollEdit ev)
      = (runMain cfg g s noFaults).st.events.filter (fun ev => !enrollEdit ev) ∧
    ∀ e, e ∉ E →
      (runMain cfg g { s with enrolled := l2 } noFaults).st.enroll.contains e
        = (runMain cfg g s noFaults).st.enroll.contains e := by
  have hinit : simR s.enrolled l2 (initSt g s) (initSt g { s with enrolled := l2 }) :=
    ⟨rfl, rfl, rfl, rfl⟩
  obtain ⟨heout, hesim, heen₁, heen₂⟩ :=
    c9_enroll_ensure_pair cfg g s.enrolled l2 _ _ hinit
  simp only [runMain]
  cases hens₁ : create_or_get_byid_enrolled_group cfg g noFaults (initSt g s) with
  | mk ob₁ ste₁ =>
  cases hens₂ : create_or_get_byid_enrolled_group cfg g noFaults
      (initSt g { s with enrolled := l2 }) with
  | mk ob₂ ste₂ =>
  rw [hens₁, hens₂] at heout hesim
  rw [hens₁] at heen₁
  rw [hens₂] at heen₂
  simp only at heout hesim heen₁ heen₂
  have hbi₁ : ste₁.bi = s := by
    have hh := c9_bi_ensure cfg g (initSt g s)
    rw [hens₁] at hh
    exact hh
  have hbi₂ : ste₂.bi = { s with enrolled := l2 } := by
    have hh := c9_bi_ensure cfg g (initSt g { s with enrolled := l2 })
    rw [hens₂] at hh
    exact hh
  have hagste : enrAgree E ste₁ ste₂ := by
    intro e he
    rw [heen₁, heen₂]
    rfl
  cases ob₁ with
  | none =>
    cases ob₂ with
    | some bb => exact absurd heout (by simp)
    | none =>
      obtain ⟨hs1, hs2, hs3, hs4⟩ := hesim
      refine ⟨rfl, ?_, ?_, hs3, hs4, ?_⟩
      · show ste₂.bi.users = ste₁.bi.users
        rw [hs2]
      · show ste₂.bi.groups = ste₁.bi.groups
        rw [hs2]
      · intro e he
        exact hagste e he
  | some byid =>
    cases ob₂ with
    | none => exact absurd heout (by simp)
    | some byid₂ =>
    have hbb : byid = byid₂ := by simpa using heout.symm
    subst hbb
    dsimp only
    simp only [hl, Bool.false_eq_true, if_false,
      show (noFaults.listAllStatus == 200) = true from rfl, if_true]
    have hdsim : simR s.enrolled l2
        ((get_detailed_user_info noFaults "will.may@beyondidentity.dev" ste₁).2.push
          [Event.readListAllUsers])
        ((get_detailed_user_info noFaults "will.may@beyondidentity.dev" ste₂).2.push
          [Event.readListAllUsers]) := by
      refine simR_push s.enrolled l2 _ _ _ ?_ (by simp [enrollEdit])
      exact (c9_detailed_pair s.enrolled l2 "will.may@beyondidentity.dev"
        ste₁ ste₂ hesim).2.1
    have hdag : enrAgree E
        ((get_detailed_user_info noFaults "will.may@beyondidentity.dev" ste₁).2.push
          [Event.readListAllUsers])
        ((get_detailed_user_info noFaults "will.may@beyondidentity.dev" ste₂).2.push
          [Event.readListAllUsers]) := by
      intro e he
      exact hagste e he
    have hdup : uuProtect uu E g
        ((get_detailed_user_info noFaults "will.may@beyondidentity.dev" ste₁).2.push
          [Event.readListAllUsers]).bi.users := by
      intro v hv hvid
      have hv2 : v ∈ ste₁.bi.users := hv
      rw [hbi₁] at hv2
      exact hup v hv2 hvid
    have hsn₁ : snapshotOf
        ((get_detailed_user_info noFaults "will.may@beyondidentity.dev" ste₁).2.push
          [Event.readListAllUsers]).bi = snapshotOf s := by
      show snapshotOf ste₁.bi = snapshotOf s
      rw [hbi₁]
    have hsn₂ : snapshotOf
        ((get_detailed_user_info noFaults "will.may@beyondidentity.dev" ste₂).2.push
          [Event.readListAllUsers]).bi = snapshotOf s := by
      show snapshotOf ste₂.bi = snapshotOf s
      rw [hbi₂, snapshotOf_swapE]
    rw [hsn₁, hsn₂]
    obtain ⟨⟨hf1, hf2, hf3, hf4⟩, hfag⟩ :=
      c9_runPass_pair cfg g s.enrolled l2 uu E byid (snapshotOf s)
        _ _ hl hgn huno henl hdsim hdag hdup (c9_accB_seed uu E g s hup)
    refine ⟨by trivial, ?_, ?_, hf3, hf4, ?_⟩
    · show (runPass cfg g noFaults byid (snapshotOf s)
          ((get_detailed_user_info noFaults "will.may@beyondidentity.dev" ste₂).2.push
            [Event.readListAllUsers])).bi.users
        = (runPass cfg g noFaults byid (snapshotOf s)
          ((get_detailed_user_info noFaults "will.may@beyondidentity.dev" ste₁).2.push
            [Event.readListAllUsers])).bi.users
      rw [hf2]
    · show (runPass cfg g noFaults byid (snapshotOf s)
          ((get_detailed_user_info noFaults "will.may@beyondidentity.dev" ste₂).2.push
            [Event.readListAllUsers])).bi.groups
        = (runPass cfg g noFaults byid (snapshotOf s)
          ((get_detailed_user_info noFaults "will.may@beyondidentity.dev" ste₁).2.push
            [Event.readListAllUsers])).bi.groups
      rw [hf2]
    · intro e he
      exact hfag e he

theorem enrollment_flag_independence_witness :
    (runMain
      { gwsGroups := ["eng@co"], pfx := "GoogleSCIM_", domain := "co",
        testMode := false }
      { groupPages := [("eng@co", [["100000000000000000001"]])],
        users := [{ id := "100000000000000000001", primaryEmail := "u1@co",
                    givenName := "U", familyName := "One", suspended := false }],
        enrollGroupExists := true, enrollMembers := [] }
      { users := [{ id := "b1", externalId := some "100000000000000000001",
                    userName := "u1@co", givenName := "U", familyName := "One",
                    active := true }],
        groups := [{ id := "g1", displayName := "GoogleSCIM_eng@co",
                     members := ["b1"] }],
        enrolled := ["b1"], nextUid := 0, nextGid := 0 }
      noFaults).st.bi.users
      = (runMain
      { gwsGroups := ["eng@co"], pfx := "GoogleSCIM_", domain := "co",
        testMode := false }
      { groupPages := [("eng@co", [["100000000000000000001"]])],
        users := [{ id := "100000000000000000001", primaryEmail := "u1@co",
                    givenName := "U", familyName := "One", suspended := false }],
        enrollGroupExists := true, enrollMembers := [] }
      { users := [{ id := "b1", externalId := some "100000000000000000001",
                    userName := "u1@co", givenName := "U", familyName := "One",
                    active := true }],
        groups := [{ id := "g1", displayName := "GoogleSCIM_eng@co",
                     members := ["b1"] }],
        enrolled := [], nextUid := 0, nextGid := 0 }
      noFaults).st.bi.users ∧
    (runMain
      { gwsGroups := ["eng@co"], pfx := "GoogleSCIM_", domain := "co",
        testMode := false }
      { groupPages := [("eng@co", [["100000000000000000001"]])],
        users := [{ id := "100000000000000000001", primaryEmail := "u1@co",
                    givenName := "U", familyName := "One", suspended := false }],
        enrollGroupExists := true, enrollMembers := [] }
      { users := [{ id := "b1", externalId := some "100000000000000000001",
                    userName := "u1@co", givenName := "U", familyName := "One",
                    active := true }],
        groups := [{ id := "g1", displayName := "GoogleSCIM_eng@co",
                     members := ["b1"] }],
        enrolled := ["b1"], nextUid := 0, nextGid := 0 }
      noFaults).st.decisions
      = (runMain
      { gwsGroups := ["eng@co"], pfx := "GoogleSCIM_", domain := "co",
        testMode := false }
      { groupPages := [("eng@co", [["100000000000000000001"]])],
        users := [{ id := "100000000000000000001", primaryEmail := "u1@co",
                    givenName := "U", familyName := "One", suspended := false }],
        enrollGroupExists := true, enrollMembers := [] }
      { users := [{ id := "b1", externalId := some "100000000000000000001",
                    userName := "u1@co", givenName := "U", familyName := "One",
                    active := true }],
        groups := [{ id := "g1", displayName := "GoogleSCIM_eng@co",
                     members := ["b1"] }],
        enrolled := [], nextUid := 0, nextGid := 0 }
      noFaults).st.decisions :=
  have h := enrollment_flag_independence
    { gwsGroups := ["eng@co"], pfx := "GoogleSCIM_", domain := "co",
        testMode := false }
    { groupPages := [("eng@co", [["100000000000000000001"]])],
        users := [{ id := "100000000000000000001", primaryEmail := "u1@co",
                    givenName := "U", familyName := "One", suspended := false }],
        enrollGroupExists := true, enrollMembers := [] }
    { users := [{ id := "b1", externalId := some "100000000000000000001",
                    userName := "u1@co", givenName := "U", familyName := "One",
                    active := true }],
        groups := [{ id := "g1", displayName := "GoogleSCIM_eng@co",
                     members := ["b1"] }],
        enrolled := [], nextUid := 0, nextGid := 0 }
    ["b1"] "b1" ["u1@co"]
    rfl (by decide) (by decide)
    (by
      intro b2 hb
      simp [hb])
    (by
      intro v hv hvid
      simp only [List.mem_singleton] at hv
      subst hv
      refine ⟨by simp, ?_⟩
      intro d hd hx
      simp only [List.mem_singleton] at hd
      subst hd
      simp)
  ⟨h.2.1, h.2.2.2.1⟩

end GWBI
